import Mathlib

/-!
# ExcelBench WolfXL patcher — verification of the natural-language specification

Shallow embedding of the `wolfxl` subsystem of the ExcelBench repository
(`src/rust/excelbench_rust/src/wolfxl/{sheet_patcher,styles,mod}.rs` and
`src/rust/excelbench_rust/src/util.rs`), together with theorems settling the
frozen claims C1–C10 about it.

Strings are embedded as `List Char` (the exact character sequences the Rust
code manipulates).  Rust `u32` values are embedded as `ℕ`; overflow cannot
occur on the executions quantified by the claims (columns are bounded by
Excel's limit, row numbers by the `u32` domain), and the one place where a
`u32` range check is an observable behavior — `str::parse::<u32>` — is
modelled with an explicit `< 2 ^ 32` test.
-/

set_option maxHeartbeats 1600000

namespace ExcelBench

/-- Character sequences, the embedding of Rust `&str` / `String`. -/
abbrev Str := List Char

/-- Coerce a Lean string literal to the embedding. -/
def str (s : String) : Str := s.data

/-- Rust `char::is_ascii_alphabetic`. -/
def isAsciiAlphabetic (c : Char) : Bool :=
  (65 ≤ c.toNat && c.toNat ≤ 90) || (97 ≤ c.toNat && c.toNat ≤ 122)

/-- Rust `char::is_ascii_digit`. -/
def isAsciiDigit (c : Char) : Bool :=
  48 ≤ c.toNat && c.toNat ≤ 57

/-- Rust `char::to_ascii_uppercase`: shift a lowercase ASCII letter up by 32. -/
def toAsciiUppercase (c : Char) : Char :=
  if 97 ≤ c.toNat && c.toNat ≤ 122 then Char.ofNat (c.toNat - 32) else c

/-- Numeric value of a decimal digit list (accumulator fold, as Rust's
`str::parse` computes it over an all-digit string). -/
def digitsVal (ds : Str) : Nat :=
  ds.foldl (fun a c => a * 10 + (c.toNat - 48)) 0

/-- Rust `str::parse::<u32>()` on a string known to consist of decimal digits:
fails on the empty string and on values outside the `u32` range. -/
def parseU32 (ds : Str) : Option Nat :=
  if ds = [] then none
  else if digitsVal ds < 2 ^ 32 then some (digitsVal ds) else none

/-- The optional leading `+` accepted by `str::parse` for unsigned
integers. -/
def stripSign : Str → Str
  | '+' :: t => t
  | s => s

/-- Rust `str::parse::<u32>()` on an arbitrary string: an optional leading
`+`, then one or more decimal digits whose value fits in `u32`; anything
else fails. -/
def parseU32F (s : Str) : Option Nat :=
  if stripSign s ≠ [] ∧ (stripSign s).all isAsciiDigit = true then
    parseU32 (stripSign s)
  else none

theorem stripSign_of_digits (s : Str) (hs : s.all isAsciiDigit = true) :
    stripSign s = s := by
  rcases s with _ | ⟨c, t⟩
  · rfl
  · have hc : isAsciiDigit c = true := by
      simp only [List.all_cons, Bool.and_eq_true] at hs
      exact hs.1
    have hcp : ¬ c = '+' := by
      intro h
      rw [h] at hc
      exact absurd hc (by decide)
    rw [stripSign.eq_def]
    split
    · rename_i heq
      cases heq
      exact absurd rfl hcp
    · rfl

theorem parseU32F_of_digits (s : Str) (hs : s.all isAsciiDigit = true)
    (hne : s ≠ []) : parseU32F s = parseU32 s := by
  rw [parseU32F, stripSign_of_digits s hs, if_pos ⟨hne, hs⟩]

/-- Fuel-driven body of `natDecimal`; `fuel > n` always suffices, and the
fuel argument exists only to make the recursion structural (hence
kernel-reducible). -/
def natDecimalF : Nat → Nat → Str
  | 0, _ => []
  | fuel + 1, n =>
    if n < 10 then [Char.ofNat (48 + n)]
    else natDecimalF fuel (n / 10) ++ [Char.ofNat (48 + n % 10)]

/-- Rust `u32` `Display` formatting (`format!("{n}")`): decimal digits,
most significant first, no sign, no leading zeros. -/
def natDecimal (n : Nat) : Str := natDecimalF (n + 1) n

theorem natDecimalF_irrel (f1 : Nat) : ∀ f2 n, n < f1 → n < f2 →
    natDecimalF f1 n = natDecimalF f2 n := by
  induction f1 with
  | zero => omega
  | succ f1 ih =>
    intro f2 n h1 h2
    match f2 with
    | 0 => omega
    | f2 + 1 =>
      simp only [natDecimalF]
      split
      · rfl
      · rw [ih f2 (n / 10) (by omega) (by omega)]

-- ---------------------------------------------------------------------------
-- src/util.rs
-- ---------------------------------------------------------------------------

/-- One step of the character loop of `a1_to_row_col` (src/util.rs:11-21):
accumulate column value on ASCII letters, collect row digits, or fail.
The column accumulator is a `u32` (`col = col * 26 + val` at util.rs:15),
so it wraps modulo `2 ^ 32` (release semantics; a build with overflow
checks would abort instead of returning at all). -/
def a1Step (acc : Option (Nat × Str)) (ch : Char) : Option (Nat × Str) :=
  match acc with
  | none => none
  | some (col, rowDigits) =>
    if isAsciiAlphabetic ch then
      some ((col * 26 + (toAsciiUppercase ch).toNat - 65 + 1) % 2 ^ 32,
        rowDigits)
    else if isAsciiDigit ch then
      some (col, rowDigits ++ [ch])
    else
      none

/-- `a1_to_row_col` (src/util.rs:7-35): parse an A1 reference into a 0-based
(row, col) pair, or an error on a non-alphanumeric character, a missing
column, a missing row, a row of 0, or a row outside the `u32` range. -/
def a1ToRowCol (a1 : Str) : Except Str (Nat × Nat) :=
  let err : Except Str (Nat × Nat) := .error (str "Invalid cell reference: " ++ a1)
  match a1.foldl a1Step (some (0, [])) with
  | none => err
  | some (col, rowDigits) =>
    if col = 0 ∨ rowDigits = [] then err
    else
      match parseU32 rowDigits with
      | none => err
      | some row1 => if row1 = 0 then err else .ok (row1 - 1, col - 1)

-- ---------------------------------------------------------------------------
-- src/wolfxl/sheet_patcher.rs : cell references
-- ---------------------------------------------------------------------------

/-- One step of the character loop of `parse_cell_ref`
(src/wolfxl/sheet_patcher.rs:471-477): letters extend the column value,
digits extend the row string, anything else is ignored. -/
def cellRefStep (acc : Nat × Str) (ch : Char) : Nat × Str :=
  if isAsciiAlphabetic ch then
    (acc.1 * 26 + (toAsciiUppercase ch).toNat - 65 + 1, acc.2)
  else if isAsciiDigit ch then
    (acc.1, acc.2 ++ [ch])
  else acc

/-- `parse_cell_ref` (src/wolfxl/sheet_patcher.rs:467-481): parse a cell
reference like "B3" into (row, col), both 1-based, defaulting the row to 0
when the digit part fails to parse. -/
def parseCellRef (cellRef : Str) : Nat × Nat :=
  let acc := cellRef.foldl cellRefStep (0, [])
  ((parseU32 acc.2).getD 0, acc.1)

/-- Fuel-driven body of `colLetters`; `fuel ≥ c` always suffices, and the
fuel argument exists only to make the recursion structural (hence
kernel-reducible). -/
def colLettersF : Nat → Nat → Str
  | 0, _ => []
  | fuel + 1, c =>
    match c with
    | 0 => []
    | c + 1 => colLettersF fuel (c / 26) ++ [Char.ofNat (65 + c % 26)]

/-- The letter part of `col_row_to_a1` (src/wolfxl/sheet_patcher.rs:486-491):
bijective base-26 numeral of the column, built by the
`while c > 0 { c -= 1; insert front; c /= 26 }` loop. -/
def colLetters (c : Nat) : Str := colLettersF c c

theorem colLettersF_irrel (f1 : Nat) : ∀ f2 c, c ≤ f1 → c ≤ f2 →
    colLettersF f1 c = colLettersF f2 c := by
  induction f1 with
  | zero =>
    intro f2 c h1 _
    interval_cases c
    match f2 with
    | 0 => rfl
    | f2 + 1 => rfl
  | succ f1 ih =>
    intro f2 c h1 h2
    match c with
    | 0 =>
      match f2 with
      | 0 => rfl
      | f2 + 1 => rfl
    | c + 1 =>
      match f2 with
      | 0 => omega
      | f2 + 1 =>
        simp only [colLettersF]
        rw [ih f2 (c / 26) (by omega) (by omega)]

/-- `col_row_to_a1` (src/wolfxl/sheet_patcher.rs:484-493): 1-based
(col, row) to an A1-style reference string. -/
def colRowToA1 (col row : Nat) : Str :=
  colLetters col ++ natDecimal row

-- ---------------------------------------------------------------------------
-- Roundtrip lemmas for the reference conversion
-- ---------------------------------------------------------------------------

theorem natDecimal_eq_ite (n : Nat) :
    natDecimal n = if n < 10 then [Char.ofNat (48 + n)]
      else natDecimal (n / 10) ++ [Char.ofNat (48 + n % 10)] := by
  show natDecimalF (n + 1) n = _
  rw [natDecimalF]
  split
  · rfl
  · rw [natDecimalF_irrel n (n / 10 + 1) (n / 10) (by omega) (by omega)]
    rfl

theorem char_ofNat_toNat_of_lt (n : Nat) (h : n < 0xd800) :
    (Char.ofNat n).toNat = n := by
  have hv : n.isValidChar := Or.inl h
  simp [Char.ofNat, hv, Char.toNat, Char.ofNatAux, UInt32.toNat,
    BitVec.toNat_ofNatLt]

theorem natDecimal_digits (n : Nat) :
    ∀ c ∈ natDecimal n, 48 ≤ c.toNat ∧ c.toNat ≤ 57 := by
  induction n using Nat.strong_induction_on with
  | _ n ih =>
    rw [natDecimal_eq_ite]
    split
    · intro c hc
      simp only [List.mem_singleton] at hc
      subst hc
      rw [char_ofNat_toNat_of_lt] <;> omega
    · intro c hc
      rcases List.mem_append.1 hc with h1 | h2
      · exact ih (n / 10) (Nat.div_lt_self (by omega) (by omega)) c h1
      · simp only [List.mem_singleton] at h2
        subst h2
        have : n % 10 < 10 := Nat.mod_lt _ (by omega)
        rw [char_ofNat_toNat_of_lt] <;> omega

theorem natDecimal_ne_nil (n : Nat) : natDecimal n ≠ [] := by
  rw [natDecimal_eq_ite]
  split <;> simp

theorem digitsVal_append (a b : Str) :
    digitsVal (a ++ b) =
      b.foldl (fun x c => x * 10 + (c.toNat - 48)) (digitsVal a) := by
  simp [digitsVal, List.foldl_append]

theorem digitsVal_natDecimal (n : Nat) : digitsVal (natDecimal n) = n := by
  induction n using Nat.strong_induction_on with
  | _ n ih =>
    rw [natDecimal_eq_ite]
    split
    · simp only [digitsVal, List.foldl_cons, List.foldl_nil]
      rw [char_ofNat_toNat_of_lt] <;> omega
    · rw [digitsVal_append, ih (n / 10) (Nat.div_lt_self (by omega) (by omega))]
      simp only [List.foldl_cons, List.foldl_nil]
      rw [char_ofNat_toNat_of_lt (48 + n % 10) (by omega)]
      have h10 : n % 10 < 10 := Nat.mod_lt _ (by omega)
      omega

theorem parseU32_natDecimal (n : Nat) (h : n < 2 ^ 32) :
    parseU32 (natDecimal n) = some n := by
  have hlt : digitsVal (natDecimal n) < 2 ^ 32 := by
    rw [digitsVal_natDecimal]; exact h
  have h4 : n < 4294967296 := by
    have : (2 : ℕ) ^ 32 = 4294967296 := by norm_num
    omega
  simp [parseU32, natDecimal_ne_nil, digitsVal_natDecimal, hlt, h4]

theorem colLetters_eq_ite (c : Nat) :
    colLetters c = if c = 0 then []
      else colLetters ((c - 1) / 26) ++ [Char.ofNat (65 + (c - 1) % 26)] := by
  match c with
  | 0 => rfl
  | c + 1 =>
    show colLettersF (c + 1) (c + 1) = _
    rw [colLettersF]
    rw [colLettersF_irrel c (c / 26) (c / 26) (Nat.div_le_self _ _)
      (Nat.le_refl _)]
    simp [colLetters]

theorem colLetters_upper (c : Nat) :
    ∀ ch ∈ colLetters c, 65 ≤ ch.toNat ∧ ch.toNat ≤ 90 := by
  induction c using Nat.strong_induction_on with
  | _ c ih =>
    rw [colLetters_eq_ite]
    split
    · simp
    · intro ch hch
      rcases List.mem_append.1 hch with h1 | h2
      · exact ih ((c - 1) / 26)
          (Nat.lt_of_le_of_lt (Nat.div_le_self _ _) (by omega)) ch h1
      · simp only [List.mem_singleton] at h2
        subst h2
        have : (c - 1) % 26 < 26 := Nat.mod_lt _ (by omega)
        rw [char_ofNat_toNat_of_lt] <;> omega

/-- Accumulator fold of the letter values, as `parse_cell_ref` computes it. -/
def letterVal (a : Nat) (xs : Str) : Nat :=
  xs.foldl (fun x ch => x * 26 + (toAsciiUppercase ch).toNat - 65 + 1) a

theorem toAsciiUppercase_of_upper (ch : Char) (h1 : 65 ≤ ch.toNat)
    (h2 : ch.toNat ≤ 90) : toAsciiUppercase ch = ch := by
  unfold toAsciiUppercase
  rw [if_neg]
  simp only [Bool.and_eq_true, decide_eq_true_eq, not_and]
  omega

theorem letterVal_append (a : Nat) (xs ys : Str) :
    letterVal a (xs ++ ys) = letterVal (letterVal a xs) ys := by
  simp [letterVal, List.foldl_append]

theorem letterVal_colLetters (a c : Nat) :
    letterVal a (colLetters c) = a * 26 ^ (colLetters c).length + c := by
  induction c using Nat.strong_induction_on generalizing a with
  | _ c ih =>
    rw [colLetters_eq_ite]
    split
    · simp [letterVal]
      omega
    · rw [letterVal_append, ih ((c - 1) / 26)
        (Nat.lt_of_le_of_lt (Nat.div_le_self _ _) (by omega))]
      have hm : (c - 1) % 26 < 26 := Nat.mod_lt _ (by omega)
      have hch : (Char.ofNat (65 + (c - 1) % 26)).toNat = 65 + (c - 1) % 26 :=
        char_ofNat_toNat_of_lt _ (by omega)
      simp only [letterVal, List.foldl_cons, List.foldl_nil,
        toAsciiUppercase, hch, List.length_append, List.length_singleton]
      have : ¬ (97 ≤ 65 + (c - 1) % 26 && 65 + (c - 1) % 26 ≤ 122) = true := by
        simp only [Bool.and_eq_true, decide_eq_true_eq]
        omega
      rw [if_neg this, hch]
      have hdm : 26 * ((c - 1) / 26) + (c - 1) % 26 = c - 1 :=
        Nat.div_add_mod (c - 1) 26
      rw [pow_succ]
      ring_nf
      omega

theorem cellRef_fold_letters (acc : Nat × Str) (xs : Str)
    (hx : ∀ ch ∈ xs, 65 ≤ ch.toNat ∧ ch.toNat ≤ 90) :
    xs.foldl cellRefStep acc = (letterVal acc.1 xs, acc.2) := by
  induction xs generalizing acc with
  | nil => simp [letterVal]
  | cons ch t ih =>
    have h1 := (hx ch (List.mem_cons_self _ _)).1
    have h2 := (hx ch (List.mem_cons_self _ _)).2
    have halpha : isAsciiAlphabetic ch = true := by
      simp only [isAsciiAlphabetic, Bool.or_eq_true, Bool.and_eq_true,
        decide_eq_true_eq]
      omega
    simp only [List.foldl_cons, cellRefStep, halpha, if_true]
    rw [ih _ (fun c hc => hx c (List.mem_cons_of_mem _ hc))]
    simp [letterVal]

theorem cellRef_fold_digits (acc : Nat × Str) (xs : Str)
    (hx : ∀ ch ∈ xs, 48 ≤ ch.toNat ∧ ch.toNat ≤ 57) :
    xs.foldl cellRefStep acc = (acc.1, acc.2 ++ xs) := by
  induction xs generalizing acc with
  | nil => simp
  | cons ch t ih =>
    have h1 := (hx ch (List.mem_cons_self _ _)).1
    have h2 := (hx ch (List.mem_cons_self _ _)).2
    have halpha : ¬ isAsciiAlphabetic ch = true := by
      simp only [isAsciiAlphabetic, Bool.or_eq_true, Bool.and_eq_true,
        decide_eq_true_eq]
      omega
    have hdig : isAsciiDigit ch = true := by
      simp only [isAsciiDigit, Bool.and_eq_true, decide_eq_true_eq]
      omega
    simp only [List.foldl_cons, cellRefStep, halpha, if_false, hdig, if_true]
    rw [ih _ (fun c hc => hx c (List.mem_cons_of_mem _ hc))]
    simp

/-- Parsing the generated reference recovers the row and column exactly. -/
theorem parseCellRef_colRowToA1 (col row : Nat) (hrow : row < 2 ^ 32) :
    parseCellRef (colRowToA1 col row) = (row, col) := by
  simp only [parseCellRef, colRowToA1, List.foldl_append]
  rw [cellRef_fold_letters (0, []) (colLetters col) (colLetters_upper col)]
  rw [cellRef_fold_digits _ (natDecimal row) (natDecimal_digits row)]
  have := letterVal_colLetters 0 col
  simp only [Nat.zero_mul, Nat.zero_add] at this
  simp [this, parseU32_natDecimal row hrow]

/-- C10: Round-trip of cell-reference conversion: for every 1-based row in the
`u32` domain and every 1-based column `col ≤ 16384`,
`parse_cell_ref (col_row_to_a1 col row)` returns exactly `(row, col)`. -/
theorem C10_parse_cell_ref_roundtrip (row col : Nat)
    (hrow1 : 1 ≤ row) (hrow2 : row < 2 ^ 32)
    (hcol1 : 1 ≤ col) (hcol2 : col ≤ 16384) :
    parseCellRef (colRowToA1 col row) = (row, col) :=
  parseCellRef_colRowToA1 col row hrow2

/-- C10 witness: the round-trip at row 100, column 27 ("AA100"). -/
theorem C10_parse_cell_ref_roundtrip_witness :
    parseCellRef (colRowToA1 27 100) = (100, 27) :=
  C10_parse_cell_ref_roundtrip 100 27 (by norm_num) (by norm_num)
    (by norm_num) (by norm_num)

example : colRowToA1 27 100 = str "AA100" := by decide
example : parseCellRef (str "B3") = (3, 2) := by decide
example : parseCellRef (str "Z1") = (1, 26) := by decide
example : a1ToRowCol (str "B3") = .ok (2, 1) := by rfl
example : (a1ToRowCol (str "A0")).isOk = false := by rfl
example : (a1ToRowCol (str "$A$1")).isOk = false := by rfl

-- ---------------------------------------------------------------------------
-- src/wolfxl/sheet_patcher.rs : patch data types
-- ---------------------------------------------------------------------------

/-- `CellValue` (src/wolfxl/sheet_patcher.rs:25-36).  The `f64` payload of
`Number` is carried as an opaque decimal token (its rendered text):
floating-point arithmetic and formatting are outside the embedding, and no
claim inspects numeric values. -/
inductive CellValue
  | blank
  | number (tok : Str)
  | string (s : Str)
  | boolean (b : Bool)
  | formula (f : Str)
deriving DecidableEq

/-- `CellPatch` (src/wolfxl/sheet_patcher.rs:40-49): 1-based row and column,
optional new value, optional new style index. -/
structure CellPatch where
  row : Nat
  col : Nat
  value : Option CellValue
  styleIndex : Option Nat
deriving DecidableEq

-- ---------------------------------------------------------------------------
-- src/wolfxl/styles.rs : format specification types
-- ---------------------------------------------------------------------------

/-- `FontSpec` (src/wolfxl/styles.rs:35-43). -/
structure FontSpec where
  bold : Bool
  italic : Bool
  underline : Bool
  strikethrough : Bool
  name : Option Str
  size : Option Nat
  colorRgb : Option Str
deriving DecidableEq

/-- `Default` for `FontSpec`. -/
def FontSpec.default : FontSpec :=
  ⟨false, false, false, false, none, none, none⟩

/-- `FillSpec` (src/wolfxl/styles.rs:47-50). -/
structure FillSpec where
  patternType : Str
  fgColorRgb : Option Str
deriving DecidableEq

/-- `BorderSideSpec` (src/wolfxl/styles.rs:54-57). -/
structure BorderSideSpec where
  style : Option Str
  colorRgb : Option Str
deriving DecidableEq

/-- `Default` for `BorderSideSpec`. -/
def BorderSideSpec.default : BorderSideSpec := ⟨none, none⟩

/-- `BorderSpec` (src/wolfxl/styles.rs:61-66). -/
structure BorderSpec where
  left : BorderSideSpec
  right : BorderSideSpec
  top : BorderSideSpec
  bottom : BorderSideSpec
deriving DecidableEq

/-- `AlignmentSpec` (src/wolfxl/styles.rs:70-76). -/
structure AlignmentSpec where
  horizontal : Option Str
  vertical : Option Str
  wrapText : Bool
  indent : Nat
  textRotation : Nat
deriving DecidableEq

/-- `FormatSpec` (src/wolfxl/styles.rs:80-86). -/
structure FormatSpec where
  font : Option FontSpec
  fill : Option FillSpec
  border : Option BorderSpec
  alignment : Option AlignmentSpec
  numberFormat : Option Str
deriving DecidableEq

/-- `Default` for `FormatSpec` (all fields absent). -/
def FormatSpec.default : FormatSpec := ⟨none, none, none, none, none⟩

-- ---------------------------------------------------------------------------
-- Association lists standing for the `HashMap`s of src/wolfxl/mod.rs
-- ---------------------------------------------------------------------------

/-- `HashMap::insert`: replace the value of an existing key, else append. -/
def alInsert {α β : Type} [DecidableEq α] :
    List (α × β) → α → β → List (α × β)
  | [], k, v => [(k, v)]
  | (k', v') :: t, k, v =>
    if k' = k then (k, v) :: t else (k', v') :: alInsert t k v

/-- `HashMap::get`: value of the first (unique) entry with the key. -/
def alLookup {α β : Type} [DecidableEq α] :
    List (α × β) → α → Option β
  | [], _ => none
  | (k', v) :: t, k => if k' = k then some v else alLookup t k

theorem alLookup_alInsert_self {α β : Type} [DecidableEq α]
    (m : List (α × β)) (k : α) (v : β) :
    alLookup (alInsert m k v) k = some v := by
  induction m with
  | nil => simp [alInsert, alLookup]
  | cons h t ih =>
    obtain ⟨k', v'⟩ := h
    by_cases hk : k' = k
    · simp [alInsert, alLookup, hk]
    · simp [alInsert, alLookup, hk, ih]

theorem alLookup_alInsert_ne {α β : Type} [DecidableEq α]
    (m : List (α × β)) (k k1 : α) (v : β) (hne : k1 ≠ k) :
    alLookup (alInsert m k v) k1 = alLookup m k1 := by
  have hne' : ¬ k = k1 := fun h => hne h.symm
  induction m with
  | nil => simp [alInsert, alLookup, hne']
  | cons h t ih =>
    obtain ⟨k', v'⟩ := h
    by_cases hk : k' = k
    · subst hk
      simp [alInsert, alLookup, hne']
    · simp only [alInsert, if_neg hk]
      by_cases hk1 : k' = k1
      · simp [alLookup, hk1]
      · simp [alLookup, hk1, ih]

-- ---------------------------------------------------------------------------
-- src/wolfxl/mod.rs : Python payload boundary
-- ---------------------------------------------------------------------------

/-- Python values that can appear in the payload dicts at the PyO3 boundary.
`f64` values are carried as opaque decimal tokens, as in `CellValue`. -/
inductive PyVal
  | pyStr (s : Str)
  | pyInt (n : Nat)
  | pyFloat (tok : Str)
  | pyBool (b : Bool)
deriving DecidableEq

/-- PyO3 `extract::<String>`: succeeds exactly on Python `str` objects. -/
def extractString : PyVal → Option Str
  | .pyStr s => some s
  | _ => none

/-- PyO3 `extract::<f64>`: succeeds on Python numbers (`float`, `int`, and
`bool`, which is an `int` subclass), and fails on `str`. -/
def extractF64 : PyVal → Option Str
  | .pyStr _ => none
  | .pyInt n => some (natDecimal n)
  | .pyFloat tok => some tok
  | .pyBool b => some (if b then str "1" else str "0")

/-- PyO3 `extract::<bool>`: succeeds exactly on Python `bool` objects. -/
def extractBool : PyVal → Option Bool
  | .pyBool b => some b
  | _ => none

/-- PyO3 `extract::<u32>`: succeeds on Python integers (and `bool`) within
the `u32` range. -/
def extractU32 : PyVal → Option Nat
  | .pyInt n => if n < 2 ^ 32 then some n else none
  | .pyBool b => some (if b then 1 else 0)
  | _ => none

/-- A `queue_value` payload dict: the `"type"` and `"value"` entries, each
possibly absent (`get_item` returning `None`). -/
structure Payload where
  typeTag : Option PyVal
  val : Option PyVal
deriving DecidableEq

/-- Rust `str::strip_prefix('=').unwrap_or(&v)`: drop one leading `=`. -/
def stripLeadingEq (s : Str) : Str :=
  match s with
  | '=' :: t => t
  | _ => s

/-- The payload-to-`CellValue` conversion inside `queue_value`
(src/wolfxl/mod.rs:88-135): read the `"type"` tag (empty when absent,
a conversion error when present but not a string), then convert the
`"value"` entry according to the tag, defaulting when absent. -/
def queueValueConvert (payload : Payload) : Except Str CellValue := do
  let cellType ← match payload.typeTag with
    | none => Except.ok ([] : Str)
    | some v =>
      match extractString v with
      | some s => Except.ok s
      | none => Except.error (str "TypeError: type tag is not a string")
  if cellType = str "blank" then
    Except.ok .blank
  else if cellType = str "string" ∨ cellType = str "str" then
    match payload.val with
    | none => Except.ok (.string [])
    | some v =>
      match extractString v with
      | some s => Except.ok (.string s)
      | none => Except.error (str "TypeError: value is not a string")
  else if cellType = str "number" ∨ cellType = str "float" ∨
      cellType = str "int" ∨ cellType = str "integer" then
    match payload.val with
    | none => Except.ok (.number (str "0"))
    | some v =>
      match extractF64 v with
      | some tok => Except.ok (.number tok)
      | none => Except.error (str "TypeError: value is not a number")
  else if cellType = str "boolean" ∨ cellType = str "bool" then
    match payload.val with
    | none => Except.ok (.boolean false)
    | some v =>
      match extractBool v with
      | some b => Except.ok (.boolean b)
      | none => Except.error (str "TypeError: value is not a boolean")
  else if cellType = str "formula" then
    match payload.val with
    | none => Except.ok (.formula (stripLeadingEq []))
    | some v =>
      match extractString v with
      | some s => Except.ok (.formula (stripLeadingEq s))
      | none => Except.error (str "TypeError: value is not a string")
  else
    Except.error (str "Unknown cell type: '" ++ cellType ++ str "'")

/-- The in-memory state of `XlsxPatcher` (src/wolfxl/mod.rs:37-45) that the
queueing operations touch: the two patch maps keyed by (sheet, cell). -/
structure XlsxPatcher where
  valuePatches : List ((Str × Str) × CellPatch)
  formatPatches : List ((Str × Str) × FormatSpec)
deriving DecidableEq

/-- A freshly opened patcher: both queues empty. -/
def XlsxPatcher.init : XlsxPatcher := ⟨[], []⟩

/-- `XlsxPatcher::queue_value` (src/wolfxl/mod.rs:82-150): convert the
payload, parse the A1 reference, and store/overwrite the value patch for
the (sheet, cell) key; any failure is reported before the queue is touched. -/
def queueValue (p : XlsxPatcher) (sheet cell : Str) (payload : Payload) :
    Except Str XlsxPatcher := do
  let value ← queueValueConvert payload
  let rc ← a1ToRowCol cell
  let patch : CellPatch :=
    { row := rc.1 + 1, col := rc.2 + 1, value := some value, styleIndex := none }
  Except.ok { p with
    valuePatches := alInsert p.valuePatches (sheet, cell) patch }

/-- `extract_str` (src/wolfxl/mod.rs:460-462) applied to a dict entry:
absent gives `none`, a `str` gives its text, any other type is an error. -/
def exStr (o : Option PyVal) : Except Str (Option Str) :=
  match o with
  | none => .ok none
  | some v =>
    match extractString v with
    | some s => .ok (some s)
    | none => .error (str "TypeError: expected a string")

/-- `extract_bool` (src/wolfxl/mod.rs:464-466). -/
def exBool (o : Option PyVal) : Except Str (Option Bool) :=
  match o with
  | none => .ok none
  | some v =>
    match extractBool v with
    | some b => .ok (some b)
    | none => .error (str "TypeError: expected a boolean")

/-- `extract_u32` (src/wolfxl/mod.rs:468-470). -/
def exU32 (o : Option PyVal) : Except Str (Option Nat) :=
  match o with
  | none => .ok none
  | some v =>
    match extractU32 v with
    | some n => .ok (some n)
    | none => .error (str "TypeError: expected an integer")

/-- ASCII upper-casing of a string, as Rust `str::to_uppercase` acts on the
ASCII hex/color strings this code handles. -/
def asciiUpper (s : Str) : Str := s.map toAsciiUppercase

/-- `normalize_color` (src/wolfxl/mod.rs:473-482): strip leading `#`,
then "RRGGBB" becomes "FFRRGGBB" upper-cased, "AARRGGBB" is upper-cased,
and anything else gets "FF" prefixed verbatim. -/
def normalizeColor (color : Str) : Str :=
  let hex := color.dropWhile (· = '#')
  if hex.length = 6 then str "FF" ++ asciiUpper hex
  else if hex.length = 8 then asciiUpper hex
  else str "FF" ++ hex

/-- The recognized entries of a `queue_format` dict
(src/wolfxl/mod.rs:369-435), each possibly absent. -/
structure FormatDict where
  bold : Option PyVal
  italic : Option PyVal
  underline : Option PyVal
  strikethrough : Option PyVal
  fontName : Option PyVal
  fontSize : Option PyVal
  fontColor : Option PyVal
  bgColor : Option PyVal
  numberFormat : Option PyVal
  horizontal : Option PyVal
  hAlign : Option PyVal
  vertical : Option PyVal
  vAlign : Option PyVal
  wrapText : Option PyVal
  wrap : Option PyVal
  indent : Option PyVal
  textRotation : Option PyVal
  rotation : Option PyVal
deriving DecidableEq

/-- `dict_to_format_spec` (src/wolfxl/mod.rs:369-435): build a `FormatSpec`
from the recognized keys; a sub-spec is present only when at least one of
its fields was supplied; the border field is never set. -/
def dictToFormatSpec (d : FormatDict) : Except Str FormatSpec := do
  let bold ← exBool d.bold
  let italic ← exBool d.italic
  let underline ← exBool d.underline
  let strikethrough ← exBool d.strikethrough
  let fontName ← exStr d.fontName
  let fontSize ← exU32 d.fontSize
  let fontColor ← exStr d.fontColor
  let font : Option FontSpec :=
    if bold.isSome ∨ italic.isSome ∨ underline.isSome ∨
        strikethrough.isSome ∨ fontName.isSome ∨ fontSize.isSome ∨
        fontColor.isSome then
      some { bold := bold.getD false, italic := italic.getD false,
             underline := underline.getD false,
             strikethrough := strikethrough.getD false,
             name := fontName, size := fontSize,
             colorRgb := fontColor.map normalizeColor }
    else none
  let bgColor ← exStr d.bgColor
  let fill : Option FillSpec :=
    bgColor.map fun c =>
      { patternType := str "solid", fgColorRgb := some (normalizeColor c) }
  let numberFormat ← exStr d.numberFormat
  let h1 ← exStr d.horizontal
  let h2 ← exStr d.hAlign
  let v1 ← exStr d.vertical
  let v2 ← exStr d.vAlign
  let w1 ← exBool d.wrapText
  let w2 ← exBool d.wrap
  let indent ← exU32 d.indent
  let r1 ← exU32 d.textRotation
  let r2 ← exU32 d.rotation
  let horizontal := h1 <|> h2
  let vertical := v1 <|> v2
  let wrapOpt := w1 <|> w2
  let rotOpt := r1 <|> r2
  let alignment : Option AlignmentSpec :=
    if horizontal.isSome ∨ vertical.isSome ∨ wrapOpt.isSome ∨
        indent.isSome ∨ rotOpt.isSome then
      some { horizontal := horizontal, vertical := vertical,
             wrapText := wrapOpt.getD false, indent := indent.getD 0,
             textRotation := rotOpt.getD 0 }
    else none
  Except.ok { font := font, fill := fill, border := none,
              alignment := alignment, numberFormat := numberFormat }

/-- One side entry of a `queue_border` dict: absent, present but not a
dict (silently treated as an empty side), or a dict with optional
`style`/`color` entries. -/
inductive SideEntry
  | absent
  | notDict
  | sideDict (style : Option PyVal) (color : Option PyVal)
deriving DecidableEq

/-- The `extract_side` closure of `dict_to_border_spec`
(src/wolfxl/mod.rs:438-450). -/
def exSide (e : SideEntry) : Except Str BorderSideSpec :=
  match e with
  | .absent => .ok BorderSideSpec.default
  | .notDict => .ok BorderSideSpec.default
  | .sideDict s c => do
    let style ← exStr s
    let color ← exStr c
    Except.ok { style := style, colorRgb := color.map normalizeColor }

/-- A `queue_border` dict: the four side entries. -/
structure BorderDict where
  left : SideEntry
  right : SideEntry
  top : SideEntry
  bottom : SideEntry
deriving DecidableEq

/-- `dict_to_border_spec` (src/wolfxl/mod.rs:437-458). -/
def dictToBorderSpec (d : BorderDict) : Except Str BorderSpec := do
  let l ← exSide d.left
  let r ← exSide d.right
  let t ← exSide d.top
  let b ← exSide d.bottom
  Except.ok { left := l, right := r, top := t, bottom := b }

/-- `XlsxPatcher::queue_format` (src/wolfxl/mod.rs:157-167): convert the
dict and overwrite any prior format/border entry wholesale for the key. -/
def queueFormat (p : XlsxPatcher) (sheet cell : Str) (d : FormatDict) :
    Except Str XlsxPatcher := do
  let spec ← dictToFormatSpec d
  Except.ok { p with
    formatPatches := alInsert p.formatPatches (sheet, cell) spec }

/-- `XlsxPatcher::queue_border` (src/wolfxl/mod.rs:169-182): convert the
dict and set only the border field of the existing `FormatSpec` for the
key (creating a default spec when none exists). -/
def queueBorder (p : XlsxPatcher) (sheet cell : Str) (d : BorderDict) :
    Except Str XlsxPatcher := do
  let border ← dictToBorderSpec d
  let spec := (alLookup p.formatPatches (sheet, cell)).getD FormatSpec.default
  Except.ok { p with
    formatPatches := alInsert p.formatPatches (sheet, cell)
      { spec with border := some border } }

-- ---------------------------------------------------------------------------
-- src/wolfxl/mod.rs : save
-- ---------------------------------------------------------------------------

/-- The observable outcome of `XlsxPatcher::do_save`
(src/wolfxl/mod.rs:215-221): either a plain `std::fs::copy` of the source
file (output bytes exactly the source bytes, the ZIP never opened), or the
ZIP-rewrite path of phases 1-4. -/
inductive SaveResult
  | copied (out : List Nat)
  | rewrittenArchive
deriving DecidableEq

/-- The branch at the top of `do_save` (src/wolfxl/mod.rs:216-221): with
both patch queues empty the source file is copied byte-for-byte; otherwise
the archive is opened and rewritten. -/
def doSave (p : XlsxPatcher) (srcBytes : List Nat) : SaveResult :=
  if p.valuePatches = [] ∧ p.formatPatches = [] then .copied srcBytes
  else .rewrittenArchive

/-- C4: when both the value-patch queue and the format-patch queue are
empty, `save` performs a plain file copy: the output is byte-for-byte the
source file and the ZIP archive is never opened or rewritten. -/
theorem C4_empty_queue_save_copies (p : XlsxPatcher) (srcBytes : List Nat)
    (hv : p.valuePatches = []) (hf : p.formatPatches = []) :
    doSave p srcBytes = .copied srcBytes := by
  simp [doSave, hv, hf]

/-- C4 witness: a freshly opened patcher copies the source bytes. -/
theorem C4_empty_queue_save_copies_witness :
    doSave XlsxPatcher.init [80, 75, 3, 4] = .copied [80, 75, 3, 4] :=
  C4_empty_queue_save_copies XlsxPatcher.init [80, 75, 3, 4] rfl rfl

/-- C7: `queue_format` replaces any prior `FormatSpec` for the (sheet,
cell) key wholesale — in particular a border queued earlier by
`queue_border` is discarded, since `dict_to_format_spec` never sets the
border field — whereas `queue_border` only sets the border field of the
existing spec (creating a default one when absent), leaving font, fill,
alignment and number-format untouched. -/
theorem C7_queue_format_overwrites_queue_border_merges
    (p : XlsxPatcher) (sheet cell : Str) (bd : BorderDict) (fd : FormatDict)
    (b : BorderSpec) (fs : FormatSpec)
    (hb : dictToBorderSpec bd = .ok b) (hf : dictToFormatSpec fd = .ok fs) :
    (∀ p1 p2, queueBorder p sheet cell bd = .ok p1 →
      queueFormat p1 sheet cell fd = .ok p2 →
        alLookup p2.formatPatches (sheet, cell) = some fs ∧ fs.border = none) ∧
    (∀ s, alLookup p.formatPatches (sheet, cell) = some s →
      ∀ p1, queueBorder p sheet cell bd = .ok p1 →
        alLookup p1.formatPatches (sheet, cell) =
          some { s with border := some b }) ∧
    (alLookup p.formatPatches (sheet, cell) = none →
      ∀ p1, queueBorder p sheet cell bd = .ok p1 →
        alLookup p1.formatPatches (sheet, cell) =
          some { FormatSpec.default with border := some b }) := by
  have hfb : fs.border = none := by
    unfold dictToFormatSpec at hf
    simp only [bind, Except.bind] at hf
    repeat' split at hf
    all_goals (cases hf; try rfl)
  refine ⟨?_, ?_, ?_⟩
  · intro p1 p2 h1 h2
    simp only [queueBorder, hb, bind, Except.bind] at h1
    simp only [queueFormat, hf, bind, Except.bind] at h2
    cases h1; cases h2
    exact ⟨alLookup_alInsert_self _ _ _, hfb⟩
  · intro s hs p1 h1
    simp only [queueBorder, hb, bind, Except.bind] at h1
    cases h1
    simp [hs, alLookup_alInsert_self]
  · intro hs p1 h1
    simp only [queueBorder, hb, bind, Except.bind] at h1
    cases h1
    simp [hs, alLookup_alInsert_self]

/-- C7 witness: concrete run with a border queued first, then a format. -/
theorem C7_queue_format_overwrites_queue_border_merges_witness :
    ∃ b fs,
      dictToBorderSpec ⟨.sideDict (some (.pyStr (str "thin"))) none,
        .absent, .absent, .absent⟩ = .ok b ∧
      dictToFormatSpec ⟨some (.pyBool true), none, none, none, none, none,
        none, none, none, none, none, none, none, none, none, none, none,
        none⟩ = .ok fs ∧ fs.border = none := by
  refine ⟨_, _, rfl, rfl, ?_⟩
  have h := C7_queue_format_overwrites_queue_border_merges
    XlsxPatcher.init (str "Sheet1") (str "A1")
    ⟨.sideDict (some (.pyStr (str "thin"))) none, .absent, .absent, .absent⟩
    ⟨some (.pyBool true), none, none, none, none, none, none, none, none,
      none, none, none, none, none, none, none, none, none⟩
    _ _ rfl rfl
  exact (h.1 _ _ rfl rfl).2

-- ---------------------------------------------------------------------------
-- C8 : error conditions of queue_value
-- ---------------------------------------------------------------------------

/-- A character that `a1_to_row_col` accepts: ASCII letter or digit. -/
def isAlnum (c : Char) : Bool := isAsciiAlphabetic c || isAsciiDigit c

/-- The `u32` column value accumulated by `a1_to_row_col` over the letters
of a string, ignoring non-letters; it wraps modulo `2 ^ 32` exactly as the
`col = col * 26 + val` accumulator of util.rs:15 does. -/
def letterAcc (col : Nat) (xs : Str) : Nat :=
  xs.foldl (fun a ch =>
    if isAsciiAlphabetic ch then
      (a * 26 + (toAsciiUppercase ch).toNat - 65 + 1) % 2 ^ 32
    else a) col

theorem a1_fold_none (xs : Str) : xs.foldl a1Step none = none := by
  induction xs with
  | nil => rfl
  | cons ch t ih => simpa [a1Step] using ih

theorem alpha_not_digit (ch : Char) (h : isAsciiAlphabetic ch = true) :
    isAsciiDigit ch = false := by
  simp only [isAsciiAlphabetic, Bool.or_eq_true, Bool.and_eq_true,
    decide_eq_true_eq] at h
  simp only [isAsciiDigit, Bool.and_eq_true, decide_eq_true_eq,
    Bool.and_eq_false_iff, decide_eq_false_iff_not, not_le]
  omega

theorem a1_fold_some (xs : Str) : ∀ col ds,
    xs.foldl a1Step (some (col, ds)) =
      if xs.all isAlnum then
        some (letterAcc col xs, ds ++ xs.filter isAsciiDigit)
      else none := by
  induction xs with
  | nil => intro col ds; simp [letterAcc]
  | cons ch t ih =>
    intro col ds
    rw [List.foldl_cons, List.all_cons]
    by_cases ha : isAsciiAlphabetic ch = true
    · have hd := alpha_not_digit ch ha
      have hstep : a1Step (some (col, ds)) ch =
          some ((col * 26 + (toAsciiUppercase ch).toNat - 65 + 1) % 2 ^ 32,
            ds) := by
        simp [a1Step, ha]
      have halnum : isAlnum ch = true := by simp [isAlnum, ha]
      have hl : letterAcc col (ch :: t) =
          letterAcc ((col * 26 + (toAsciiUppercase ch).toNat - 65 + 1) %
            2 ^ 32) t := by
        simp [letterAcc, ha]
      have hf : List.filter isAsciiDigit (ch :: t) =
          List.filter isAsciiDigit t := by
        simp [List.filter_cons, hd]
      rw [hstep, ih, halnum, Bool.true_and, hl, hf]
    · by_cases hdig : isAsciiDigit ch = true
      · have hstep : a1Step (some (col, ds)) ch = some (col, ds ++ [ch]) := by
          simp [a1Step, ha, hdig]
        have halnum : isAlnum ch = true := by simp [isAlnum, hdig]
        have hl : letterAcc col (ch :: t) = letterAcc col t := by
          simp [letterAcc, ha]
        have hf : List.filter isAsciiDigit (ch :: t) =
            ch :: List.filter isAsciiDigit t := by
          simp [List.filter_cons, hdig]
        rw [hstep, ih, halnum, Bool.true_and, hl, hf]
        simp [List.append_assoc]
      · have hstep : a1Step (some (col, ds)) ch = none := by
          simp [a1Step, ha, hdig]
        have halnum : isAlnum ch = false := by
          simp only [isAlnum, Bool.or_eq_false_iff]
          exact ⟨by simpa using ha, by simpa using hdig⟩
        rw [hstep, a1_fold_none, halnum, Bool.false_and]
        simp

theorem letterAcc_no_alpha (xs : Str) : ∀ col,
    xs.any isAsciiAlphabetic = false → letterAcc col xs = col := by
  induction xs with
  | nil => intro col _; rfl
  | cons ch t ih =>
    intro col h
    simp only [List.any_cons, Bool.or_eq_false_iff] at h
    simp only [letterAcc, List.foldl_cons, h.1, if_false]
    exact ih col h.2

/-- The reference-acceptance condition of `a1_to_row_col`, stated flat:
every character an ASCII letter or digit, a nonzero `u32` column
accumulator (zero both when there are no letters and when the letters'
value wraps to 0 modulo `2 ^ 32`), at least one digit, a nonzero row, and
a row value within the `u32` range. -/
def refAccepted (cell : Str) : Bool :=
  cell.all isAlnum && decide (letterAcc 0 cell ≠ 0) &&
  cell.any isAsciiDigit &&
  decide (0 < digitsVal (cell.filter isAsciiDigit)) &&
  decide (digitsVal (cell.filter isAsciiDigit) < 2 ^ 32)

/-- `a1_to_row_col` succeeds exactly on accepted references, and then
returns the 0-based pair. -/
theorem a1ToRowCol_characterization (cell : Str) :
    a1ToRowCol cell =
      if refAccepted cell then
        .ok (digitsVal (cell.filter isAsciiDigit) - 1, letterAcc 0 cell - 1)
      else .error (str "Invalid cell reference: " ++ cell) := by
  unfold a1ToRowCol refAccepted
  rw [a1_fold_some]
  by_cases hall : cell.all isAlnum = true
  · simp only [hall, if_true, Bool.true_and, List.nil_append]
    by_cases hcol : letterAcc 0 cell = 0
    · simp [hcol]
    · by_cases hdig : cell.any isAsciiDigit = true
      · have hne : cell.filter isAsciiDigit ≠ [] := by
          intro hnil
          rw [List.any_eq_true] at hdig
          obtain ⟨c, hc, hc2⟩ := hdig
          have : c ∈ cell.filter isAsciiDigit := List.mem_filter.2 ⟨hc, hc2⟩
          simp [hnil] at this
        by_cases hlt : digitsVal (cell.filter isAsciiDigit) < 2 ^ 32
        · have hlt4 : digitsVal (cell.filter isAsciiDigit) < 4294967296 := by
            simpa using hlt
          by_cases hzero : digitsVal (cell.filter isAsciiDigit) = 0
          · simp [hdig, hcol, parseU32, hne, hlt, hlt4, hzero]
          · have h0 : (0 < digitsVal (cell.filter isAsciiDigit)) := by omega
            simp [hdig, hcol, parseU32, hne, hlt, hlt4, hzero, h0]
        · have hlt4 : ¬ digitsVal (cell.filter isAsciiDigit) < 4294967296 := by
            simpa using hlt
          simp [hdig, hcol, parseU32, hne, hlt, hlt4]
      · have hnil : cell.filter isAsciiDigit = [] := by
          rw [List.any_eq_true] at hdig
          push_neg at hdig
          exact List.filter_eq_nil_iff.2 fun c hc => by
            simpa using hdig c hc
        simp [hdig, hnil, hcol, parseU32]
  · simp [hall]

/-- The recognized value-type tags of `queue_value`
(src/wolfxl/mod.rs:94-134). -/
def recognizedTag (t : Str) : Bool :=
  decide (t = str "blank") || decide (t = str "string") ||
  decide (t = str "str") || decide (t = str "number") ||
  decide (t = str "float") || decide (t = str "int") ||
  decide (t = str "integer") || decide (t = str "boolean") ||
  decide (t = str "bool") || decide (t = str "formula")

/-- Whether the `"value"` entry of the payload has a runtime type the tag's
conversion accepts (absent entries always convert, to a default). -/
def valueAccepted (t : Str) (v : Option PyVal) : Bool :=
  if t = str "blank" then true
  else if t = str "string" ∨ t = str "str" then
    match v with
    | none => true
    | some (.pyStr _) => true
    | some _ => false
  else if t = str "number" ∨ t = str "float" ∨ t = str "int" ∨
      t = str "integer" then
    match v with
    | none => true
    | some (.pyStr _) => false
    | some _ => true
  else if t = str "boolean" ∨ t = str "bool" then
    match v with
    | none => true
    | some (.pyBool _) => true
    | some _ => false
  else if t = str "formula" then
    match v with
    | none => true
    | some (.pyStr _) => true
    | some _ => false
  else false

/-- Whether `queue_value` accepts the whole payload: the type entry must be
absent or a string, the resulting tag recognized, and the value entry
convertible for that tag. -/
def payloadAccepted (p : Payload) : Bool :=
  match p.typeTag with
  | none => false
  | some v =>
    match extractString v with
    | none => false
    | some t => recognizedTag t && valueAccepted t p.val

theorem queueValueConvert_isOk (p : Payload) :
    (queueValueConvert p).isOk = payloadAccepted p := by
  obtain ⟨tt, v⟩ := p
  match tt with
  | none =>
    simp only [queueValueConvert, payloadAccepted, bind, Except.bind]
    have h1 : ¬ (([] : Str) = str "blank") := by decide
    have h2 : ¬ (([] : Str) = str "string" ∨ ([] : Str) = str "str") := by
      decide
    have h3 : ¬ (([] : Str) = str "number" ∨ ([] : Str) = str "float" ∨
        ([] : Str) = str "int" ∨ ([] : Str) = str "integer") := by decide
    have h4 : ¬ (([] : Str) = str "boolean" ∨ ([] : Str) = str "bool") := by
      decide
    have h5 : ¬ (([] : Str) = str "formula") := by decide
    have g2 : ¬ (str "string" = ([] : Str) ∨ str "str" = ([] : Str)) := by
      decide
    have g3 : ¬ (str "number" = ([] : Str) ∨ str "float" = ([] : Str) ∨
        str "int" = ([] : Str) ∨ str "integer" = ([] : Str)) := by decide
    have g4 : ¬ (str "boolean" = ([] : Str) ∨ str "bool" = ([] : Str)) := by
      decide
    simp [h1, h2, h3, h4, h5, g2, g3, g4, Except.isOk, Except.toBool]
  | some (.pyInt n) =>
    simp [queueValueConvert, payloadAccepted, bind, Except.bind,
      extractString, Except.isOk, Except.toBool]
  | some (.pyFloat tok) =>
    simp [queueValueConvert, payloadAccepted, bind, Except.bind,
      extractString, Except.isOk, Except.toBool]
  | some (.pyBool b) =>
    simp [queueValueConvert, payloadAccepted, bind, Except.bind,
      extractString, Except.isOk, Except.toBool]
  | some (.pyStr t) =>
    simp only [queueValueConvert, payloadAccepted, bind, Except.bind,
      extractString, recognizedTag, valueAccepted]
    by_cases h1 : t = str "blank"
    · simp [h1, Except.isOk, Except.toBool]
    · by_cases h2 : t = str "string" ∨ t = str "str"
      · have hr : (decide (t = str "blank") || decide (t = str "string") ||
            decide (t = str "str") || decide (t = str "number") ||
            decide (t = str "float") || decide (t = str "int") ||
            decide (t = str "integer") || decide (t = str "boolean") ||
            decide (t = str "bool") || decide (t = str "formula")) = true := by
          rcases h2 with h | h <;> simp [h]
        simp only [if_neg h1, if_pos h2, hr, Bool.true_and]
        match v with
        | none => simp [Except.isOk, Except.toBool]
        | some (.pyStr s) => simp [extractString, Except.isOk, Except.toBool]
        | some (.pyInt n) => simp [extractString, Except.isOk, Except.toBool]
        | some (.pyFloat tok) =>
          simp [extractString, Except.isOk, Except.toBool]
        | some (.pyBool b) => simp [extractString, Except.isOk, Except.toBool]
      · by_cases h3 : t = str "number" ∨ t = str "float" ∨ t = str "int" ∨
            t = str "integer"
        · have hr : (decide (t = str "blank") || decide (t = str "string") ||
              decide (t = str "str") || decide (t = str "number") ||
              decide (t = str "float") || decide (t = str "int") ||
              decide (t = str "integer") || decide (t = str "boolean") ||
              decide (t = str "bool") || decide (t = str "formula")) =
              true := by
            rcases h3 with h | h | h | h <;> simp [h]
          simp only [if_neg h1, if_neg h2, if_pos h3, hr, Bool.true_and]
          match v with
          | none => simp [Except.isOk, Except.toBool]
          | some (.pyStr s) => simp [extractF64, Except.isOk, Except.toBool]
          | some (.pyInt n) => simp [extractF64, Except.isOk, Except.toBool]
          | some (.pyFloat tok) =>
            simp [extractF64, Except.isOk, Except.toBool]
          | some (.pyBool b) => simp [extractF64, Except.isOk, Except.toBool]
        · by_cases h4 : t = str "boolean" ∨ t = str "bool"
          · have hr : (decide (t = str "blank") ||
                decide (t = str "string") || decide (t = str "str") ||
                decide (t = str "number") || decide (t = str "float") ||
                decide (t = str "int") || decide (t = str "integer") ||
                decide (t = str "boolean") || decide (t = str "bool") ||
                decide (t = str "formula")) = true := by
              rcases h4 with h | h <;> simp [h]
            simp only [if_neg h1, if_neg h2, if_neg h3, if_pos h4, hr,
              Bool.true_and]
            match v with
            | none => simp [Except.isOk, Except.toBool]
            | some (.pyStr s) =>
              simp [extractBool, Except.isOk, Except.toBool]
            | some (.pyInt n) =>
              simp [extractBool, Except.isOk, Except.toBool]
            | some (.pyFloat tok) =>
              simp [extractBool, Except.isOk, Except.toBool]
            | some (.pyBool b) =>
              simp [extractBool, Except.isOk, Except.toBool]
          · by_cases h5 : t = str "formula"
            · have hr : (decide (t = str "blank") ||
                  decide (t = str "string") || decide (t = str "str") ||
                  decide (t = str "number") || decide (t = str "float") ||
                  decide (t = str "int") || decide (t = str "integer") ||
                  decide (t = str "boolean") || decide (t = str "bool") ||
                  decide (t = str "formula")) = true := by simp [h5]
              simp only [if_neg h1, if_neg h2, if_neg h3, if_neg h4,
                if_pos h5, hr, Bool.true_and]
              match v with
              | none => simp [Except.isOk, Except.toBool]
              | some (.pyStr s) =>
                simp [extractString, Except.isOk, Except.toBool]
              | some (.pyInt n) =>
                simp [extractString, Except.isOk, Except.toBool]
              | some (.pyFloat tok) =>
                simp [extractString, Except.isOk, Except.toBool]
              | some (.pyBool b) =>
                simp [extractString, Except.isOk, Except.toBool]
            · have hr : (decide (t = str "blank") ||
                  decide (t = str "string") || decide (t = str "str") ||
                  decide (t = str "number") || decide (t = str "float") ||
                  decide (t = str "int") || decide (t = str "integer") ||
                  decide (t = str "boolean") || decide (t = str "bool") ||
                  decide (t = str "formula")) = false := by
                simp only [Bool.or_eq_false_iff, decide_eq_false_iff_not]
                refine ⟨⟨⟨⟨⟨⟨⟨⟨⟨h1, ?_⟩, ?_⟩, ?_⟩, ?_⟩, ?_⟩, ?_⟩, ?_⟩, ?_⟩,
                  h5⟩ <;> tauto
              simp [if_neg h1, if_neg h2, if_neg h3, if_neg h4, if_neg h5,
                hr, Except.isOk, Except.toBool]

theorem a1ToRowCol_isOk (cell : Str) :
    (a1ToRowCol cell).isOk = refAccepted cell := by
  rw [a1ToRowCol_characterization]
  by_cases h : refAccepted cell = true <;>
    simp [h, Except.isOk, Except.toBool]

/-- C8 counterexamples to the claim's "exactly": three inputs the claim's
conditions classify as well-formed that `queue_value` nevertheless
rejects.  (a) Recognized tag "number" and the well-formed reference "A1",
but a string-typed value: the f64 extraction fails.  (b) "A4294967296" —
all alphanumeric, letters present, digits present, row nonzero — fails
because the row does not fit in `u32`.  (c) "MWLQKWV1" — all
alphanumeric, letters present, row 1 — fails because the `u32` column
accumulator of util.rs:15 wraps to exactly 0 (the letters' bijective
base-26 value is `2 ^ 32`). -/
theorem C8_counterexample_exactness :
    (recognizedTag (str "number") = true ∧
     (a1ToRowCol (str "A1")).isOk = true ∧
     (queueValue XlsxPatcher.init (str "Sheet1") (str "A1")
       ⟨some (.pyStr (str "number")), some (.pyStr (str "x"))⟩).isOk =
       false) ∧
    ((str "A4294967296").all isAlnum = true ∧
     (str "A4294967296").any isAsciiAlphabetic = true ∧
     (str "A4294967296").any isAsciiDigit = true ∧
     0 < digitsVal ((str "A4294967296").filter isAsciiDigit) ∧
     (queueValue XlsxPatcher.init (str "Sheet1") (str "A4294967296")
       ⟨some (.pyStr (str "number")), some (.pyInt 7)⟩).isOk = false) ∧
    ((str "MWLQKWV1").all isAlnum = true ∧
     (str "MWLQKWV1").any isAsciiAlphabetic = true ∧
     (str "MWLQKWV1").any isAsciiDigit = true ∧
     digitsVal ((str "MWLQKWV1").filter isAsciiDigit) = 1 ∧
     letterAcc 0 (str "MWLQKWV1") = 0 ∧
     (queueValue XlsxPatcher.init (str "Sheet1") (str "MWLQKWV1")
       ⟨some (.pyStr (str "number")), some (.pyInt 7)⟩).isOk = false) := by
  refine ⟨⟨by decide, by rfl, by rfl⟩,
    ⟨by decide, by decide, by decide, by decide, by rfl⟩,
    ⟨by decide, by decide, by decide, by decide, by decide, by rfl⟩⟩

/-- C8 (amended): `queue_value` fails, with the queue untouched, exactly
when the payload is not accepted (type entry present but not a string, tag
unrecognized, or value entry of a runtime type the tag cannot convert) or
the A1 reference is not accepted (a character neither ASCII letter nor
digit, a `u32` column accumulator equal to 0 — no letters at all, or
letters whose bijective base-26 value wraps to 0 modulo `2 ^ 32` —, no
row digits, row 0, or a row value outside the `u32` range); otherwise it
stores/overwrites the converted `CellValue` entry for the (sheet, cell)
key and succeeds. -/
theorem C8_queue_value_error_conditions (p : XlsxPatcher) (sheet cell : Str)
    (payload : Payload) :
    ((queueValue p sheet cell payload).isOk =
      (payloadAccepted payload && refAccepted cell)) ∧
    (∀ p1, queueValue p sheet cell payload = .ok p1 →
      p1.formatPatches = p.formatPatches ∧
      ∃ cv rc, queueValueConvert payload = .ok cv ∧
        a1ToRowCol cell = .ok rc ∧
        p1.valuePatches = alInsert p.valuePatches (sheet, cell)
          ⟨rc.1 + 1, rc.2 + 1, some cv, none⟩) := by
  constructor
  · rw [← queueValueConvert_isOk, ← a1ToRowCol_isOk]
    unfold queueValue
    cases hc : queueValueConvert payload with
    | error e => simp [bind, Except.bind, Except.isOk, Except.toBool]
    | ok cv =>
      cases ha : a1ToRowCol cell with
      | error e => simp [bind, Except.bind, Except.isOk, Except.toBool, ha]
      | ok rc => simp [bind, Except.bind, Except.isOk, Except.toBool, ha]
  · intro p1 h
    unfold queueValue at h
    cases hc : queueValueConvert payload with
    | error e => simp [hc, bind, Except.bind] at h
    | ok cv =>
      cases ha : a1ToRowCol cell with
      | error e => simp [hc, ha, bind, Except.bind] at h
      | ok rc =>
        simp only [hc, ha, bind, Except.bind, Except.ok.injEq] at h
        subst h
        exact ⟨rfl, cv, rc, rfl, rfl, rfl⟩

/-- C8 witness: a concrete accepted payload and reference succeed, and a
concrete rejected reference fails. -/
theorem C8_queue_value_error_conditions_witness :
    (queueValue XlsxPatcher.init (str "S") (str "B2")
      ⟨some (.pyStr (str "string")), some (.pyStr (str "hi"))⟩).isOk =
      true ∧
    (queueValue XlsxPatcher.init (str "S") (str "B0")
      ⟨some (.pyStr (str "string")), some (.pyStr (str "hi"))⟩).isOk =
      false := by
  constructor
  · rw [(C8_queue_value_error_conditions XlsxPatcher.init (str "S")
      (str "B2") ⟨some (.pyStr (str "string")), some (.pyStr (str "hi"))⟩).1]
    decide
  · rw [(C8_queue_value_error_conditions XlsxPatcher.init (str "S")
      (str "B0") ⟨some (.pyStr (str "string")), some (.pyStr (str "hi"))⟩).1]
    decide

-- ---------------------------------------------------------------------------
-- String search toolkit (Rust `str::find` over the embedding)
-- ---------------------------------------------------------------------------

/-- `needle` is a prefix of `hay`. -/
def hasPfx : Str → Str → Bool
  | [], _ => true
  | _ :: _, [] => false
  | a :: as, b :: bs => a = b && hasPfx as bs

/-- Rust `str::find(&needle)`: position of the first occurrence of `needle`
in `hay` (character positions; the Rust byte positions address the same
occurrences and are used only through slicing, which agrees). -/
def findSub : Str → Str → Option Nat
  | [], needle => if hasPfx needle [] then some 0 else none
  | c :: t, needle =>
    if hasPfx needle (c :: t) then some 0
    else (findSub t needle).map (· + 1)

theorem findSub_cons (c : Char) (t needle : Str) :
    findSub (c :: t) needle =
      if hasPfx needle (c :: t) then some 0
      else (findSub t needle).map (· + 1) := rfl

/-- Rust `str::contains`. -/
def containsSub (hay needle : Str) : Bool := (findSub hay needle).isSome

/-- `X` is clean for marker `m`: no occurrence of `m` inside `X`, and no
nonempty suffix of `X` is a prefix of `m` (so no occurrence of `m` can
straddle the boundary between `X` and whatever follows it). -/
def cleanFor (m : Str) : Str → Bool
  | [] => true
  | c :: t => !(hasPfx m (c :: t)) && !(hasPfx (c :: t) m) && cleanFor m t

theorem hasPfx_append_self (a b : Str) : hasPfx a (a ++ b) = true := by
  induction a with
  | nil => rfl
  | cons c t ih => simp [hasPfx, ih]

theorem hasPfx_cases (m : Str) : ∀ X R, hasPfx m (X ++ R) = true →
    hasPfx m X = true ∨ hasPfx X m = true := by
  induction m with
  | nil => intro X R _; left; rfl
  | cons a as ih =>
    intro X R h
    match X with
    | [] => right; rfl
    | b :: bs =>
      simp only [List.cons_append, hasPfx, Bool.and_eq_true,
        decide_eq_true_eq] at h
      rcases ih bs R h.2 with h1 | h1
      · left; simp [hasPfx, h.1, h1]
      · right; simp [hasPfx, h.1, h1]

theorem hasPfx_of_append (X Y m : Str) (h : hasPfx (X ++ Y) m = true) :
    hasPfx X m = true := by
  induction X generalizing m with
  | nil => rfl
  | cons d ds ih =>
    match m with
    | [] => simp [hasPfx] at h
    | e :: es =>
      simp only [List.cons_append, hasPfx, Bool.and_eq_true] at h ⊢
      exact ⟨h.1, ih es h.2⟩

theorem cleanFor_append (m X Y : Str) (hX : cleanFor m X = true)
    (hY : cleanFor m Y = true) : cleanFor m (X ++ Y) = true := by
  induction X with
  | nil => simpa using hY
  | cons c t ih =>
    simp only [cleanFor, Bool.and_eq_true, Bool.not_eq_true'] at hX
    simp only [List.cons_append, cleanFor, Bool.and_eq_true,
      Bool.not_eq_true']
    refine ⟨⟨?_, ?_⟩, ih hX.2⟩
    · by_cases h : hasPfx m (c :: t ++ Y) = true
      · rcases hasPfx_cases m (c :: t) Y h with h1 | h1
        · rw [hX.1.1] at h1; exact absurd h1 (by simp)
        · rw [hX.1.2] at h1; exact absurd h1 (by simp)
      · simpa using h
    · by_cases h : hasPfx (c :: t ++ Y) m = true
      · have h2 := hasPfx_of_append (c :: t) Y m h
        rw [hX.1.2] at h2
        exact absurd h2 (by simp)
      · simpa using h

theorem findSub_append_clean (m : Str) (hm : m ≠ []) :
    ∀ X R, cleanFor m X = true →
      findSub (X ++ R) m = (findSub R m).map (X.length + ·) := by
  intro X
  induction X with
  | nil =>
    intro R _
    simp only [List.nil_append, List.length_nil]
    cases h : findSub R m <;> simp
  | cons c t ih =>
    intro R hc
    simp only [cleanFor, Bool.and_eq_true, Bool.not_eq_true'] at hc
    have hnp : hasPfx m (c :: t ++ R) = false := by
      by_cases h : hasPfx m (c :: t ++ R) = true
      · rcases hasPfx_cases m (c :: t) R h with h1 | h1
        · rw [hc.1.1] at h1; exact absurd h1 (by simp)
        · rw [hc.1.2] at h1; exact absurd h1 (by simp)
      · simpa using h
    have hnp' : hasPfx m (c :: (t ++ R)) = false := by
      rw [← List.cons_append]; exact hnp
    rw [List.cons_append, findSub_cons, if_neg (by simp [hnp']),
      ih R hc.2]
    cases h : findSub R m
    · simp
    · simp
      omega

theorem findSub_of_hasPfx (m R : Str) (h : hasPfx m R = true) (hm : m ≠ []) :
    findSub R m = some 0 := by
  match R with
  | [] =>
    match m with
    | [] => exact absurd rfl hm
    | a :: as => simp [hasPfx] at h
  | c :: t => simp [findSub, h]

/-- Find after a clean piece: the anchor form used throughout. -/
theorem findSub_append_anchor (m X R : Str) (hm : m ≠ [])
    (hX : cleanFor m X = true) (hR : hasPfx m R = true) :
    findSub (X ++ R) m = some X.length := by
  rw [findSub_append_clean m hm X R hX, findSub_of_hasPfx m R hR hm]
  rfl

theorem cleanFor_nil (m : Str) : cleanFor m [] = true := rfl

/-- A piece with no occurrence of the marker's head character is clean for
it. -/
theorem cleanFor_of_no_head (a : Char) (as : Str) (X : Str)
    (hX : X.all (fun c => c ≠ a) = true) : cleanFor (a :: as) X = true := by
  induction X with
  | nil => rfl
  | cons c t ih =>
    simp only [List.all_cons, Bool.and_eq_true, decide_eq_true_eq] at hX
    simp only [cleanFor, Bool.and_eq_true, Bool.not_eq_true']
    have hac : ¬ (a = c) := fun h => hX.1 h.symm
    refine ⟨⟨?_, ?_⟩, ih hX.2⟩
    · simp [hasPfx, hac]
    · simp [hasPfx, hX.1]

/-- A piece whose head is the marker's head but which disagrees with the
marker at the second character, and whose tail avoids the head character,
is clean for the marker. -/
theorem cleanFor_single_head (a b b' : Char) (as X : Str)
    (hbb : b ≠ b') (hb'a : b' ≠ a) (hX : X.all (fun c => c ≠ a) = true) :
    cleanFor (a :: b :: as) (a :: b' :: X) = true := by
  have h1 : ¬ (b = b') := hbb
  have h2 : ¬ (b' = b) := fun h => hbb h.symm
  have h3 : cleanFor (a :: b :: as) (b' :: X) = true := by
    refine cleanFor_of_no_head a (b :: as) (b' :: X) ?_
    simp only [List.all_cons, Bool.and_eq_true, decide_eq_true_eq]
    exact ⟨hb'a, by simpa using hX⟩
  have hstep : cleanFor (a :: b :: as) (a :: b' :: X) =
      (!(hasPfx (a :: b :: as) (a :: b' :: X)) &&
       !(hasPfx (a :: b' :: X) (a :: b :: as)) &&
       cleanFor (a :: b :: as) (b' :: X)) := rfl
  rw [hstep, h3]
  simp [hasPfx, h1, h2]

-- ---------------------------------------------------------------------------
-- src/wolfxl/styles.rs : XML generation and injection
-- ---------------------------------------------------------------------------

/-- Rust slice `xml[a..b]`. -/
def slice (xml : Str) (a b : Nat) : Str := (xml.take b).drop a

/-- Rust `str::parse::<u32>` on an arbitrary string: accepts a nonempty
all-digit string whose value fits in `u32` (the sign-prefixed forms Rust
also accepts never arise in the attribute strings this code parses). -/
def parseU32R (s : Str) : Option Nat :=
  if s ≠ [] ∧ s.all isAsciiDigit then
    if digitsVal s < 2 ^ 32 then some (digitsVal s) else none
  else none

/-- `extract_count_attr` (src/wolfxl/styles.rs:372-378): the value of the
first `count="N"` attribute of an opening-tag string. -/
def extractCountAttr (tag : Str) : Option Nat :=
  match findSub tag (str "count=\"") with
  | none => none
  | some s0 =>
    let start := s0 + (str "count=\"").length
    match findSub (tag.drop start) (str "\"") with
    | none => none
    | some e0 => parseU32R (slice tag start (start + e0))

/-- `update_count_attr` (src/wolfxl/styles.rs:380-394). -/
def updateCountAttr (tag : Str) (newCount : Nat) : Str :=
  match findSub tag (str "count=\"") with
  | none => tag
  | some s0 =>
    let valStart := s0 + (str "count=\"").length
    match findSub (tag.drop valStart) (str "\"") with
    | none => tag
    | some e0 =>
      tag.take valStart ++ natDecimal newCount ++ tag.drop (valStart + e0)

/-- `inject_into_section` (src/wolfxl/styles.rs:335-370): insert a new
element just before the closing tag of a section and bump the section's
`count` attribute; returns the new text and the 0-based index of the
appended element (0 when either tag is missing).  (At inputs where the
first `</section>` precedes the end of the first `<section` opening tag the
Rust slice `xml[open_end + 1..close_pos]` would panic; the total embedding
yields an empty slice there.  No theorem below touches that regime.) -/
def injectIntoSection (xml sectionTag newElement : Str) : Str × Nat :=
  let closeTag := str "</" ++ sectionTag ++ str ">"
  let openPfx := str "<" ++ sectionTag
  match findSub xml closeTag with
  | none => (xml, 0)
  | some closePos =>
    match findSub xml openPfx with
    | none => (xml, 0)
    | some openPos =>
      let openEnd := (findSub (xml.drop openPos) (str ">")).getD 0 + openPos
      let openTagStr := slice xml openPos (openEnd + 1)
      let existingCount := (extractCountAttr openTagStr).getD 0
      let newIndex := existingCount
      let updatedOpen := updateCountAttr openTagStr (existingCount + 1)
      (xml.take openPos ++ updatedOpen ++ slice xml (openEnd + 1) closePos ++
        newElement ++ xml.drop closePos, newIndex)

/-- `font_to_xml` (src/wolfxl/styles.rs:215-239). -/
def fontToXml (spec : FontSpec) : Str :=
  str "<font>" ++
  (if spec.bold then str "<b/>" else []) ++
  (if spec.italic then str "<i/>" else []) ++
  (if spec.underline then str "<u/>" else []) ++
  (if spec.strikethrough then str "<strike/>" else []) ++
  (match spec.size with
   | some sz => str "<sz val=\"" ++ natDecimal sz ++ str "\"/>"
   | none => []) ++
  (match spec.colorRgb with
   | some rgb => str "<color rgb=\"" ++ rgb ++ str "\"/>"
   | none => []) ++
  (match spec.name with
   | some n => str "<name val=\"" ++ n ++ str "\"/>"
   | none => []) ++
  str "</font>"

/-- `fill_to_xml` (src/wolfxl/styles.rs:242-250). -/
def fillToXml (spec : FillSpec) : Str :=
  str "<fill>" ++ str "<patternFill patternType=\"" ++ spec.patternType ++
  (match spec.fgColorRgb with
   | some rgb => str "\"><fgColor rgb=\"" ++ rgb ++ str "\"/></patternFill>"
   | none => str "\"/>") ++
  str "</fill>"

/-- The `side_xml` helper of `border_to_xml` (src/wolfxl/styles.rs:254-262). -/
def borderSideXml (tag : Str) (side : BorderSideSpec) : Str :=
  match side.style, side.colorRgb with
  | some style, some rgb =>
    str "<" ++ tag ++ str " style=\"" ++ style ++ str "\"><color rgb=\"" ++
      rgb ++ str "\"/></" ++ tag ++ str ">"
  | some style, none =>
    str "<" ++ tag ++ str " style=\"" ++ style ++ str "\"/>"
  | _, _ => str "<" ++ tag ++ str "/>"

/-- `border_to_xml` (src/wolfxl/styles.rs:253-270). -/
def borderToXml (spec : BorderSpec) : Str :=
  str "<border>" ++
  borderSideXml (str "left") spec.left ++
  borderSideXml (str "right") spec.right ++
  borderSideXml (str "top") spec.top ++
  borderSideXml (str "bottom") spec.bottom ++
  str "<diagonal/></border>"

/-- Rust `Vec::join(" ")`. -/
def joinSpace : List Str → Str
  | [] => []
  | [x] => x
  | x :: xs => x ++ str " " ++ joinSpace xs

/-- `xf_to_xml` (src/wolfxl/styles.rs:273-326). -/
def xfToXml (fontId fillId borderId numFmtId : Nat)
    (alignment : Option AlignmentSpec)
    (applyFont applyFill applyBorder applyNumberFormat : Bool) : Str :=
  let attrs :=
    str "numFmtId=\"" ++ natDecimal numFmtId ++ str "\" fontId=\"" ++
    natDecimal fontId ++ str "\" fillId=\"" ++ natDecimal fillId ++
    str "\" borderId=\"" ++ natDecimal borderId ++ str "\"" ++
    (if applyFont then str " applyFont=\"1\"" else []) ++
    (if applyFill then str " applyFill=\"1\"" else []) ++
    (if applyBorder then str " applyBorder=\"1\"" else []) ++
    (if applyNumberFormat then str " applyNumberFormat=\"1\"" else [])
  match alignment with
  | some align =>
    let alignParts : List Str :=
      (match align.horizontal with
       | some h => [str "horizontal=\"" ++ h ++ str "\""]
       | none => []) ++
      (match align.vertical with
       | some v => [str "vertical=\"" ++ v ++ str "\""]
       | none => []) ++
      (if align.wrapText then [str "wrapText=\"1\""] else []) ++
      (if 0 < align.indent then
        [str "indent=\"" ++ natDecimal align.indent ++ str "\""] else []) ++
      (if 0 < align.textRotation then
        [str "textRotation=\"" ++ natDecimal align.textRotation ++ str "\""]
       else [])
    if alignParts ≠ [] then
      str "<xf " ++ attrs ++ str " applyAlignment=\"1\"><alignment " ++
        joinSpace alignParts ++ str "/></xf>"
    else str "<xf " ++ attrs ++ str "/>"
  | none => str "<xf " ++ attrs ++ str "/>"

/-- Rust `str::replace` with a single-character pattern. -/
def replaceChar : Str → Char → Str → Str
  | [], _, _ => []
  | ch :: t, c, r => (if ch = c then r else [ch]) ++ replaceChar t c r

/-- `xml_escape` (src/wolfxl/styles.rs:485-490): chained replacements of
`&`, `<`, `>`, `"`. -/
def xmlEscape (s : Str) : Str :=
  replaceChar
    (replaceChar
      (replaceChar
        (replaceChar s '&' (str "&amp;"))
        '<' (str "&lt;"))
      '>' (str "&gt;"))
    '"' (str "&quot;")

/-- `builtin_num_fmt_id` (src/wolfxl/styles.rs:461-483). -/
def builtinNumFmtId (code : Str) : Option Nat :=
  if code = str "General" then some 0
  else if code = str "0" then some 1
  else if code = str "0.00" then some 2
  else if code = str "#,##0" then some 3
  else if code = str "#,##0.00" then some 4
  else if code = str "0%" then some 9
  else if code = str "0.00%" then some 10
  else if code = str "0.00E+00" then some 11
  else if code = str "mm-dd-yy" then some 14
  else if code = str "d-mmm-yy" then some 15
  else if code = str "d-mmm" then some 16
  else if code = str "mmm-yy" then some 17
  else if code = str "h:mm AM/PM" then some 18
  else if code = str "h:mm:ss AM/PM" then some 19
  else if code = str "h:mm" then some 20
  else if code = str "h:mm:ss" then some 21
  else if code = str "m/d/yy h:mm" then some 22
  else if code = str "@" then some 49
  else none

/-- The scan loop of `find_or_create_num_fmt` (src/wolfxl/styles.rs:411-432)
over the `(numFmtId, formatCode)` attribute pairs of the document's
`<numFmt>` elements in document order (the pairs are the output of the
external quick-xml tokenizer, which the embedding abstracts; theorems
quantify over them alongside the raw text).  `.error id` models the early
return on an exact format-code match, `.ok maxId` the loop completing. -/
def numFmtScan : List (Nat × Str) → Str → Nat → Except Nat Nat
  | [], _, maxId => .ok maxId
  | (id, code) :: t, fmtCode, maxId =>
    if code = fmtCode then .error id
    else numFmtScan t fmtCode (if maxId < id then id else maxId)

/-- `find_or_create_num_fmt` (src/wolfxl/styles.rs:398-459), with the
parsed `<numFmt>` pairs of `xml` supplied as `entries` (see `numFmtScan`). -/
def findOrCreateNumFmt (xml : Str) (entries : List (Nat × Str))
    (formatCode : Str) : Str × Nat :=
  match builtinNumFmtId formatCode with
  | some id => (xml, id)
  | none =>
    match numFmtScan entries formatCode 163 with
    | .error id => (xml, id)
    | .ok maxId =>
      let newId := maxId + 1
      let newElement := str "<numFmt numFmtId=\"" ++ natDecimal newId ++
        str "\" formatCode=\"" ++ xmlEscape formatCode ++ str "\"/>"
      if containsSub xml (str "<numFmts") then
        ((injectIntoSection xml (str "numFmts") newElement).1, newId)
      else
        match findSub xml (str "<fonts") with
        | some pos =>
          (xml.take pos ++ str "<numFmts count=\"1\">" ++ newElement ++
            str "</numFmts>" ++ xml.drop pos, newId)
        | none => (xml, newId)

/-- `apply_format_spec` (src/wolfxl/styles.rs:493-550): inject each present
component, resolve the number format, then append the `<xf>` record to
`cellXfs` and return its index.  `entries` are the parsed `<numFmt>` pairs
of the document, as in `findOrCreateNumFmt`. -/
def applyFormatSpec (xml0 : Str) (entries : List (Nat × Str))
    (spec : FormatSpec) : Str × Nat :=
  let p1 := match spec.font with
    | some f => injectIntoSection xml0 (str "fonts") (fontToXml f)
    | none => (xml0, 0)
  let p2 := match spec.fill with
    | some f => injectIntoSection p1.1 (str "fills") (fillToXml f)
    | none => (p1.1, 0)
  let p3 := match spec.border with
    | some b => injectIntoSection p2.1 (str "borders") (borderToXml b)
    | none => (p2.1, 0)
  let p4 := match spec.numberFormat with
    | some code => findOrCreateNumFmt p3.1 entries code
    | none => (p3.1, 0)
  let xfXml := xfToXml p1.2 p2.2 p3.2 p4.2 spec.alignment
    spec.font.isSome spec.fill.isSome spec.border.isSome
    spec.numberFormat.isSome
  injectIntoSection p4.1 (str "cellXfs") xfXml

example :
    (injectIntoSection
      (str "<fonts count=\"1\"><font/></fonts>") (str "fonts")
      (str "<font><b/></font>")).1 =
    str "<fonts count=\"2\"><font/><font><b/></font></fonts>" := by decide

example :
    (injectIntoSection
      (str "<fonts count=\"1\"><font/></fonts>") (str "fonts")
      (str "<font><b/></font>")).2 = 1 := by decide

-- ---------------------------------------------------------------------------
-- Characterization of inject_into_section on well-formed section text
-- ---------------------------------------------------------------------------

/-- The opening tag `<sec count="n">` of a styles section. -/
def openTagOf (sec : Str) (n : Nat) : Str :=
  str "<" ++ sec ++ str " count=\"" ++ natDecimal n ++ str "\">"

/-- The closing tag `</sec>` of a styles section. -/
def closeTagOf (sec : Str) : Str := str "</" ++ sec ++ str ">"

theorem natDecimal_all_ne (n : Nat) (c : Char)
    (hc : c.toNat < 48 ∨ 57 < c.toNat) :
    (natDecimal n).all (fun d => d ≠ c) = true := by
  rw [List.all_eq_true]
  intro d hd
  have h := natDecimal_digits n d hd
  simp only [decide_eq_true_eq]
  intro hdc
  subst hdc
  omega

theorem natDecimal_all_digit (n : Nat) :
    (natDecimal n).all isAsciiDigit = true := by
  rw [List.all_eq_true]
  intro d hd
  have h := natDecimal_digits n d hd
  simp only [isAsciiDigit, Bool.and_eq_true, decide_eq_true_eq]
  omega

theorem parseU32F_natDecimal (n : Nat) (h : n < 2 ^ 32) :
    parseU32F (natDecimal n) = some n := by
  rw [parseU32F_of_digits (natDecimal n) (natDecimal_all_digit n)
    (natDecimal_ne_nil n), parseU32_natDecimal n h]

theorem cleanFor_close_open (sec : Str) (n : Nat) (c0 : Char) (ms : Str)
    (hsec : sec.all (fun c => c ≠ '<') = true)
    (hhead : ∃ s0 ss, sec = s0 :: ss ∧ s0 ≠ c0 ∧ s0 ≠ '<') :
    cleanFor ('<' :: c0 :: ms) (openTagOf sec n) = true := by
  obtain ⟨s0, ss, rfl, hne, hne2⟩ := hhead
  have hX : (ss ++ str " count=\"" ++ natDecimal n ++ str "\">").all
      (fun c => c ≠ '<') = true := by
    simp only [List.all_append, Bool.and_eq_true]
    refine ⟨⟨⟨?_, by decide⟩, ?_⟩, by decide⟩
    · simp only [List.all_cons, Bool.and_eq_true] at hsec
      exact hsec.2
    · exact natDecimal_all_ne n '<' (by right; decide)
  have hshape : openTagOf (s0 :: ss) n =
      '<' :: s0 :: (ss ++ str " count=\"" ++ natDecimal n ++ str "\">") := by
    simp [openTagOf, str, List.append_assoc]
  rw [hshape]
  exact cleanFor_single_head '<' c0 s0 ms _ (fun h => hne h.symm) hne2 hX

/-- `inject_into_section` on text of the shape
`A ++ <sec count="n"> ++ B ++ </sec> ++ C`, with the pieces clean for the
markers the string searches use: the element lands before the closing tag,
the count becomes `n + 1`, and the returned index is `n`. -/
theorem inject_characterize (sec A B C elem : Str) (n : Nat)
    (hn : n < 2 ^ 32)
    (hsec_gt : sec.all (fun c => c ≠ '>') = true)
    (hA_close : cleanFor (closeTagOf sec) A = true)
    (hA_open : cleanFor (str "<" ++ sec) A = true)
    (hB_close : cleanFor (closeTagOf sec) B = true)
    (hOpen_close : cleanFor (closeTagOf sec) (openTagOf sec n) = true)
    (hcnt : cleanFor (str "count=\"") (str "<" ++ sec ++ str " ") = true) :
    injectIntoSection (A ++ openTagOf sec n ++ B ++ closeTagOf sec ++ C)
      sec elem =
    (A ++ openTagOf sec (n + 1) ++ B ++ elem ++ closeTagOf sec ++ C, n) := by
  have hclose_ne : closeTagOf sec ≠ [] := by simp [closeTagOf, str]
  have hopen_ne : str "<" ++ sec ≠ [] := by simp [str]
  set xml := A ++ openTagOf sec n ++ B ++ closeTagOf sec ++ C with hxml
  -- Step 1: position of the closing tag.
  have hfind_close : findSub xml (closeTagOf sec) =
      some (A.length + ((openTagOf sec n).length + B.length)) := by
    have hX : cleanFor (closeTagOf sec) (A ++ (openTagOf sec n ++ B)) =
        true :=
      cleanFor_append _ _ _ hA_close
        (cleanFor_append _ _ _ hOpen_close hB_close)
    have hshape : xml = (A ++ (openTagOf sec n ++ B)) ++
        (closeTagOf sec ++ C) := by
      simp [hxml, List.append_assoc]
    rw [hshape, findSub_append_anchor _ _ _ hclose_ne hX
      (hasPfx_append_self _ _)]
    simp [List.length_append]
  -- Step 2: position of the opening tag.
  have hfind_open : findSub xml (str "<" ++ sec) = some A.length := by
    have hshape : xml = A ++ ((str "<" ++ sec) ++
        (str " count=\"" ++ natDecimal n ++ str "\">" ++ B ++
          closeTagOf sec ++ C)) := by
      simp [hxml, openTagOf, List.append_assoc]
    rw [hshape, findSub_append_anchor _ _ _ hopen_ne hA_open
      (hasPfx_append_self _ _)]
  -- Step 3: the rest of the opening tag after the drop.
  have hdrop_open : xml.drop A.length =
      openTagOf sec n ++ (B ++ (closeTagOf sec ++ C)) := by
    have hshape : xml = A ++
        (openTagOf sec n ++ (B ++ (closeTagOf sec ++ C))) := by
      simp [hxml, List.append_assoc]
    rw [hshape, List.drop_left]
  -- Step 4: the first '>' after the opening tag position.
  have hpre : openTagOf sec n =
      (str "<" ++ sec ++ str " count=\"" ++ natDecimal n ++ str "\"") ++
        str ">" := by
    simp [openTagOf, List.append_assoc]
    rfl
  have hpre_clean : cleanFor (str ">")
      (str "<" ++ sec ++ str " count=\"" ++ natDecimal n ++ str "\"") =
      true := by
    refine cleanFor_of_no_head '>' [] _ ?_
    simp only [List.all_append, Bool.and_eq_true]
    refine ⟨⟨⟨⟨by decide, hsec_gt⟩, by decide⟩,
      natDecimal_all_ne n '>' (by right; decide)⟩, by decide⟩
  have hfind_gt : findSub (xml.drop A.length) (str ">") =
      some ((openTagOf sec n).length - 1) := by
    rw [hdrop_open, hpre]
    have hshape :
        ((str "<" ++ sec ++ str " count=\"" ++ natDecimal n ++ str "\"") ++
          str ">") ++ (B ++ (closeTagOf sec ++ C)) =
        (str "<" ++ sec ++ str " count=\"" ++ natDecimal n ++ str "\"") ++
          (str ">" ++ (B ++ (closeTagOf sec ++ C))) := by
      simp [List.append_assoc]
    rw [hshape, findSub_append_anchor _ _ _ (by simp [str])
      hpre_clean (hasPfx_append_self _ _)]
    simp only [Option.some.injEq, List.length_append]
    have h1 : (str ">").length = 1 := rfl
    omega
  -- Literal splits and lengths.
  have hlit1 : str " count=\"" = str " " ++ str "count=\"" := by decide
  have hlit2 : str "\">" = str "\"" ++ str ">" := by decide
  have hc7 : (str "count=\"").length = 7 := rfl
  have hopen_pos : 1 ≤ (openTagOf sec n).length := by
    rw [hpre, List.length_append]
    have h1 : (str ">").length = 1 := rfl
    omega
  -- Step 5: the opening tag recovered by the slice.
  have hshapeAO : xml = (A ++ openTagOf sec n) ++
      (B ++ (closeTagOf sec ++ C)) := by
    simp [hxml, List.append_assoc]
  have hslice_open : slice xml A.length
      (A.length + (openTagOf sec n).length) = openTagOf sec n := by
    have htake : xml.take (A.length + (openTagOf sec n).length) =
        A ++ openTagOf sec n := by
      have hshape2 : xml = A ++ (openTagOf sec n ++
          (B ++ (closeTagOf sec ++ C))) := by
        simp [hxml, List.append_assoc]
      rw [hshape2, List.take_append, List.take_left]
    rw [slice, htake, List.drop_left]
  -- Step 6: position of `count="` inside the opening tag.
  have hopen_split1 : openTagOf sec n = (str "<" ++ sec ++ str " ") ++
      (str "count=\"" ++ (natDecimal n ++ str "\">")) := by
    rw [openTagOf, hlit1]
    simp [List.append_assoc]
  have hfind_cnt : findSub (openTagOf sec n) (str "count=\"") =
      some (str "<" ++ sec ++ str " ").length := by
    rw [hopen_split1]
    exact findSub_append_anchor _ _ _ (by decide) hcnt
      (hasPfx_append_self _ _)
  have hopen_split2 : openTagOf sec n =
      ((str "<" ++ sec ++ str " ") ++ str "count=\"") ++
        (natDecimal n ++ str "\">") := by
    rw [hopen_split1]
    simp [List.append_assoc]
  have hlen9 : ((str "<" ++ sec ++ str " ") ++ str "count=\"").length =
      (str "<" ++ sec ++ str " ").length + 7 := by
    rw [List.length_append, hc7]
  have hdrop9 : (openTagOf sec n).drop
      ((str "<" ++ sec ++ str " ").length + 7) =
      natDecimal n ++ str "\">" := by
    rw [hopen_split2, ← hlen9, List.drop_left]
  -- Step 7: the `"` closing the count value.
  have hcleanq : cleanFor (str "\"") (natDecimal n) = true :=
    cleanFor_of_no_head '"' [] _ (natDecimal_all_ne n '"' (by left; decide))
  have hfind_quote : findSub (natDecimal n ++ str "\">") (str "\"") =
      some (natDecimal n).length := by
    rw [show natDecimal n ++ str "\">" =
      natDecimal n ++ (str "\"" ++ str ">") from by rw [hlit2]]
    exact findSub_append_anchor _ _ _ (by decide) hcleanq
      (hasPfx_append_self _ _)
  -- Step 8: the slices of the opening tag.
  have hlen9nd : (((str "<" ++ sec ++ str " ") ++ str "count=\"") ++
      natDecimal n).length =
      (str "<" ++ sec ++ str " ").length + 7 + (natDecimal n).length := by
    rw [List.length_append, hlen9]
  have hopen_split3 : openTagOf sec n =
      (((str "<" ++ sec ++ str " ") ++ str "count=\"") ++ natDecimal n) ++
        str "\">" := by
    rw [hopen_split2]
    simp [List.append_assoc]
  have hslice_nd : slice (openTagOf sec n)
      ((str "<" ++ sec ++ str " ").length + 7)
      ((str "<" ++ sec ++ str " ").length + 7 + (natDecimal n).length) =
      natDecimal n := by
    rw [slice, hopen_split3, ← hlen9nd, List.take_left, ← hlen9,
      List.drop_left]
  have hparse : parseU32R (natDecimal n) = some n := by
    rw [parseU32R, if_pos ⟨natDecimal_ne_nil n, natDecimal_all_digit n⟩,
      digitsVal_natDecimal, if_pos hn]
  -- Step 9: count extraction and update on the opening tag.
  have hextract : extractCountAttr (openTagOf sec n) = some n := by
    rw [extractCountAttr, hfind_cnt]
    simp only [hc7, hdrop9, hfind_quote, hslice_nd, hparse]
  have htake9 : (openTagOf sec n).take
      ((str "<" ++ sec ++ str " ").length + 7) =
      (str "<" ++ sec ++ str " ") ++ str "count=\"" := by
    rw [hopen_split2, ← hlen9, List.take_left]
  have hdropend : (openTagOf sec n).drop
      ((str "<" ++ sec ++ str " ").length + 7 + (natDecimal n).length) =
      str "\">" := by
    rw [hopen_split3, ← hlen9nd, List.drop_left]
  have hupdate : updateCountAttr (openTagOf sec n) (n + 1) =
      openTagOf sec (n + 1) := by
    rw [updateCountAttr, hfind_cnt]
    simp only [hc7, hdrop9, hfind_quote, htake9, hdropend]
    rw [openTagOf, hlit1]
    simp [List.append_assoc]
  -- Step 10: the slice between the opening and closing tags is `B`.
  have hslice_B : slice xml (A.length + (openTagOf sec n).length)
      (A.length + ((openTagOf sec n).length + B.length)) = B := by
    have htakeB : xml.take
        (A.length + ((openTagOf sec n).length + B.length)) =
        A ++ (openTagOf sec n ++ B) := by
      have hshape2 : xml = A ++ ((openTagOf sec n ++ B) ++
          (closeTagOf sec ++ C)) := by
        simp [hxml, List.append_assoc]
      have hlenAB : (openTagOf sec n).length + B.length =
          (openTagOf sec n ++ B).length := by
        rw [List.length_append]
      rw [hshape2, hlenAB, List.take_append, List.take_left]
    rw [slice, htakeB]
    have : A ++ (openTagOf sec n ++ B) =
        (A ++ openTagOf sec n) ++ B := by
      simp [List.append_assoc]
    rw [this]
    have hlenAO : A.length + (openTagOf sec n).length =
        (A ++ openTagOf sec n).length := by
      rw [List.length_append]
    rw [hlenAO, List.drop_left]
  have htakeA : xml.take A.length = A := by
    have hshape2 : xml = A ++ (openTagOf sec n ++ B ++
        closeTagOf sec ++ C) := by
      simp [hxml, List.append_assoc]
    rw [hshape2, List.take_left]
  have hdropC : xml.drop (A.length + ((openTagOf sec n).length +
      B.length)) = closeTagOf sec ++ C := by
    have hshape2 : xml = (A ++ (openTagOf sec n ++ B)) ++
        (closeTagOf sec ++ C) := by
      simp [hxml, List.append_assoc]
    have hlen2 : (A ++ (openTagOf sec n ++ B)).length =
        A.length + ((openTagOf sec n).length + B.length) := by
      simp [List.length_append]
    rw [hshape2, ← hlen2, List.drop_left]
  -- Assemble.
  have hfc : findSub xml (str "</" ++ sec ++ str ">") =
      some (A.length + ((openTagOf sec n).length + B.length)) := hfind_close
  have hfo : findSub xml (str "<" ++ sec) = some A.length := hfind_open
  rw [injectIntoSection]
  simp only [hfc, hfo, hfind_gt, Option.getD_some]
  have harith1 : (openTagOf sec n).length - 1 + A.length + 1 =
      A.length + (openTagOf sec n).length := by omega
  rw [harith1, hslice_open, hextract, Option.getD_some, hupdate, htakeA,
    hslice_B, hdropC]
  simp [List.append_assoc]

-- ---------------------------------------------------------------------------
-- C6 : number-format resolution
-- ---------------------------------------------------------------------------

theorem numFmtScan_found (code : Str) : ∀ (pre : List (Nat × Str)) (id : Nat)
    (post : List (Nat × Str)) (m : Nat), (∀ e ∈ pre, e.2 ≠ code) →
    numFmtScan (pre ++ (id, code) :: post) code m = .error id := by
  intro pre
  induction pre with
  | nil =>
    intro id post m _
    simp [numFmtScan]
  | cons e t ih =>
    intro id post m hpre
    obtain ⟨eid, ecode⟩ := e
    have hne : ecode ≠ code := hpre (eid, ecode) (List.mem_cons_self _ _)
    simp only [List.cons_append, numFmtScan, hne, if_neg]
    exact ih id post _ fun x hx => hpre x (List.mem_cons_of_mem _ hx)

theorem numFmtScan_none (code : Str) : ∀ (entries : List (Nat × Str))
    (m : Nat), (∀ e ∈ entries, e.2 ≠ code) →
    numFmtScan entries code m =
      .ok (entries.foldl (fun acc e => if acc < e.1 then e.1 else acc) m) := by
  intro entries
  induction entries with
  | nil => intro m _; rfl
  | cons e t ih =>
    intro m hent
    obtain ⟨eid, ecode⟩ := e
    have hne : ecode ≠ code := hent (eid, ecode) (List.mem_cons_self _ _)
    rw [show numFmtScan ((eid, ecode) :: t) code m =
        numFmtScan t code (if m < eid then eid else m) from by
      simp [numFmtScan, hne]]
    rw [List.foldl_cons,
      ih _ fun x hx => hent x (List.mem_cons_of_mem _ hx)]

theorem foldl_max_ge (entries : List (Nat × Str)) : ∀ m : Nat,
    m ≤ entries.foldl (fun acc e => if acc < e.1 then e.1 else acc) m := by
  induction entries with
  | nil => intro m; exact Nat.le_refl m
  | cons e t ih =>
    intro m
    refine Nat.le_trans ?_ (ih (if m < e.1 then e.1 else m))
    split <;> omega

/-- C6: number-format resolution.  (i) The builtin table is exactly the
claimed one; (ii) a builtin code returns its id with the XML unchanged;
(iii) an existing `numFmt` entry with exactly the requested code returns
that entry's id with the XML unchanged; (iv) otherwise a new entry with id
`max(existing ids, 163) + 1 ≥ 164` is appended before `</numFmts>`;
(v) when no `<numFmts` table exists one is created immediately before the
fonts table. -/
theorem C6_num_fmt_resolution :
    (builtinNumFmtId (str "General") = some 0 ∧
     builtinNumFmtId (str "0") = some 1 ∧
     builtinNumFmtId (str "0.00") = some 2 ∧
     builtinNumFmtId (str "#,##0") = some 3 ∧
     builtinNumFmtId (str "#,##0.00") = some 4 ∧
     builtinNumFmtId (str "0%") = some 9 ∧
     builtinNumFmtId (str "0.00%") = some 10 ∧
     builtinNumFmtId (str "0.00E+00") = some 11 ∧
     builtinNumFmtId (str "mm-dd-yy") = some 14 ∧
     builtinNumFmtId (str "d-mmm-yy") = some 15 ∧
     builtinNumFmtId (str "d-mmm") = some 16 ∧
     builtinNumFmtId (str "mmm-yy") = some 17 ∧
     builtinNumFmtId (str "h:mm AM/PM") = some 18 ∧
     builtinNumFmtId (str "h:mm:ss AM/PM") = some 19 ∧
     builtinNumFmtId (str "h:mm") = some 20 ∧
     builtinNumFmtId (str "h:mm:ss") = some 21 ∧
     builtinNumFmtId (str "m/d/yy h:mm") = some 22 ∧
     builtinNumFmtId (str "@") = some 49) ∧
    (∀ xml entries code id, builtinNumFmtId code = some id →
      findOrCreateNumFmt xml entries code = (xml, id)) ∧
    (∀ xml entries code, builtinNumFmtId code = none →
      ∀ (pre : List (Nat × Str)) (id : Nat) (post : List (Nat × Str)),
        entries = pre ++ (id, code) :: post → (∀ e ∈ pre, e.2 ≠ code) →
        findOrCreateNumFmt xml entries code = (xml, id)) ∧
    (∀ (A B C code : Str) (entries : List (Nat × Str)) (k : Nat),
      builtinNumFmtId code = none → (∀ e ∈ entries, e.2 ≠ code) →
      k < 2 ^ 32 →
      cleanFor (closeTagOf (str "numFmts")) A = true →
      cleanFor (str "<" ++ str "numFmts") A = true →
      cleanFor (closeTagOf (str "numFmts")) B = true →
      let newId := entries.foldl (fun acc e => if acc < e.1 then e.1 else acc) 163 + 1
      findOrCreateNumFmt
        (A ++ openTagOf (str "numFmts") k ++ B ++
          closeTagOf (str "numFmts") ++ C) entries code =
        (A ++ openTagOf (str "numFmts") (k + 1) ++ B ++
          (str "<numFmt numFmtId=\"" ++ natDecimal newId ++
            str "\" formatCode=\"" ++ xmlEscape code ++ str "\"/>") ++
          closeTagOf (str "numFmts") ++ C, newId) ∧ 164 ≤ newId) ∧
    (∀ (A R code : Str) (entries : List (Nat × Str)),
      builtinNumFmtId code = none → (∀ e ∈ entries, e.2 ≠ code) →
      containsSub (A ++ (str "<fonts" ++ R)) (str "<numFmts") = false →
      cleanFor (str "<fonts") A = true →
      let newId := entries.foldl (fun acc e => if acc < e.1 then e.1 else acc) 163 + 1
      findOrCreateNumFmt (A ++ (str "<fonts" ++ R)) entries code =
        (A ++ (str "<numFmts count=\"1\">" ++
          (str "<numFmt numFmtId=\"" ++ natDecimal newId ++
            str "\" formatCode=\"" ++ xmlEscape code ++ str "\"/>") ++
          str "</numFmts>" ++ (str "<fonts" ++ R)), newId) ∧
        164 ≤ newId) := by
  refine ⟨?_, ?_, ?_, ?_, ?_⟩
  · refine ⟨?_, ?_, ?_, ?_, ?_, ?_, ?_, ?_, ?_, ?_, ?_, ?_, ?_, ?_, ?_,
      ?_, ?_, ?_⟩ <;> decide
  · intro xml entries code id h
    simp [findOrCreateNumFmt, h]
  · intro xml entries code hb pre id post hent hpre
    subst hent
    simp [findOrCreateNumFmt, hb, numFmtScan_found code pre id post 163 hpre]
  · intro A B C code entries k hb hent hk hA1 hA2 hB1
    intro newId
    have hscan := numFmtScan_none code entries 163 hent
    have hmax : 163 ≤ entries.foldl (fun acc e => if acc < e.1 then e.1 else acc) 163 :=
      foldl_max_ge entries 163
    constructor
    · have hcontains : containsSub
          (A ++ openTagOf (str "numFmts") k ++ B ++
            closeTagOf (str "numFmts") ++ C) (str "<numFmts") = true := by
        have hshape : A ++ openTagOf (str "numFmts") k ++ B ++
            closeTagOf (str "numFmts") ++ C =
            A ++ ((str "<" ++ str "numFmts") ++
              (str " count=\"" ++ natDecimal k ++ str "\">" ++
                (B ++ (closeTagOf (str "numFmts") ++ C)))) := by
          simp [openTagOf, List.append_assoc]
        have hlit : str "<numFmts" = str "<" ++ str "numFmts" := rfl
        rw [containsSub, hlit, hshape, findSub_append_anchor _ _ _
          (by decide) hA2 (hasPfx_append_self _ _)]
        rfl
      have hinj := inject_characterize (str "numFmts") A B C
        (str "<numFmt numFmtId=\"" ++ natDecimal newId ++
          str "\" formatCode=\"" ++ xmlEscape code ++ str "\"/>") k hk
        (by decide) hA1 hA2 hB1
        (cleanFor_close_open (str "numFmts") k '/' (str "numFmts" ++ str ">")
          (by decide) ⟨'n', str "umFmts", by decide⟩)
        (by decide)
      simp only [findOrCreateNumFmt, hb, hscan, hcontains, if_true]
      rw [hinj]
    · omega
  · intro A R code entries hb hent hnofmts hA
    intro newId
    have hscan := numFmtScan_none code entries 163 hent
    have hmax : 163 ≤ entries.foldl (fun acc e => if acc < e.1 then e.1 else acc) 163 :=
      foldl_max_ge entries 163
    have hfind : findSub (A ++ (str "<fonts" ++ R)) (str "<fonts") =
        some A.length :=
      findSub_append_anchor _ _ _ (by decide) hA (hasPfx_append_self _ _)
    constructor
    · simp only [findOrCreateNumFmt, hb, hscan, hnofmts,
        Bool.false_eq_true, if_false, hfind]
      rw [List.take_left, List.drop_left]
      simp [List.append_assoc]
    · omega

/-- C6 witness: a concrete non-builtin, non-matching code appended to an
existing `numFmts` table whose largest id is 200 gets id 201. -/
theorem C6_num_fmt_resolution_witness :
    findOrCreateNumFmt
      (str "<s>" ++ openTagOf (str "numFmts") 1 ++
        str "<numFmt numFmtId=\"200\" formatCode=\"yy\"/>" ++
        closeTagOf (str "numFmts") ++ str "<fonts/>")
      [(200, str "yy")] (str "$0.00") =
    (str "<s>" ++ openTagOf (str "numFmts") 2 ++
      str "<numFmt numFmtId=\"200\" formatCode=\"yy\"/>" ++
      (str "<numFmt numFmtId=\"" ++ natDecimal 201 ++
        str "\" formatCode=\"" ++ xmlEscape (str "$0.00") ++ str "\"/>") ++
      closeTagOf (str "numFmts") ++ str "<fonts/>", 201) := by
  exact (C6_num_fmt_resolution.2.2.2.1 (str "<s>")
    (str "<numFmt numFmtId=\"200\" formatCode=\"yy\"/>") (str "<fonts/>")
    (str "$0.00") [(200, str "yy")] 1 (by decide) (by decide) (by decide)
    (by decide) (by decide) (by decide)).1

-- ---------------------------------------------------------------------------
-- C5 : no deduplication in apply_format_spec
-- ---------------------------------------------------------------------------

/-- The search markers `inject_into_section` uses over a styles document. -/
def sectionMarkers : List Str :=
  [str "</numFmts>", str "<numFmts", str "</fonts>", str "<fonts",
   str "</fills>", str "<fills", str "</borders>", str "<borders",
   str "</cellXfs>", str "<cellXfs"]

/-- Clean for every section marker. -/
def cleanAll (X : Str) : Bool :=
  sectionMarkers.all (fun m => cleanFor m X)

theorem cleanFor_of_cleanAll (m X : Str) (hm : m ∈ sectionMarkers)
    (h : cleanAll X = true) : cleanFor m X = true :=
  List.all_eq_true.mp h m hm

theorem cleanAll_append (X Y : Str) (hX : cleanAll X = true)
    (hY : cleanAll Y = true) : cleanAll (X ++ Y) = true := by
  rw [cleanAll, List.all_eq_true]
  intro m hm
  exact cleanFor_append m X Y (cleanFor_of_cleanAll m X hm hX)
    (cleanFor_of_cleanAll m Y hm hY)

theorem cleanFor_head_lt (mk Q : Str)
    (hmk : ∃ t, mk = '<' :: t)
    (hQ : Q.all (fun c => c ≠ '<') = true)
    (h1 : hasPfx mk ('<' :: Q) = false)
    (h2 : hasPfx ('<' :: Q) mk = false) :
    cleanFor mk ('<' :: Q) = true := by
  obtain ⟨t, rfl⟩ := hmk
  have hstep : cleanFor ('<' :: t) ('<' :: Q) =
      (!(hasPfx ('<' :: t) ('<' :: Q)) && !(hasPfx ('<' :: Q) ('<' :: t)) &&
       cleanFor ('<' :: t) Q) := rfl
  rw [hstep, h1, h2, cleanFor_of_no_head '<' t Q hQ]
  rfl

theorem cleanAll_head_lt (Q : Str)
    (hQ : Q.all (fun c => c ≠ '<') = true)
    (hchecks : sectionMarkers.all
      (fun m => !(hasPfx m ('<' :: Q)) && !(hasPfx ('<' :: Q) m)) = true) :
    cleanAll ('<' :: Q) = true := by
  rw [cleanAll, List.all_eq_true]
  intro m hm
  have hpair := List.all_eq_true.mp hchecks m hm
  simp only [Bool.and_eq_true, Bool.not_eq_true'] at hpair
  have hmhead : ∃ t, m = '<' :: t := by
    have : m.head? = some '<' := by
      fin_cases hm <;> rfl
    match m with
    | [] => simp at this
    | a :: t =>
      simp only [List.head?_cons, Option.some.injEq] at this
      exact ⟨t, by rw [this]⟩
  exact cleanFor_head_lt m Q hmhead hQ hpair.1 hpair.2

theorem cleanAll_no_lt (X : Str) (hX : X.all (fun c => c ≠ '<') = true) :
    cleanAll X = true := by
  rw [cleanAll, List.all_eq_true]
  intro m hm
  fin_cases hm <;> exact cleanFor_of_no_head '<' _ X hX

theorem replaceChar_no_lt (s : Str) :
    (replaceChar s '<' (str "&lt;")).all (fun c => c ≠ '<') = true := by
  induction s with
  | nil => rfl
  | cons ch t ih =>
    by_cases h : ch = '<'
    · simp only [replaceChar, h, if_pos rfl, List.all_append, ih,
        Bool.and_true]
      decide
    · simp only [replaceChar, if_neg h, List.all_append, ih, Bool.and_true]
      simp [h]

theorem replaceChar_all {p : Char → Bool} (s : Str) (c : Char) (r : Str)
    (hs : s.all p = true) (hr : r.all p = true) :
    (replaceChar s c r).all p = true := by
  induction s with
  | nil => rfl
  | cons ch t ih =>
    simp only [List.all_cons, Bool.and_eq_true] at hs
    simp only [replaceChar, List.all_append, Bool.and_eq_true]
    refine ⟨?_, ih hs.2⟩
    split
    · exact hr
    · simp [hs.1]

theorem xmlEscape_no_lt (s : Str) :
    (xmlEscape s).all (fun c => c ≠ '<') = true := by
  rw [xmlEscape]
  refine replaceChar_all _ '"' _ (replaceChar_all _ '>' _
    (replaceChar_no_lt _) (by decide)) (by decide)

/-- The option strings of a queued `FontSpec` avoid `<`. -/
def fontBenign : Option FontSpec → Bool
  | some f => (f.name.getD []).all (fun c => c ≠ '<') &&
      (f.colorRgb.getD []).all (fun c => c ≠ '<')
  | none => true

/-- The option strings of a queued `FillSpec` avoid `<`. -/
def fillBenign : Option FillSpec → Bool
  | some f => f.patternType.all (fun c => c ≠ '<') &&
      (f.fgColorRgb.getD []).all (fun c => c ≠ '<')
  | none => true

/-- The option strings of a queued `BorderSpec` avoid `<`. -/
def borderBenign : Option BorderSpec → Bool
  | some b => (b.left.style.getD []).all (fun c => c ≠ '<') &&
      (b.left.colorRgb.getD []).all (fun c => c ≠ '<') &&
      (b.right.style.getD []).all (fun c => c ≠ '<') &&
      (b.right.colorRgb.getD []).all (fun c => c ≠ '<') &&
      (b.top.style.getD []).all (fun c => c ≠ '<') &&
      (b.top.colorRgb.getD []).all (fun c => c ≠ '<') &&
      (b.bottom.style.getD []).all (fun c => c ≠ '<') &&
      (b.bottom.colorRgb.getD []).all (fun c => c ≠ '<')
  | none => true

/-- The option strings of a queued `AlignmentSpec` avoid `<`. -/
def alignBenign : Option AlignmentSpec → Bool
  | some a => (a.horizontal.getD []).all (fun c => c ≠ '<') &&
      (a.vertical.getD []).all (fun c => c ≠ '<')
  | none => true

/-- All option strings of a `FormatSpec` avoid `<`, so the XML fragments
generated from it cannot collide with the section markers. -/
def specBenign (spec : FormatSpec) : Bool :=
  fontBenign spec.font && fillBenign spec.fill &&
  borderBenign spec.border && alignBenign spec.alignment

theorem all_ne_lt_of_mem (nd : Str)
    (hnd : nd.all (fun c => c ≠ '<') = true) :
    ∀ x ∈ nd, ¬ x = '<' := by
  intro x hx
  have := List.all_eq_true.mp hnd x hx
  simpa using this

theorem cleanAll_attr_piece (lit1 : Str) (mid : Str) (lit2 : Str)
    (hl1 : lit1.all (fun c => c ≠ '<') = true)
    (hmid : mid.all (fun c => c ≠ '<') = true)
    (hl2 : lit2.all (fun c => c ≠ '<') = true)
    (hchecks : sectionMarkers.all (fun m =>
      !(hasPfx m ('<' :: (lit1 ++ (mid ++ lit2)))) &&
      !(hasPfx ('<' :: (lit1 ++ (mid ++ lit2))) m)) = true) :
    cleanAll ('<' :: (lit1 ++ (mid ++ lit2))) = true := by
  apply cleanAll_head_lt _ _ hchecks
  simp only [List.all_append, Bool.and_eq_true]
  exact ⟨hl1, hmid, hl2⟩

theorem cleanAll_sz (nd : Str) (hnd : nd.all (fun c => c ≠ '<') = true) :
    cleanAll (str "<sz val=\"" ++ nd ++ str "\"/>") = true := by
  have hshape : str "<sz val=\"" ++ nd ++ str "\"/>" =
      '<' :: (str "sz val=\"" ++ (nd ++ str "\"/>")) := by
    simp [str, List.append_assoc]
  rw [hshape]
  exact cleanAll_attr_piece _ _ _ (by decide) hnd (by decide)
    (by simp [sectionMarkers, hasPfx, str])

theorem cleanAll_color (nd : Str) (hnd : nd.all (fun c => c ≠ '<') = true) :
    cleanAll (str "<color rgb=\"" ++ nd ++ str "\"/>") = true := by
  have hshape : str "<color rgb=\"" ++ nd ++ str "\"/>" =
      '<' :: (str "color rgb=\"" ++ (nd ++ str "\"/>")) := by
    simp [str, List.append_assoc]
  rw [hshape]
  exact cleanAll_attr_piece _ _ _ (by decide) hnd (by decide)
    (by simp [sectionMarkers, hasPfx, str])

theorem cleanAll_nameval (nd : Str)
    (hnd : nd.all (fun c => c ≠ '<') = true) :
    cleanAll (str "<name val=\"" ++ nd ++ str "\"/>") = true := by
  have hshape : str "<name val=\"" ++ nd ++ str "\"/>" =
      '<' :: (str "name val=\"" ++ (nd ++ str "\"/>")) := by
    simp [str, List.append_assoc]
  rw [hshape]
  exact cleanAll_attr_piece _ _ _ (by decide) hnd (by decide)
    (by simp [sectionMarkers, hasPfx, str])

theorem cleanAll_ite (b : Bool) (l : Str) (hl : cleanAll l = true) :
    cleanAll (if b = true then l else []) = true := by
  cases b
  · exact (by decide : cleanAll [] = true)
  · exact hl

theorem cleanAll_fontToXml (f : FontSpec)
    (hname : (f.name.getD []).all (fun c => c ≠ '<') = true)
    (hcolor : (f.colorRgb.getD []).all (fun c => c ≠ '<') = true) :
    cleanAll (fontToXml f) = true := by
  rw [fontToXml]
  refine cleanAll_append _ _ ?_ ?_
  · refine cleanAll_append _ _ ?_ ?_
    · refine cleanAll_append _ _ ?_ ?_
      · refine cleanAll_append _ _ ?_ ?_
        · refine cleanAll_append _ _ ?_ ?_
          · refine cleanAll_append _ _ ?_ ?_
            · refine cleanAll_append _ _ ?_ ?_
              · refine cleanAll_append _ _ ?_ ?_
                · decide
                · exact cleanAll_ite f.bold _ (by decide)
              · exact cleanAll_ite f.italic _ (by decide)
            · exact cleanAll_ite f.underline _ (by decide)
          · exact cleanAll_ite f.strikethrough _ (by decide)
        · match f.size with
          | none => decide
          | some sz =>
            exact cleanAll_sz (natDecimal sz)
              (natDecimal_all_ne sz '<' (by right; decide))
      · match hcr : f.colorRgb with
        | none => decide
        | some rgb =>
          refine cleanAll_color rgb ?_
          rw [hcr] at hcolor
          simpa using hcolor
    · match hnm : f.name with
      | none => decide
      | some nm =>
        refine cleanAll_nameval nm ?_
        rw [hnm] at hname
        simpa using hname
  · decide

theorem cleanAll_fillToXml (f : FillSpec)
    (hpt : f.patternType.all (fun c => c ≠ '<') = true)
    (hfg : (f.fgColorRgb.getD []).all (fun c => c ≠ '<') = true) :
    cleanAll (fillToXml f) = true := by
  rw [fillToXml]
  refine cleanAll_append _ _ ?_ (by decide)
  match hf : f.fgColorRgb with
  | none =>
    have hshape : str "<fill>" ++ str "<patternFill patternType=\"" ++
        f.patternType ++ str "\"/>" =
        str "<fill>" ++
          ('<' :: (str "patternFill patternType=\"" ++
            (f.patternType ++ str "\"/>"))) := by
      simp [str, List.append_assoc]
    rw [hshape]
    refine cleanAll_append _ _ (by decide) ?_
    exact cleanAll_attr_piece _ _ _ (by decide) hpt (by decide)
      (by simp [sectionMarkers, hasPfx, str])
  | some rgb =>
    rw [hf] at hfg
    have hfg' : rgb.all (fun c => c ≠ '<') = true := by simpa using hfg
    have hshape : str "<fill>" ++ str "<patternFill patternType=\"" ++
        f.patternType ++
        (str "\"><fgColor rgb=\"" ++ rgb ++ str "\"/></patternFill>") =
        str "<fill>" ++
          (('<' :: (str "patternFill patternType=\"" ++
            (f.patternType ++ str "\">"))) ++
           (('<' :: (str "fgColor rgb=\"" ++ (rgb ++ str "\"/>"))) ++
            str "</patternFill>")) := by
      simp [str, List.append_assoc]
    rw [hshape]
    refine cleanAll_append _ _ (by decide) ?_
    refine cleanAll_append _ _ ?_ ?_
    · exact cleanAll_attr_piece _ _ _ (by decide) hpt (by decide)
        (by simp [sectionMarkers, hasPfx, str])
    · refine cleanAll_append _ _ ?_ (by decide)
      exact cleanAll_attr_piece _ _ _ (by decide) hfg' (by decide)
        (by simp [sectionMarkers, hasPfx, str])

theorem cleanAll_side_left (side : BorderSideSpec)
    (hs : (side.style.getD []).all (fun c => c ≠ '<') = true)
    (hc : (side.colorRgb.getD []).all (fun c => c ≠ '<') = true) :
    cleanAll (borderSideXml (str "left") side) = true := by
  rcases side with ⟨st, cl⟩
  rcases st with _ | s
  · rcases cl with _ | c
    · decide
    · have hshape : borderSideXml (str "left") ⟨none, some c⟩ =
          str "<left/>" := rfl
      rw [hshape]
      decide
  · rcases cl with _ | c
    · simp only [Option.getD_some] at hs
      have hshape : borderSideXml (str "left") ⟨some s, none⟩ =
          '<' :: (str "left style=\"" ++ (s ++ str "\"/>")) := by
        simp [borderSideXml, str, List.append_assoc]
      rw [hshape]
      exact cleanAll_attr_piece _ _ _ (by decide) hs (by decide)
        (by simp [sectionMarkers, hasPfx, str])
    · simp only [Option.getD_some] at hs hc
      have hshape : borderSideXml (str "left") ⟨some s, some c⟩ =
          ('<' :: (str "left style=\"" ++ (s ++ str "\">"))) ++
          (('<' :: (str "color rgb=\"" ++ (c ++ str "\"/>"))) ++
            str "</left>") := by
        simp [borderSideXml, str, List.append_assoc]
      rw [hshape]
      refine cleanAll_append _ _ ?_ ?_
      · exact cleanAll_attr_piece _ _ _ (by decide) hs (by decide)
          (by simp [sectionMarkers, hasPfx, str])
      · refine cleanAll_append _ _ ?_ ?_
        · exact cleanAll_attr_piece _ _ _ (by decide) hc (by decide)
            (by simp [sectionMarkers, hasPfx, str])
        · decide

theorem cleanAll_side_right (side : BorderSideSpec)
    (hs : (side.style.getD []).all (fun c => c ≠ '<') = true)
    (hc : (side.colorRgb.getD []).all (fun c => c ≠ '<') = true) :
    cleanAll (borderSideXml (str "right") side) = true := by
  rcases side with ⟨st, cl⟩
  rcases st with _ | s
  · rcases cl with _ | c
    · decide
    · have hshape : borderSideXml (str "right") ⟨none, some c⟩ =
          str "<right/>" := rfl
      rw [hshape]
      decide
  · rcases cl with _ | c
    · simp only [Option.getD_some] at hs
      have hshape : borderSideXml (str "right") ⟨some s, none⟩ =
          '<' :: (str "right style=\"" ++ (s ++ str "\"/>")) := by
        simp [borderSideXml, str, List.append_assoc]
      rw [hshape]
      exact cleanAll_attr_piece _ _ _ (by decide) hs (by decide)
        (by simp [sectionMarkers, hasPfx, str])
    · simp only [Option.getD_some] at hs hc
      have hshape : borderSideXml (str "right") ⟨some s, some c⟩ =
          ('<' :: (str "right style=\"" ++ (s ++ str "\">"))) ++
          (('<' :: (str "color rgb=\"" ++ (c ++ str "\"/>"))) ++
            str "</right>") := by
        simp [borderSideXml, str, List.append_assoc]
      rw [hshape]
      refine cleanAll_append _ _ ?_ ?_
      · exact cleanAll_attr_piece _ _ _ (by decide) hs (by decide)
          (by simp [sectionMarkers, hasPfx, str])
      · refine cleanAll_append _ _ ?_ ?_
        · exact cleanAll_attr_piece _ _ _ (by decide) hc (by decide)
            (by simp [sectionMarkers, hasPfx, str])
        · decide

theorem cleanAll_side_top (side : BorderSideSpec)
    (hs : (side.style.getD []).all (fun c => c ≠ '<') = true)
    (hc : (side.colorRgb.getD []).all (fun c => c ≠ '<') = true) :
    cleanAll (borderSideXml (str "top") side) = true := by
  rcases side with ⟨st, cl⟩
  rcases st with _ | s
  · rcases cl with _ | c
    · decide
    · have hshape : borderSideXml (str "top") ⟨none, some c⟩ =
          str "<top/>" := rfl
      rw [hshape]
      decide
  · rcases cl with _ | c
    · simp only [Option.getD_some] at hs
      have hshape : borderSideXml (str "top") ⟨some s, none⟩ =
          '<' :: (str "top style=\"" ++ (s ++ str "\"/>")) := by
        simp [borderSideXml, str, List.append_assoc]
      rw [hshape]
      exact cleanAll_attr_piece _ _ _ (by decide) hs (by decide)
        (by simp [sectionMarkers, hasPfx, str])
    · simp only [Option.getD_some] at hs hc
      have hshape : borderSideXml (str "top") ⟨some s, some c⟩ =
          ('<' :: (str "top style=\"" ++ (s ++ str "\">"))) ++
          (('<' :: (str "color rgb=\"" ++ (c ++ str "\"/>"))) ++
            str "</top>") := by
        simp [borderSideXml, str, List.append_assoc]
      rw [hshape]
      refine cleanAll_append _ _ ?_ ?_
      · exact cleanAll_attr_piece _ _ _ (by decide) hs (by decide)
          (by simp [sectionMarkers, hasPfx, str])
      · refine cleanAll_append _ _ ?_ ?_
        · exact cleanAll_attr_piece _ _ _ (by decide) hc (by decide)
            (by simp [sectionMarkers, hasPfx, str])
        · decide

theorem cleanAll_side_bottom (side : BorderSideSpec)
    (hs : (side.style.getD []).all (fun c => c ≠ '<') = true)
    (hc : (side.colorRgb.getD []).all (fun c => c ≠ '<') = true) :
    cleanAll (borderSideXml (str "bottom") side) = true := by
  rcases side with ⟨st, cl⟩
  rcases st with _ | s
  · rcases cl with _ | c
    · decide
    · have hshape : borderSideXml (str "bottom") ⟨none, some c⟩ =
          str "<bottom/>" := rfl
      rw [hshape]
      decide
  · rcases cl with _ | c
    · simp only [Option.getD_some] at hs
      have hshape : borderSideXml (str "bottom") ⟨some s, none⟩ =
          '<' :: (str "bottom style=\"" ++ (s ++ str "\"/>")) := by
        simp [borderSideXml, str, List.append_assoc]
      rw [hshape]
      exact cleanAll_attr_piece _ _ _ (by decide) hs (by decide)
        (by simp [sectionMarkers, hasPfx, str])
    · simp only [Option.getD_some] at hs hc
      have hshape : borderSideXml (str "bottom") ⟨some s, some c⟩ =
          ('<' :: (str "bottom style=\"" ++ (s ++ str "\">"))) ++
          (('<' :: (str "color rgb=\"" ++ (c ++ str "\"/>"))) ++
            str "</bottom>") := by
        simp [borderSideXml, str, List.append_assoc]
      rw [hshape]
      refine cleanAll_append _ _ ?_ ?_
      · exact cleanAll_attr_piece _ _ _ (by decide) hs (by decide)
          (by simp [sectionMarkers, hasPfx, str])
      · refine cleanAll_append _ _ ?_ ?_
        · exact cleanAll_attr_piece _ _ _ (by decide) hc (by decide)
            (by simp [sectionMarkers, hasPfx, str])
        · decide

theorem cleanAll_borderToXml (b : BorderSpec)
    (h1 : (b.left.style.getD []).all (fun c => c ≠ '<') = true)
    (h2 : (b.left.colorRgb.getD []).all (fun c => c ≠ '<') = true)
    (h3 : (b.right.style.getD []).all (fun c => c ≠ '<') = true)
    (h4 : (b.right.colorRgb.getD []).all (fun c => c ≠ '<') = true)
    (h5 : (b.top.style.getD []).all (fun c => c ≠ '<') = true)
    (h6 : (b.top.colorRgb.getD []).all (fun c => c ≠ '<') = true)
    (h7 : (b.bottom.style.getD []).all (fun c => c ≠ '<') = true)
    (h8 : (b.bottom.colorRgb.getD []).all (fun c => c ≠ '<') = true) :
    cleanAll (borderToXml b) = true := by
  rw [borderToXml]
  refine cleanAll_append _ _ ?_ ?_
  · refine cleanAll_append _ _ ?_ ?_
    · refine cleanAll_append _ _ ?_ ?_
      · refine cleanAll_append _ _ ?_ ?_
        · refine cleanAll_append _ _ ?_ ?_
          · decide
          · exact cleanAll_side_left b.left h1 h2
        · exact cleanAll_side_right b.right h3 h4
      · exact cleanAll_side_top b.top h5 h6
    · exact cleanAll_side_bottom b.bottom h7 h8
  · decide

theorem all_ite {p : Char → Bool} (b : Bool) (l : Str)
    (hl : l.all p = true) : ((if b = true then l else []) : Str).all p =
    true := by
  cases b
  · rfl
  · exact hl

theorem xf_attrs_no_lt (nid fid lid bid : Nat) (f1 f2 f3 f4 : Bool) :
    ((str "numFmtId=\"" ++ natDecimal nid ++ str "\" fontId=\"" ++
      natDecimal fid ++ str "\" fillId=\"" ++ natDecimal lid ++
      str "\" borderId=\"" ++ natDecimal bid ++ str "\"" ++
      (if f1 = true then str " applyFont=\"1\"" else []) ++
      (if f2 = true then str " applyFill=\"1\"" else []) ++
      (if f3 = true then str " applyBorder=\"1\"" else []) ++
      (if f4 = true then str " applyNumberFormat=\"1\"" else [])) :
      Str).all (fun c => c ≠ '<') = true := by
  simp only [List.all_append, Bool.and_eq_true]
  have hd : ∀ m : Nat, (natDecimal m).all (fun c => c ≠ '<') = true :=
    fun m => natDecimal_all_ne m '<' (by right; decide)
  exact ⟨⟨⟨⟨⟨⟨⟨⟨⟨⟨⟨⟨by decide, hd nid⟩, by decide⟩, hd fid⟩, by decide⟩,
    hd lid⟩, by decide⟩, hd bid⟩, by decide⟩,
    all_ite f1 _ (by decide)⟩, all_ite f2 _ (by decide)⟩,
    all_ite f3 _ (by decide)⟩, all_ite f4 _ (by decide)⟩

theorem joinSpace_all {p : Char → Bool} (hsp : p ' ' = true) :
    ∀ xs : List Str, (∀ x ∈ xs, x.all p = true) →
      (joinSpace xs).all p = true := by
  intro xs
  induction xs with
  | nil => intro _; rfl
  | cons x t ih =>
    intro h
    match t with
    | [] => exact h x (List.mem_cons_self _ _)
    | y :: ys =>
      have hstep : joinSpace (x :: y :: ys) =
          x ++ str " " ++ joinSpace (y :: ys) := rfl
      rw [hstep]
      simp only [List.all_append, Bool.and_eq_true]
      refine ⟨⟨h x (List.mem_cons_self _ _), by simpa [str] using hsp⟩, ?_⟩
      exact ih fun z hz => h z (List.mem_cons_of_mem _ hz)

theorem alignParts_all (a : AlignmentSpec)
    (hh : (a.horizontal.getD []).all (fun c => c ≠ '<') = true)
    (hv : (a.vertical.getD []).all (fun c => c ≠ '<') = true) :
    ∀ x ∈ ((match a.horizontal with
       | some h => [str "horizontal=\"" ++ h ++ str "\""]
       | none => []) ++
      (match a.vertical with
       | some v => [str "vertical=\"" ++ v ++ str "\""]
       | none => []) ++
      (if a.wrapText = true then [str "wrapText=\"1\""] else []) ++
      (if 0 < a.indent then
        [str "indent=\"" ++ natDecimal a.indent ++ str "\""] else []) ++
      (if 0 < a.textRotation then
        [str "textRotation=\"" ++ natDecimal a.textRotation ++ str "\""]
       else []) : List Str),
      x.all (fun c => c ≠ '<') = true := by
  have hd : ∀ m : Nat, (natDecimal m).all (fun c => c ≠ '<') = true :=
    fun m => natDecimal_all_ne m '<' (by right; decide)
  intro x hx
  simp only [List.mem_append] at hx
  rcases hx with ((((hx | hx) | hx) | hx) | hx)
  · match ha : a.horizontal with
    | none => rw [ha] at hx; simp at hx
    | some h =>
      rw [ha] at hx hh
      simp only [List.mem_singleton] at hx
      subst hx
      simp only [List.all_append, Bool.and_eq_true]
      exact ⟨⟨by decide, by simpa using hh⟩, by decide⟩
  · match ha : a.vertical with
    | none => rw [ha] at hx; simp at hx
    | some v =>
      rw [ha] at hx hv
      simp only [List.mem_singleton] at hx
      subst hx
      simp only [List.all_append, Bool.and_eq_true]
      exact ⟨⟨by decide, by simpa using hv⟩, by decide⟩
  · rcases hw : a.wrapText
    · rw [hw] at hx; simp at hx
    · rw [hw] at hx
      simp at hx
      subst hx
      decide
  · by_cases hi : 0 < a.indent
    · rw [if_pos hi] at hx
      simp only [List.mem_singleton] at hx
      subst hx
      simp only [List.all_append, Bool.and_eq_true]
      exact ⟨⟨by decide, hd _⟩, by decide⟩
    · rw [if_neg hi] at hx
      simp at hx
  · by_cases hr : 0 < a.textRotation
    · rw [if_pos hr] at hx
      simp only [List.mem_singleton] at hx
      subst hx
      simp only [List.all_append, Bool.and_eq_true]
      exact ⟨⟨by decide, hd _⟩, by decide⟩
    · rw [if_neg hr] at hx
      simp at hx

theorem cleanAll_xf_core (attrs : Str) (parts : List Str)
    (hattrs : attrs.all (fun c => c ≠ '<') = true)
    (hjoin : (joinSpace parts).all (fun c => c ≠ '<') = true) :
    cleanAll (if parts ≠ [] then
      str "<xf " ++ attrs ++ str " applyAlignment=\"1\"><alignment " ++
        joinSpace parts ++ str "/></xf>"
    else str "<xf " ++ attrs ++ str "/>") = true := by
  split
  · have hshape : str "<xf " ++ attrs ++
        str " applyAlignment=\"1\"><alignment " ++ joinSpace parts ++
        str "/></xf>" =
        ('<' :: (str "xf " ++
          (attrs ++ str " applyAlignment=\"1\">"))) ++
        (('<' :: (str "alignment " ++ (joinSpace parts ++ str "/>"))) ++
          str "</xf>") := by
      simp [str, List.append_assoc]
    rw [hshape]
    refine cleanAll_append _ _ ?_ ?_
    · exact cleanAll_attr_piece _ _ _ (by decide) hattrs (by decide)
        (by simp [sectionMarkers, hasPfx, str])
    · refine cleanAll_append _ _ ?_ ?_
      · exact cleanAll_attr_piece _ _ _ (by decide) hjoin (by decide)
          (by simp [sectionMarkers, hasPfx, str])
      · decide
  · have hshape : str "<xf " ++ attrs ++ str "/>" =
        '<' :: (str "xf " ++ (attrs ++ str "/>")) := by
      simp [str, List.append_assoc]
    rw [hshape]
    exact cleanAll_attr_piece _ _ _ (by decide) hattrs (by decide)
      (by simp [sectionMarkers, hasPfx, str])

theorem cleanAll_xfToXml (fid lid bid nid : Nat)
    (al : Option AlignmentSpec) (f1 f2 f3 f4 : Bool)
    (hal : ∀ a, al = some a →
      (a.horizontal.getD []).all (fun c => c ≠ '<') = true ∧
      (a.vertical.getD []).all (fun c => c ≠ '<') = true) :
    cleanAll (xfToXml fid lid bid nid al f1 f2 f3 f4) = true := by
  have hattrs := xf_attrs_no_lt nid fid lid bid f1 f2 f3 f4
  match al with
  | none =>
    have hshape : xfToXml fid lid bid nid none f1 f2 f3 f4 =
        '<' :: (str "xf " ++
          ((str "numFmtId=\"" ++ natDecimal nid ++ str "\" fontId=\"" ++
            natDecimal fid ++ str "\" fillId=\"" ++ natDecimal lid ++
            str "\" borderId=\"" ++ natDecimal bid ++ str "\"" ++
            (if f1 = true then str " applyFont=\"1\"" else []) ++
            (if f2 = true then str " applyFill=\"1\"" else []) ++
            (if f3 = true then str " applyBorder=\"1\"" else []) ++
            (if f4 = true then str " applyNumberFormat=\"1\"" else [])) ++
           str "/>")) := by
      simp [xfToXml, str, List.append_assoc]
    rw [hshape]
    refine cleanAll_attr_piece _ _ _ (by decide) hattrs (by decide) ?_
    simp [sectionMarkers, hasPfx, str]
  | some a =>
    obtain ⟨hh, hv⟩ := hal a rfl
    have hjoin : (joinSpace
        ((match a.horizontal with
          | some h => [str "horizontal=\"" ++ h ++ str "\""]
          | none => []) ++
         (match a.vertical with
          | some v => [str "vertical=\"" ++ v ++ str "\""]
          | none => []) ++
         (if a.wrapText = true then [str "wrapText=\"1\""] else []) ++
         (if 0 < a.indent then
           [str "indent=\"" ++ natDecimal a.indent ++ str "\""] else []) ++
         (if 0 < a.textRotation then
           [str "textRotation=\"" ++ natDecimal a.textRotation ++
             str "\""] else []))).all (fun c => c ≠ '<') = true :=
      joinSpace_all (by decide) _ (alignParts_all a hh hv)
    rw [xfToXml]
    exact cleanAll_xf_core _ _ hattrs hjoin

/-- The `<numFmt .../>` element created by `find_or_create_num_fmt`. -/
def numFmtElem (id : Nat) (code : Str) : Str :=
  str "<numFmt numFmtId=\"" ++ natDecimal id ++ str "\" formatCode=\"" ++
    xmlEscape code ++ str "\"/>"

theorem cleanAll_numFmtElem (id : Nat) (code : Str) :
    cleanAll (numFmtElem id code) = true := by
  have hshape : numFmtElem id code =
      '<' :: (str "numFmt numFmtId=\"" ++
        (natDecimal id ++ (str "\" formatCode=\"" ++
          (xmlEscape code ++ str "\"/>")))) := by
    simp [numFmtElem, str, List.append_assoc]
  rw [hshape]
  apply cleanAll_head_lt
  · simp only [List.all_append, Bool.and_eq_true]
    exact ⟨by decide, natDecimal_all_ne id '<' (by right; decide),
      by decide, xmlEscape_no_lt code, by decide⟩
  · simp [sectionMarkers, hasPfx, str]

theorem cleanFor_marker_openTag (mk sec : Str) (n : Nat)
    (hmk : ∃ t, mk = '<' :: t)
    (hsec : sec.all (fun c => c ≠ '<') = true)
    (h1 : hasPfx mk ('<' :: (sec ++ (str " count=\"" ++
      (natDecimal n ++ str "\">")))) = false)
    (h2 : hasPfx ('<' :: (sec ++ (str " count=\"" ++
      (natDecimal n ++ str "\">")))) mk = false) :
    cleanFor mk (openTagOf sec n) = true := by
  have hshape : openTagOf sec n =
      '<' :: (sec ++ (str " count=\"" ++ (natDecimal n ++ str "\">"))) := by
    simp [openTagOf, str, List.append_assoc]
  rw [hshape]
  refine cleanFor_head_lt mk _ hmk ?_ h1 h2
  simp only [List.all_append, Bool.and_eq_true]
  exact ⟨hsec, by decide, natDecimal_all_ne n '<' (by right; decide),
    by decide⟩

/-- A styles document in the canonical section layout of `styles.xml`:
free text, then the `numFmts`, `fonts`, `fills`, `borders` and `cellXfs`
sections, each an opening tag with a `count` attribute, a body, and a
closing tag.  The claims quantifying over "every styles XML" are settled
over this shape with the free-text pieces clean for the section markers. -/
structure StylesDoc where
  pre0 : Str
  nN : Nat
  numBody : Str
  mid0 : Str
  nF : Nat
  fontsBody : Str
  mid1 : Str
  nL : Nat
  fillsBody : Str
  mid2 : Str
  nB : Nat
  bordersBody : Str
  mid3 : Str
  nX : Nat
  xfsBody : Str
  post : Str

/-- The text of a `StylesDoc`. -/
def renderDoc (d : StylesDoc) : Str :=
  d.pre0 ++ openTagOf (str "numFmts") d.nN ++ d.numBody ++
    closeTagOf (str "numFmts") ++
  d.mid0 ++ openTagOf (str "fonts") d.nF ++ d.fontsBody ++
    closeTagOf (str "fonts") ++
  d.mid1 ++ openTagOf (str "fills") d.nL ++ d.fillsBody ++
    closeTagOf (str "fills") ++
  d.mid2 ++ openTagOf (str "borders") d.nB ++ d.bordersBody ++
    closeTagOf (str "borders") ++
  d.mid3 ++ openTagOf (str "cellXfs") d.nX ++ d.xfsBody ++
    closeTagOf (str "cellXfs") ++
  d.post

/-- Well-formedness of a `StylesDoc` with count headroom `s`: counts fit
in `u32` with room for `s` more injections per section, and every
free-text piece before the last closing tag is clean for the markers. -/
def wfDoc (s : Nat) (d : StylesDoc) : Prop :=
  d.nN + s < 2 ^ 32 ∧ d.nF + s < 2 ^ 32 ∧ d.nL + s < 2 ^ 32 ∧
  d.nB + s < 2 ^ 32 ∧ d.nX + s < 2 ^ 32 ∧
  cleanAll d.pre0 = true ∧ cleanAll d.numBody = true ∧
  cleanAll d.mid0 = true ∧ cleanAll d.fontsBody = true ∧
  cleanAll d.mid1 = true ∧ cleanAll d.fillsBody = true ∧
  cleanAll d.mid2 = true ∧ cleanAll d.bordersBody = true ∧
  cleanAll d.mid3 = true ∧ cleanAll d.xfsBody = true

theorem inject_numFmts_render (d : StylesDoc) (e : Str)
    (hn : d.nN < 2 ^ 32)
    (hp0 : cleanAll d.pre0 = true)
    (hnb : cleanAll d.numBody = true) :
    injectIntoSection (renderDoc d) (str "numFmts") e =
      (renderDoc { d with nN := d.nN + 1, numBody := d.numBody ++ e },
       d.nN) := by
  have hshape : renderDoc d =
      (d.pre0) ++
      openTagOf (str "numFmts") d.nN ++ d.numBody ++
      closeTagOf (str "numFmts") ++
      (d.mid0 ++ (openTagOf (str "fonts") d.nF ++ (d.fontsBody ++ (closeTagOf (str "fonts") ++ (d.mid1 ++ (openTagOf (str "fills") d.nL ++ (d.fillsBody ++ (closeTagOf (str "fills") ++ (d.mid2 ++ (openTagOf (str "borders") d.nB ++ (d.bordersBody ++ (closeTagOf (str "borders") ++ (d.mid3 ++ (openTagOf (str "cellXfs") d.nX ++ (d.xfsBody ++ (closeTagOf (str "cellXfs") ++ (d.post))))))))))))))))) := by
    simp [renderDoc, List.append_assoc]
  rw [hshape]
  rw [inject_characterize (str "numFmts")
    (d.pre0)
    d.numBody
    (d.mid0 ++ (openTagOf (str "fonts") d.nF ++ (d.fontsBody ++ (closeTagOf (str "fonts") ++ (d.mid1 ++ (openTagOf (str "fills") d.nL ++ (d.fillsBody ++ (closeTagOf (str "fills") ++ (d.mid2 ++ (openTagOf (str "borders") d.nB ++ (d.bordersBody ++ (closeTagOf (str "borders") ++ (d.mid3 ++ (openTagOf (str "cellXfs") d.nX ++ (d.xfsBody ++ (closeTagOf (str "cellXfs") ++ (d.post)))))))))))))))))
    e d.nN hn (by decide)
    (cleanFor_of_cleanAll (closeTagOf (str "numFmts")) d.pre0 (by decide) hp0)
    (cleanFor_of_cleanAll (str "<" ++ str "numFmts") d.pre0 (by decide) hp0)
    (cleanFor_of_cleanAll (closeTagOf (str "numFmts")) d.numBody (by decide) hnb)
    (cleanFor_close_open (str "numFmts") d.nN '/'
      (str "numFmts" ++ str ">") (by decide) ⟨'n', str "umFmts", by decide⟩)
    (by decide)]
  simp [renderDoc, List.append_assoc]

theorem inject_fonts_render (d : StylesDoc) (e : Str)
    (hn : d.nF < 2 ^ 32)
    (hp0 : cleanAll d.pre0 = true)
    (hnb : cleanAll d.numBody = true)
    (hm0 : cleanAll d.mid0 = true)
    (hfb : cleanAll d.fontsBody = true) :
    injectIntoSection (renderDoc d) (str "fonts") e =
      (renderDoc { d with nF := d.nF + 1, fontsBody := d.fontsBody ++ e },
       d.nF) := by
  have hshape : renderDoc d =
      (d.pre0 ++ (openTagOf (str "numFmts") d.nN ++ (d.numBody ++ (closeTagOf (str "numFmts") ++ (d.mid0))))) ++
      openTagOf (str "fonts") d.nF ++ d.fontsBody ++
      closeTagOf (str "fonts") ++
      (d.mid1 ++ (openTagOf (str "fills") d.nL ++ (d.fillsBody ++ (closeTagOf (str "fills") ++ (d.mid2 ++ (openTagOf (str "borders") d.nB ++ (d.bordersBody ++ (closeTagOf (str "borders") ++ (d.mid3 ++ (openTagOf (str "cellXfs") d.nX ++ (d.xfsBody ++ (closeTagOf (str "cellXfs") ++ (d.post))))))))))))) := by
    simp [renderDoc, List.append_assoc]
  rw [hshape]
  rw [inject_characterize (str "fonts")
    (d.pre0 ++ (openTagOf (str "numFmts") d.nN ++ (d.numBody ++ (closeTagOf (str "numFmts") ++ (d.mid0)))))
    d.fontsBody
    (d.mid1 ++ (openTagOf (str "fills") d.nL ++ (d.fillsBody ++ (closeTagOf (str "fills") ++ (d.mid2 ++ (openTagOf (str "borders") d.nB ++ (d.bordersBody ++ (closeTagOf (str "borders") ++ (d.mid3 ++ (openTagOf (str "cellXfs") d.nX ++ (d.xfsBody ++ (closeTagOf (str "cellXfs") ++ (d.post)))))))))))))
    e d.nF hn (by decide)
    (cleanFor_append (closeTagOf (str "fonts")) d.pre0 _ (cleanFor_of_cleanAll (closeTagOf (str "fonts")) d.pre0 (by decide) hp0)
      (cleanFor_append (closeTagOf (str "fonts")) (openTagOf (str "numFmts") d.nN) _ (cleanFor_marker_openTag (closeTagOf (str "fonts")) (str "numFmts") d.nN ⟨str "/fonts>", by decide⟩ (by decide)
      (by simp [closeTagOf, hasPfx, str]) (by simp [closeTagOf, hasPfx, str]))
      (cleanFor_append (closeTagOf (str "fonts")) d.numBody _ (cleanFor_of_cleanAll (closeTagOf (str "fonts")) d.numBody (by decide) hnb)
      (cleanFor_append (closeTagOf (str "fonts")) (closeTagOf (str "numFmts")) _ (by decide)
      (cleanFor_of_cleanAll (closeTagOf (str "fonts")) d.mid0 (by decide) hm0)))))
    (cleanFor_append (str "<" ++ str "fonts") d.pre0 _ (cleanFor_of_cleanAll (str "<" ++ str "fonts") d.pre0 (by decide) hp0)
      (cleanFor_append (str "<" ++ str "fonts") (openTagOf (str "numFmts") d.nN) _ (cleanFor_marker_openTag (str "<" ++ str "fonts") (str "numFmts") d.nN ⟨str "fonts", by decide⟩ (by decide)
      (by simp [closeTagOf, hasPfx, str]) (by simp [closeTagOf, hasPfx, str]))
      (cleanFor_append (str "<" ++ str "fonts") d.numBody _ (cleanFor_of_cleanAll (str "<" ++ str "fonts") d.numBody (by decide) hnb)
      (cleanFor_append (str "<" ++ str "fonts") (closeTagOf (str "numFmts")) _ (by decide)
      (cleanFor_of_cleanAll (str "<" ++ str "fonts") d.mid0 (by decide) hm0)))))
    (cleanFor_of_cleanAll (closeTagOf (str "fonts")) d.fontsBody (by decide) hfb)
    (cleanFor_close_open (str "fonts") d.nF '/'
      (str "fonts" ++ str ">") (by decide) ⟨'f', str "onts", by decide⟩)
    (by decide)]
  simp [renderDoc, List.append_assoc]

theorem inject_fills_render (d : StylesDoc) (e : Str)
    (hn : d.nL < 2 ^ 32)
    (hp0 : cleanAll d.pre0 = true)
    (hnb : cleanAll d.numBody = true)
    (hm0 : cleanAll d.mid0 = true)
    (hfb : cleanAll d.fontsBody = true)
    (hm1 : cleanAll d.mid1 = true)
    (hlb : cleanAll d.fillsBody = true) :
    injectIntoSection (renderDoc d) (str "fills") e =
      (renderDoc { d with nL := d.nL + 1, fillsBody := d.fillsBody ++ e },
       d.nL) := by
  have hshape : renderDoc d =
      (d.pre0 ++ (openTagOf (str "numFmts") d.nN ++ (d.numBody ++ (closeTagOf (str "numFmts") ++ (d.mid0 ++ (openTagOf (str "fonts") d.nF ++ (d.fontsBody ++ (closeTagOf (str "fonts") ++ (d.mid1))))))))) ++
      openTagOf (str "fills") d.nL ++ d.fillsBody ++
      closeTagOf (str "fills") ++
      (d.mid2 ++ (openTagOf (str "borders") d.nB ++ (d.bordersBody ++ (closeTagOf (str "borders") ++ (d.mid3 ++ (openTagOf (str "cellXfs") d.nX ++ (d.xfsBody ++ (closeTagOf (str "cellXfs") ++ (d.post))))))))) := by
    simp [renderDoc, List.append_assoc]
  rw [hshape]
  rw [inject_characterize (str "fills")
    (d.pre0 ++ (openTagOf (str "numFmts") d.nN ++ (d.numBody ++ (closeTagOf (str "numFmts") ++ (d.mid0 ++ (openTagOf (str "fonts") d.nF ++ (d.fontsBody ++ (closeTagOf (str "fonts") ++ (d.mid1)))))))))
    d.fillsBody
    (d.mid2 ++ (openTagOf (str "borders") d.nB ++ (d.bordersBody ++ (closeTagOf (str "borders") ++ (d.mid3 ++ (openTagOf (str "cellXfs") d.nX ++ (d.xfsBody ++ (closeTagOf (str "cellXfs") ++ (d.post)))))))))
    e d.nL hn (by decide)
    (cleanFor_append (closeTagOf (str "fills")) d.pre0 _ (cleanFor_of_cleanAll (closeTagOf (str "fills")) d.pre0 (by decide) hp0)
      (cleanFor_append (closeTagOf (str "fills")) (openTagOf (str "numFmts") d.nN) _ (cleanFor_marker_openTag (closeTagOf (str "fills")) (str "numFmts") d.nN ⟨str "/fills>", by decide⟩ (by decide)
      (by simp [closeTagOf, hasPfx, str]) (by simp [closeTagOf, hasPfx, str]))
      (cleanFor_append (closeTagOf (str "fills")) d.numBody _ (cleanFor_of_cleanAll (closeTagOf (str "fills")) d.numBody (by decide) hnb)
      (cleanFor_append (closeTagOf (str "fills")) (closeTagOf (str "numFmts")) _ (by decide)
      (cleanFor_append (closeTagOf (str "fills")) d.mid0 _ (cleanFor_of_cleanAll (closeTagOf (str "fills")) d.mid0 (by decide) hm0)
      (cleanFor_append (closeTagOf (str "fills")) (openTagOf (str "fonts") d.nF) _ (cleanFor_marker_openTag (closeTagOf (str "fills")) (str "fonts") d.nF ⟨str "/fills>", by decide⟩ (by decide)
      (by simp [closeTagOf, hasPfx, str]) (by simp [closeTagOf, hasPfx, str]))
      (cleanFor_append (closeTagOf (str "fills")) d.fontsBody _ (cleanFor_of_cleanAll (closeTagOf (str "fills")) d.fontsBody (by decide) hfb)
      (cleanFor_append (closeTagOf (str "fills")) (closeTagOf (str "fonts")) _ (by decide)
      (cleanFor_of_cleanAll (closeTagOf (str "fills")) d.mid1 (by decide) hm1)))))))))
    (cleanFor_append (str "<" ++ str "fills") d.pre0 _ (cleanFor_of_cleanAll (str "<" ++ str "fills") d.pre0 (by decide) hp0)
      (cleanFor_append (str "<" ++ str "fills") (openTagOf (str "numFmts") d.nN) _ (cleanFor_marker_openTag (str "<" ++ str "fills") (str "numFmts") d.nN ⟨str "fills", by decide⟩ (by decide)
      (by simp [closeTagOf, hasPfx, str]) (by simp [closeTagOf, hasPfx, str]))
      (cleanFor_append (str "<" ++ str "fills") d.numBody _ (cleanFor_of_cleanAll (str "<" ++ str "fills") d.numBody (by decide) hnb)
      (cleanFor_append (str "<" ++ str "fills") (closeTagOf (str "numFmts")) _ (by decide)
      (cleanFor_append (str "<" ++ str "fills") d.mid0 _ (cleanFor_of_cleanAll (str "<" ++ str "fills") d.mid0 (by decide) hm0)
      (cleanFor_append (str "<" ++ str "fills") (openTagOf (str "fonts") d.nF) _ (cleanFor_marker_openTag (str "<" ++ str "fills") (str "fonts") d.nF ⟨str "fills", by decide⟩ (by decide)
      (by simp [closeTagOf, hasPfx, str]) (by simp [closeTagOf, hasPfx, str]))
      (cleanFor_append (str "<" ++ str "fills") d.fontsBody _ (cleanFor_of_cleanAll (str "<" ++ str "fills") d.fontsBody (by decide) hfb)
      (cleanFor_append (str "<" ++ str "fills") (closeTagOf (str "fonts")) _ (by decide)
      (cleanFor_of_cleanAll (str "<" ++ str "fills") d.mid1 (by decide) hm1)))))))))
    (cleanFor_of_cleanAll (closeTagOf (str "fills")) d.fillsBody (by decide) hlb)
    (cleanFor_close_open (str "fills") d.nL '/'
      (str "fills" ++ str ">") (by decide) ⟨'f', str "ills", by decide⟩)
    (by decide)]
  simp [renderDoc, List.append_assoc]

theorem inject_borders_render (d : StylesDoc) (e : Str)
    (hn : d.nB < 2 ^ 32)
    (hp0 : cleanAll d.pre0 = true)
    (hnb : cleanAll d.numBody = true)
    (hm0 : cleanAll d.mid0 = true)
    (hfb : cleanAll d.fontsBody = true)
    (hm1 : cleanAll d.mid1 = true)
    (hlb : cleanAll d.fillsBody = true)
    (hm2 : cleanAll d.mid2 = true)
    (hbb : cleanAll d.bordersBody = true) :
    injectIntoSection (renderDoc d) (str "borders") e =
      (renderDoc { d with nB := d.nB + 1, bordersBody := d.bordersBody ++ e },
       d.nB) := by
  have hshape : renderDoc d =
      (d.pre0 ++ (openTagOf (str "numFmts") d.nN ++ (d.numBody ++ (closeTagOf (str "numFmts") ++ (d.mid0 ++ (openTagOf (str "fonts") d.nF ++ (d.fontsBody ++ (closeTagOf (str "fonts") ++ (d.mid1 ++ (openTagOf (str "fills") d.nL ++ (d.fillsBody ++ (closeTagOf (str "fills") ++ (d.mid2))))))))))))) ++
      openTagOf (str "borders") d.nB ++ d.bordersBody ++
      closeTagOf (str "borders") ++
      (d.mid3 ++ (openTagOf (str "cellXfs") d.nX ++ (d.xfsBody ++ (closeTagOf (str "cellXfs") ++ (d.post))))) := by
    simp [renderDoc, List.append_assoc]
  rw [hshape]
  rw [inject_characterize (str "borders")
    (d.pre0 ++ (openTagOf (str "numFmts") d.nN ++ (d.numBody ++ (closeTagOf (str "numFmts") ++ (d.mid0 ++ (openTagOf (str "fonts") d.nF ++ (d.fontsBody ++ (closeTagOf (str "fonts") ++ (d.mid1 ++ (openTagOf (str "fills") d.nL ++ (d.fillsBody ++ (closeTagOf (str "fills") ++ (d.mid2)))))))))))))
    d.bordersBody
    (d.mid3 ++ (openTagOf (str "cellXfs") d.nX ++ (d.xfsBody ++ (closeTagOf (str "cellXfs") ++ (d.post)))))
    e d.nB hn (by decide)
    (cleanFor_append (closeTagOf (str "borders")) d.pre0 _ (cleanFor_of_cleanAll (closeTagOf (str "borders")) d.pre0 (by decide) hp0)
      (cleanFor_append (closeTagOf (str "borders")) (openTagOf (str "numFmts") d.nN) _ (cleanFor_marker_openTag (closeTagOf (str "borders")) (str "numFmts") d.nN ⟨str "/borders>", by decide⟩ (by decide)
      (by simp [closeTagOf, hasPfx, str]) (by simp [closeTagOf, hasPfx, str]))
      (cleanFor_append (closeTagOf (str "borders")) d.numBody _ (cleanFor_of_cleanAll (closeTagOf (str "borders")) d.numBody (by decide) hnb)
      (cleanFor_append (closeTagOf (str "borders")) (closeTagOf (str "numFmts")) _ (by decide)
      (cleanFor_append (closeTagOf (str "borders")) d.mid0 _ (cleanFor_of_cleanAll (closeTagOf (str "borders")) d.mid0 (by decide) hm0)
      (cleanFor_append (closeTagOf (str "borders")) (openTagOf (str "fonts") d.nF) _ (cleanFor_marker_openTag (closeTagOf (str "borders")) (str "fonts") d.nF ⟨str "/borders>", by decide⟩ (by decide)
      (by simp [closeTagOf, hasPfx, str]) (by simp [closeTagOf, hasPfx, str]))
      (cleanFor_append (closeTagOf (str "borders")) d.fontsBody _ (cleanFor_of_cleanAll (closeTagOf (str "borders")) d.fontsBody (by decide) hfb)
      (cleanFor_append (closeTagOf (str "borders")) (closeTagOf (str "fonts")) _ (by decide)
      (cleanFor_append (closeTagOf (str "borders")) d.mid1 _ (cleanFor_of_cleanAll (closeTagOf (str "borders")) d.mid1 (by decide) hm1)
      (cleanFor_append (closeTagOf (str "borders")) (openTagOf (str "fills") d.nL) _ (cleanFor_marker_openTag (closeTagOf (str "borders")) (str "fills") d.nL ⟨str "/borders>", by decide⟩ (by decide)
      (by simp [closeTagOf, hasPfx, str]) (by simp [closeTagOf, hasPfx, str]))
      (cleanFor_append (closeTagOf (str "borders")) d.fillsBody _ (cleanFor_of_cleanAll (closeTagOf (str "borders")) d.fillsBody (by decide) hlb)
      (cleanFor_append (closeTagOf (str "borders")) (closeTagOf (str "fills")) _ (by decide)
      (cleanFor_of_cleanAll (closeTagOf (str "borders")) d.mid2 (by decide) hm2)))))))))))))
    (cleanFor_append (str "<" ++ str "borders") d.pre0 _ (cleanFor_of_cleanAll (str "<" ++ str "borders") d.pre0 (by decide) hp0)
      (cleanFor_append (str "<" ++ str "borders") (openTagOf (str "numFmts") d.nN) _ (cleanFor_marker_openTag (str "<" ++ str "borders") (str "numFmts") d.nN ⟨str "borders", by decide⟩ (by decide)
      (by simp [closeTagOf, hasPfx, str]) (by simp [closeTagOf, hasPfx, str]))
      (cleanFor_append (str "<" ++ str "borders") d.numBody _ (cleanFor_of_cleanAll (str "<" ++ str "borders") d.numBody (by decide) hnb)
      (cleanFor_append (str "<" ++ str "borders") (closeTagOf (str "numFmts")) _ (by decide)
      (cleanFor_append (str "<" ++ str "borders") d.mid0 _ (cleanFor_of_cleanAll (str "<" ++ str "borders") d.mid0 (by decide) hm0)
      (cleanFor_append (str "<" ++ str "borders") (openTagOf (str "fonts") d.nF) _ (cleanFor_marker_openTag (str "<" ++ str "borders") (str "fonts") d.nF ⟨str "borders", by decide⟩ (by decide)
      (by simp [closeTagOf, hasPfx, str]) (by simp [closeTagOf, hasPfx, str]))
      (cleanFor_append (str "<" ++ str "borders") d.fontsBody _ (cleanFor_of_cleanAll (str "<" ++ str "borders") d.fontsBody (by decide) hfb)
      (cleanFor_append (str "<" ++ str "borders") (closeTagOf (str "fonts")) _ (by decide)
      (cleanFor_append (str "<" ++ str "borders") d.mid1 _ (cleanFor_of_cleanAll (str "<" ++ str "borders") d.mid1 (by decide) hm1)
      (cleanFor_append (str "<" ++ str "borders") (openTagOf (str "fills") d.nL) _ (cleanFor_marker_openTag (str "<" ++ str "borders") (str "fills") d.nL ⟨str "borders", by decide⟩ (by decide)
      (by simp [closeTagOf, hasPfx, str]) (by simp [closeTagOf, hasPfx, str]))
      (cleanFor_append (str "<" ++ str "borders") d.fillsBody _ (cleanFor_of_cleanAll (str "<" ++ str "borders") d.fillsBody (by decide) hlb)
      (cleanFor_append (str "<" ++ str "borders") (closeTagOf (str "fills")) _ (by decide)
      (cleanFor_of_cleanAll (str "<" ++ str "borders") d.mid2 (by decide) hm2)))))))))))))
    (cleanFor_of_cleanAll (closeTagOf (str "borders")) d.bordersBody (by decide) hbb)
    (cleanFor_close_open (str "borders") d.nB '/'
      (str "borders" ++ str ">") (by decide) ⟨'b', str "orders", by decide⟩)
    (by decide)]
  simp [renderDoc, List.append_assoc]

theorem inject_cellXfs_render (d : StylesDoc) (e : Str)
    (hn : d.nX < 2 ^ 32)
    (hp0 : cleanAll d.pre0 = true)
    (hnb : cleanAll d.numBody = true)
    (hm0 : cleanAll d.mid0 = true)
    (hfb : cleanAll d.fontsBody = true)
    (hm1 : cleanAll d.mid1 = true)
    (hlb : cleanAll d.fillsBody = true)
    (hm2 : cleanAll d.mid2 = true)
    (hbb : cleanAll d.bordersBody = true)
    (hm3 : cleanAll d.mid3 = true)
    (hxb : cleanAll d.xfsBody = true) :
    injectIntoSection (renderDoc d) (str "cellXfs") e =
      (renderDoc { d with nX := d.nX + 1, xfsBody := d.xfsBody ++ e },
       d.nX) := by
  have hshape : renderDoc d =
      (d.pre0 ++ (openTagOf (str "numFmts") d.nN ++ (d.numBody ++ (closeTagOf (str "numFmts") ++ (d.mid0 ++ (openTagOf (str "fonts") d.nF ++ (d.fontsBody ++ (closeTagOf (str "fonts") ++ (d.mid1 ++ (openTagOf (str "fills") d.nL ++ (d.fillsBody ++ (closeTagOf (str "fills") ++ (d.mid2 ++ (openTagOf (str "borders") d.nB ++ (d.bordersBody ++ (closeTagOf (str "borders") ++ (d.mid3))))))))))))))))) ++
      openTagOf (str "cellXfs") d.nX ++ d.xfsBody ++
      closeTagOf (str "cellXfs") ++
      (d.post) := by
    simp [renderDoc, List.append_assoc]
  rw [hshape]
  rw [inject_characterize (str "cellXfs")
    (d.pre0 ++ (openTagOf (str "numFmts") d.nN ++ (d.numBody ++ (closeTagOf (str "numFmts") ++ (d.mid0 ++ (openTagOf (str "fonts") d.nF ++ (d.fontsBody ++ (closeTagOf (str "fonts") ++ (d.mid1 ++ (openTagOf (str "fills") d.nL ++ (d.fillsBody ++ (closeTagOf (str "fills") ++ (d.mid2 ++ (openTagOf (str "borders") d.nB ++ (d.bordersBody ++ (closeTagOf (str "borders") ++ (d.mid3)))))))))))))))))
    d.xfsBody
    (d.post)
    e d.nX hn (by decide)
    (cleanFor_append (closeTagOf (str "cellXfs")) d.pre0 _ (cleanFor_of_cleanAll (closeTagOf (str "cellXfs")) d.pre0 (by decide) hp0)
      (cleanFor_append (closeTagOf (str "cellXfs")) (openTagOf (str "numFmts") d.nN) _ (cleanFor_marker_openTag (closeTagOf (str "cellXfs")) (str "numFmts") d.nN ⟨str "/cellXfs>", by decide⟩ (by decide)
      (by simp [closeTagOf, hasPfx, str]) (by simp [closeTagOf, hasPfx, str]))
      (cleanFor_append (closeTagOf (str "cellXfs")) d.numBody _ (cleanFor_of_cleanAll (closeTagOf (str "cellXfs")) d.numBody (by decide) hnb)
      (cleanFor_append (closeTagOf (str "cellXfs")) (closeTagOf (str "numFmts")) _ (by decide)
      (cleanFor_append (closeTagOf (str "cellXfs")) d.mid0 _ (cleanFor_of_cleanAll (closeTagOf (str "cellXfs")) d.mid0 (by decide) hm0)
      (cleanFor_append (closeTagOf (str "cellXfs")) (openTagOf (str "fonts") d.nF) _ (cleanFor_marker_openTag (closeTagOf (str "cellXfs")) (str "fonts") d.nF ⟨str "/cellXfs>", by decide⟩ (by decide)
      (by simp [closeTagOf, hasPfx, str]) (by simp [closeTagOf, hasPfx, str]))
      (cleanFor_append (closeTagOf (str "cellXfs")) d.fontsBody _ (cleanFor_of_cleanAll (closeTagOf (str "cellXfs")) d.fontsBody (by decide) hfb)
      (cleanFor_append (closeTagOf (str "cellXfs")) (closeTagOf (str "fonts")) _ (by decide)
      (cleanFor_append (closeTagOf (str "cellXfs")) d.mid1 _ (cleanFor_of_cleanAll (closeTagOf (str "cellXfs")) d.mid1 (by decide) hm1)
      (cleanFor_append (closeTagOf (str "cellXfs")) (openTagOf (str "fills") d.nL) _ (cleanFor_marker_openTag (closeTagOf (str "cellXfs")) (str "fills") d.nL ⟨str "/cellXfs>", by decide⟩ (by decide)
      (by simp [closeTagOf, hasPfx, str]) (by simp [closeTagOf, hasPfx, str]))
      (cleanFor_append (closeTagOf (str "cellXfs")) d.fillsBody _ (cleanFor_of_cleanAll (closeTagOf (str "cellXfs")) d.fillsBody (by decide) hlb)
      (cleanFor_append (closeTagOf (str "cellXfs")) (closeTagOf (str "fills")) _ (by decide)
      (cleanFor_append (closeTagOf (str "cellXfs")) d.mid2 _ (cleanFor_of_cleanAll (closeTagOf (str "cellXfs")) d.mid2 (by decide) hm2)
      (cleanFor_append (closeTagOf (str "cellXfs")) (openTagOf (str "borders") d.nB) _ (cleanFor_marker_openTag (closeTagOf (str "cellXfs")) (str "borders") d.nB ⟨str "/cellXfs>", by decide⟩ (by decide)
      (by simp [closeTagOf, hasPfx, str]) (by simp [closeTagOf, hasPfx, str]))
      (cleanFor_append (closeTagOf (str "cellXfs")) d.bordersBody _ (cleanFor_of_cleanAll (closeTagOf (str "cellXfs")) d.bordersBody (by decide) hbb)
      (cleanFor_append (closeTagOf (str "cellXfs")) (closeTagOf (str "borders")) _ (by decide)
      (cleanFor_of_cleanAll (closeTagOf (str "cellXfs")) d.mid3 (by decide) hm3)))))))))))))))))
    (cleanFor_append (str "<" ++ str "cellXfs") d.pre0 _ (cleanFor_of_cleanAll (str "<" ++ str "cellXfs") d.pre0 (by decide) hp0)
      (cleanFor_append (str "<" ++ str "cellXfs") (openTagOf (str "numFmts") d.nN) _ (cleanFor_marker_openTag (str "<" ++ str "cellXfs") (str "numFmts") d.nN ⟨str "cellXfs", by decide⟩ (by decide)
      (by simp [closeTagOf, hasPfx, str]) (by simp [closeTagOf, hasPfx, str]))
      (cleanFor_append (str "<" ++ str "cellXfs") d.numBody _ (cleanFor_of_cleanAll (str "<" ++ str "cellXfs") d.numBody (by decide) hnb)
      (cleanFor_append (str "<" ++ str "cellXfs") (closeTagOf (str "numFmts")) _ (by decide)
      (cleanFor_append (str "<" ++ str "cellXfs") d.mid0 _ (cleanFor_of_cleanAll (str "<" ++ str "cellXfs") d.mid0 (by decide) hm0)
      (cleanFor_append (str "<" ++ str "cellXfs") (openTagOf (str "fonts") d.nF) _ (cleanFor_marker_openTag (str "<" ++ str "cellXfs") (str "fonts") d.nF ⟨str "cellXfs", by decide⟩ (by decide)
      (by simp [closeTagOf, hasPfx, str]) (by simp [closeTagOf, hasPfx, str]))
      (cleanFor_append (str "<" ++ str "cellXfs") d.fontsBody _ (cleanFor_of_cleanAll (str "<" ++ str "cellXfs") d.fontsBody (by decide) hfb)
      (cleanFor_append (str "<" ++ str "cellXfs") (closeTagOf (str "fonts")) _ (by decide)
      (cleanFor_append (str "<" ++ str "cellXfs") d.mid1 _ (cleanFor_of_cleanAll (str "<" ++ str "cellXfs") d.mid1 (by decide) hm1)
      (cleanFor_append (str "<" ++ str "cellXfs") (openTagOf (str "fills") d.nL) _ (cleanFor_marker_openTag (str "<" ++ str "cellXfs") (str "fills") d.nL ⟨str "cellXfs", by decide⟩ (by decide)
      (by simp [closeTagOf, hasPfx, str]) (by simp [closeTagOf, hasPfx, str]))
      (cleanFor_append (str "<" ++ str "cellXfs") d.fillsBody _ (cleanFor_of_cleanAll (str "<" ++ str "cellXfs") d.fillsBody (by decide) hlb)
      (cleanFor_append (str "<" ++ str "cellXfs") (closeTagOf (str "fills")) _ (by decide)
      (cleanFor_append (str "<" ++ str "cellXfs") d.mid2 _ (cleanFor_of_cleanAll (str "<" ++ str "cellXfs") d.mid2 (by decide) hm2)
      (cleanFor_append (str "<" ++ str "cellXfs") (openTagOf (str "borders") d.nB) _ (cleanFor_marker_openTag (str "<" ++ str "cellXfs") (str "borders") d.nB ⟨str "cellXfs", by decide⟩ (by decide)
      (by simp [closeTagOf, hasPfx, str]) (by simp [closeTagOf, hasPfx, str]))
      (cleanFor_append (str "<" ++ str "cellXfs") d.bordersBody _ (cleanFor_of_cleanAll (str "<" ++ str "cellXfs") d.bordersBody (by decide) hbb)
      (cleanFor_append (str "<" ++ str "cellXfs") (closeTagOf (str "borders")) _ (by decide)
      (cleanFor_of_cleanAll (str "<" ++ str "cellXfs") d.mid3 (by decide) hm3)))))))))))))))))
    (cleanFor_of_cleanAll (closeTagOf (str "cellXfs")) d.xfsBody (by decide) hxb)
    (cleanFor_close_open (str "cellXfs") d.nX '/'
      (str "cellXfs" ++ str ">") (by decide) ⟨'c', str "ellXfs", by decide⟩)
    (by decide)]
  simp [renderDoc, List.append_assoc]


-- ---------------------------------------------------------------------------
-- Stage decomposition of apply_format_spec and its document-level effect
-- ---------------------------------------------------------------------------

/-- The font stage of `apply_format_spec` at the text level. -/
def fontStepX (xml : Str) : Option FontSpec → Str × Nat
  | some f => injectIntoSection xml (str "fonts") (fontToXml f)
  | none => (xml, 0)

/-- The fill stage of `apply_format_spec` at the text level. -/
def fillStepX (xml : Str) : Option FillSpec → Str × Nat
  | some f => injectIntoSection xml (str "fills") (fillToXml f)
  | none => (xml, 0)

/-- The border stage of `apply_format_spec` at the text level. -/
def borderStepX (xml : Str) : Option BorderSpec → Str × Nat
  | some b => injectIntoSection xml (str "borders") (borderToXml b)
  | none => (xml, 0)

/-- The number-format stage of `apply_format_spec` at the text level. -/
def numStepX (xml : Str) (entries : List (Nat × Str)) :
    Option Str → Str × Nat
  | some code => findOrCreateNumFmt xml entries code
  | none => (xml, 0)

/-- `apply_format_spec` is the composition of its four component stages
followed by the `cellXfs` injection of the assembled `<xf>` record. -/
theorem applyFormatSpec_stages (xml : Str) (entries : List (Nat × Str))
    (spec : FormatSpec) :
    applyFormatSpec xml entries spec =
      injectIntoSection
        (numStepX (borderStepX (fillStepX (fontStepX xml spec.font).1
          spec.fill).1 spec.border).1 entries spec.numberFormat).1
        (str "cellXfs")
        (xfToXml (fontStepX xml spec.font).2
          (fillStepX (fontStepX xml spec.font).1 spec.fill).2
          (borderStepX (fillStepX (fontStepX xml spec.font).1 spec.fill).1
            spec.border).2
          (numStepX (borderStepX (fillStepX (fontStepX xml spec.font).1
            spec.fill).1 spec.border).1 entries spec.numberFormat).2
          spec.alignment spec.font.isSome spec.fill.isSome
          spec.border.isSome spec.numberFormat.isSome) := by
  obtain ⟨of, ol, ob, oal, onf⟩ := spec
  cases of <;> cases ol <;> cases ob <;> cases onf <;> rfl

/-- The font stage on a decomposed styles document. -/
def fontStep (d : StylesDoc) : Option FontSpec → StylesDoc × Nat
  | some f =>
    ({ d with nF := d.nF + 1, fontsBody := d.fontsBody ++ fontToXml f },
     d.nF)
  | none => (d, 0)

/-- The fill stage on a decomposed styles document. -/
def fillStep (d : StylesDoc) : Option FillSpec → StylesDoc × Nat
  | some f =>
    ({ d with nL := d.nL + 1, fillsBody := d.fillsBody ++ fillToXml f },
     d.nL)
  | none => (d, 0)

/-- The border stage on a decomposed styles document. -/
def borderStep (d : StylesDoc) : Option BorderSpec → StylesDoc × Nat
  | some b =>
    ({ d with nB := d.nB + 1, bordersBody := d.bordersBody ++ borderToXml b },
     d.nB)
  | none => (d, 0)

/-- The number-format stage on a decomposed styles document. -/
def numStep (d : StylesDoc) (entries : List (Nat × Str)) :
    Option Str → StylesDoc × Nat
  | some code =>
    match builtinNumFmtId code with
    | some id => (d, id)
    | none =>
      match numFmtScan entries code 163 with
      | .error id => (d, id)
      | .ok maxId =>
        ({ d with nN := d.nN + 1, numBody := d.numBody ++ numFmtElem (maxId + 1) code },
         maxId + 1)
  | none => (d, 0)

/-- The final `cellXfs` injection on a decomposed styles document. -/
def xfStep (d : StylesDoc) (e : Str) : StylesDoc × Nat :=
  ({ d with nX := d.nX + 1, xfsBody := d.xfsBody ++ e }, d.nX)

/-- The effect of `apply_format_spec` on a decomposed styles document. -/
def applyDoc (d : StylesDoc) (entries : List (Nat × Str))
    (spec : FormatSpec) : StylesDoc × Nat :=
  let q1 := fontStep d spec.font
  let q2 := fillStep q1.1 spec.fill
  let q3 := borderStep q2.1 spec.border
  let q4 := numStep q3.1 entries spec.numberFormat
  xfStep q4.1 (xfToXml q1.2 q2.2 q3.2 q4.2 spec.alignment
    spec.font.isSome spec.fill.isSome spec.border.isSome
    spec.numberFormat.isSome)

theorem wfDoc_mono (s t : Nat) (d : StylesDoc) (hst : s ≤ t)
    (hwf : wfDoc t d) : wfDoc s d := by
  obtain ⟨h1, h2, h3, h4, h5, hrest⟩ := hwf
  exact ⟨by omega, by omega, by omega, by omega, by omega, hrest⟩

theorem containsSub_render_numFmts (d : StylesDoc)
    (hp0 : cleanAll d.pre0 = true) :
    containsSub (renderDoc d) (str "<numFmts") = true := by
  have hshape : renderDoc d = d.pre0 ++
      (openTagOf (str "numFmts") d.nN ++ (d.numBody ++
      (closeTagOf (str "numFmts") ++ (d.mid0 ++
      (openTagOf (str "fonts") d.nF ++ (d.fontsBody ++
      (closeTagOf (str "fonts") ++ (d.mid1 ++
      (openTagOf (str "fills") d.nL ++ (d.fillsBody ++
      (closeTagOf (str "fills") ++ (d.mid2 ++
      (openTagOf (str "borders") d.nB ++ (d.bordersBody ++
      (closeTagOf (str "borders") ++ (d.mid3 ++
      (openTagOf (str "cellXfs") d.nX ++ (d.xfsBody ++
      (closeTagOf (str "cellXfs") ++ d.post))))))))))))))))))) := by
    simp [renderDoc, List.append_assoc]
  have hpfx : ∀ R : Str, hasPfx (str "<numFmts")
      (openTagOf (str "numFmts") d.nN ++ R) = true := by
    intro R
    simp [openTagOf, hasPfx, str]
  rw [containsSub, hshape,
    findSub_append_anchor (str "<numFmts") d.pre0 _ (by decide)
      (cleanFor_of_cleanAll _ _ (by decide) hp0) (hpfx _)]
  rfl

theorem fontStep_render (s : Nat) (d : StylesDoc) (hwf : wfDoc (s + 1) d)
    (of : Option FontSpec) :
    fontStepX (renderDoc d) of =
      (renderDoc (fontStep d of).1, (fontStep d of).2) := by
  obtain ⟨h1, h2, h3, h4, h5, hp0, hnb, hm0, hfb, hm1, hlb, hm2, hbb, hm3,
    hxb⟩ := hwf
  match of with
  | none => rfl
  | some f =>
    exact inject_fonts_render d (fontToXml f) (by omega) hp0 hnb hm0 hfb

theorem fillStep_render (s : Nat) (d : StylesDoc) (hwf : wfDoc (s + 1) d)
    (ol : Option FillSpec) :
    fillStepX (renderDoc d) ol =
      (renderDoc (fillStep d ol).1, (fillStep d ol).2) := by
  obtain ⟨h1, h2, h3, h4, h5, hp0, hnb, hm0, hfb, hm1, hlb, hm2, hbb, hm3,
    hxb⟩ := hwf
  match ol with
  | none => rfl
  | some f =>
    exact inject_fills_render d (fillToXml f) (by omega) hp0 hnb hm0 hfb
      hm1 hlb

theorem borderStep_render (s : Nat) (d : StylesDoc) (hwf : wfDoc (s + 1) d)
    (ob : Option BorderSpec) :
    borderStepX (renderDoc d) ob =
      (renderDoc (borderStep d ob).1, (borderStep d ob).2) := by
  obtain ⟨h1, h2, h3, h4, h5, hp0, hnb, hm0, hfb, hm1, hlb, hm2, hbb, hm3,
    hxb⟩ := hwf
  match ob with
  | none => rfl
  | some b =>
    exact inject_borders_render d (borderToXml b) (by omega) hp0 hnb hm0 hfb
      hm1 hlb hm2 hbb

theorem numStep_render (s : Nat) (d : StylesDoc) (hwf : wfDoc (s + 1) d)
    (entries : List (Nat × Str)) (oc : Option Str) :
    numStepX (renderDoc d) entries oc =
      (renderDoc (numStep d entries oc).1, (numStep d entries oc).2) := by
  obtain ⟨h1, h2, h3, h4, h5, hp0, hnb, hm0, hfb, hm1, hlb, hm2, hbb, hm3,
    hxb⟩ := hwf
  match oc with
  | none => rfl
  | some code =>
    show findOrCreateNumFmt (renderDoc d) entries code = _
    rcases hbi : builtinNumFmtId code with _ | id
    · rcases hsc : numFmtScan entries code 163 with id | maxId
      · simp only [findOrCreateNumFmt, numStep, hbi, hsc]
      · have hcs : containsSub (renderDoc d) (str "<numFmts") = true :=
          containsSub_render_numFmts d hp0
        simp only [findOrCreateNumFmt, numStep, hbi, hsc, hcs, if_true]
        have hinj := inject_numFmts_render d (numFmtElem (maxId + 1) code)
          (by omega) hp0 hnb
        rw [show (str "<numFmt numFmtId=\"" ++ natDecimal (maxId + 1) ++
            str "\" formatCode=\"" ++ xmlEscape code ++ str "\"/>") =
            numFmtElem (maxId + 1) code from rfl, hinj]
    · simp only [findOrCreateNumFmt, numStep, hbi]

theorem xfStep_render (s : Nat) (d : StylesDoc) (hwf : wfDoc (s + 1) d)
    (e : Str) :
    injectIntoSection (renderDoc d) (str "cellXfs") e =
      (renderDoc (xfStep d e).1, (xfStep d e).2) := by
  obtain ⟨h1, h2, h3, h4, h5, hp0, hnb, hm0, hfb, hm1, hlb, hm2, hbb, hm3,
    hxb⟩ := hwf
  exact inject_cellXfs_render d e (by omega) hp0 hnb hm0 hfb hm1 hlb hm2
    hbb hm3 hxb

theorem fontStep_wf (s : Nat) (d : StylesDoc) (hwf : wfDoc (s + 1) d)
    (of : Option FontSpec) (hb : fontBenign of = true) :
    wfDoc s (fontStep d of).1 := by
  match of with
  | none => exact wfDoc_mono s (s + 1) d (by omega) hwf
  | some f =>
    obtain ⟨h1, h2, h3, h4, h5, hp0, hnb, hm0, hfb, hm1, hlb, hm2, hbb, hm3,
      hxb⟩ := hwf
    simp only [fontBenign, Bool.and_eq_true] at hb
    exact ⟨(by omega : d.nN + s < 2 ^ 32),
      (by omega : d.nF + 1 + s < 2 ^ 32), (by omega : d.nL + s < 2 ^ 32),
      (by omega : d.nB + s < 2 ^ 32), (by omega : d.nX + s < 2 ^ 32),
      hp0, hnb, hm0,
      cleanAll_append _ _ hfb (cleanAll_fontToXml f hb.1 hb.2), hm1, hlb,
      hm2, hbb, hm3, hxb⟩

theorem fillStep_wf (s : Nat) (d : StylesDoc) (hwf : wfDoc (s + 1) d)
    (ol : Option FillSpec) (hb : fillBenign ol = true) :
    wfDoc s (fillStep d ol).1 := by
  match ol with
  | none => exact wfDoc_mono s (s + 1) d (by omega) hwf
  | some f =>
    obtain ⟨h1, h2, h3, h4, h5, hp0, hnb, hm0, hfb, hm1, hlb, hm2, hbb, hm3,
      hxb⟩ := hwf
    simp only [fillBenign, Bool.and_eq_true] at hb
    exact ⟨(by omega : d.nN + s < 2 ^ 32), (by omega : d.nF + s < 2 ^ 32),
      (by omega : d.nL + 1 + s < 2 ^ 32), (by omega : d.nB + s < 2 ^ 32),
      (by omega : d.nX + s < 2 ^ 32), hp0, hnb, hm0, hfb, hm1,
      cleanAll_append _ _ hlb (cleanAll_fillToXml f hb.1 hb.2),
      hm2, hbb, hm3, hxb⟩

theorem borderStep_wf (s : Nat) (d : StylesDoc) (hwf : wfDoc (s + 1) d)
    (ob : Option BorderSpec) (hb : borderBenign ob = true) :
    wfDoc s (borderStep d ob).1 := by
  match ob with
  | none => exact wfDoc_mono s (s + 1) d (by omega) hwf
  | some b =>
    obtain ⟨h1, h2, h3, h4, h5, hp0, hnb, hm0, hfb, hm1, hlb, hm2, hbb, hm3,
      hxb⟩ := hwf
    simp only [borderBenign, Bool.and_eq_true] at hb
    obtain ⟨⟨⟨⟨⟨⟨⟨hb1, hb2⟩, hb3⟩, hb4⟩, hb5⟩, hb6⟩, hb7⟩, hb8⟩ := hb
    exact ⟨(by omega : d.nN + s < 2 ^ 32), (by omega : d.nF + s < 2 ^ 32),
      (by omega : d.nL + s < 2 ^ 32), (by omega : d.nB + 1 + s < 2 ^ 32),
      (by omega : d.nX + s < 2 ^ 32), hp0, hnb, hm0, hfb, hm1, hlb, hm2,
      cleanAll_append _ _ hbb
        (cleanAll_borderToXml b hb1 hb2 hb3 hb4 hb5 hb6 hb7 hb8),
      hm3, hxb⟩

theorem numStep_wf (s : Nat) (d : StylesDoc) (hwf : wfDoc (s + 1) d)
    (entries : List (Nat × Str)) (oc : Option Str) :
    wfDoc s (numStep d entries oc).1 := by
  match oc with
  | none => exact wfDoc_mono s (s + 1) d (by omega) hwf
  | some code =>
    obtain ⟨h1, h2, h3, h4, h5, hp0, hnb, hm0, hfb, hm1, hlb, hm2, hbb, hm3,
      hxb⟩ := hwf
    rcases hbi : builtinNumFmtId code with _ | id
    · rcases hsc : numFmtScan entries code 163 with id | maxId
      · simp only [numStep, hbi, hsc]
        exact ⟨(by omega : d.nN + s < 2 ^ 32),
          (by omega : d.nF + s < 2 ^ 32), (by omega : d.nL + s < 2 ^ 32),
          (by omega : d.nB + s < 2 ^ 32), (by omega : d.nX + s < 2 ^ 32),
          hp0, hnb, hm0, hfb, hm1, hlb, hm2, hbb, hm3, hxb⟩
      · simp only [numStep, hbi, hsc]
        exact ⟨(by omega : d.nN + 1 + s < 2 ^ 32),
          (by omega : d.nF + s < 2 ^ 32), (by omega : d.nL + s < 2 ^ 32),
          (by omega : d.nB + s < 2 ^ 32), (by omega : d.nX + s < 2 ^ 32),
          hp0,
          cleanAll_append _ _ hnb (cleanAll_numFmtElem (maxId + 1) code),
          hm0, hfb, hm1, hlb, hm2, hbb, hm3, hxb⟩
    · simp only [numStep, hbi]
      exact ⟨(by omega : d.nN + s < 2 ^ 32), (by omega : d.nF + s < 2 ^ 32),
        (by omega : d.nL + s < 2 ^ 32), (by omega : d.nB + s < 2 ^ 32),
        (by omega : d.nX + s < 2 ^ 32), hp0, hnb, hm0, hfb, hm1, hlb, hm2,
        hbb, hm3, hxb⟩

theorem xfStep_wf (s : Nat) (d : StylesDoc) (hwf : wfDoc (s + 1) d)
    (fid lid bid nid : Nat) (oal : Option AlignmentSpec)
    (f1 f2 f3 f4 : Bool) (hb : alignBenign oal = true) :
    wfDoc s (xfStep d (xfToXml fid lid bid nid oal f1 f2 f3 f4)).1 := by
  obtain ⟨h1, h2, h3, h4, h5, hp0, hnb, hm0, hfb, hm1, hlb, hm2, hbb, hm3,
    hxb⟩ := hwf
  have hal : ∀ a, oal = some a →
      (a.horizontal.getD []).all (fun c => c ≠ '<') = true ∧
      (a.vertical.getD []).all (fun c => c ≠ '<') = true := by
    intro a ha
    rw [ha] at hb
    simpa [alignBenign, Bool.and_eq_true] using hb
  exact ⟨(by omega : d.nN + s < 2 ^ 32), (by omega : d.nF + s < 2 ^ 32),
    (by omega : d.nL + s < 2 ^ 32), (by omega : d.nB + s < 2 ^ 32),
    (by omega : d.nX + 1 + s < 2 ^ 32), hp0, hnb, hm0, hfb, hm1, hlb, hm2,
    hbb, hm3,
    cleanAll_append _ _ hxb
      (cleanAll_xfToXml fid lid bid nid oal f1 f2 f3 f4 hal)⟩

/-- `apply_format_spec` on a rendered well-formed document renders the
document-level effect `applyDoc`. -/
theorem applyFormatSpec_render (d : StylesDoc) (entries : List (Nat × Str))
    (spec : FormatSpec) (hwf : wfDoc 5 d) (hben : specBenign spec = true) :
    applyFormatSpec (renderDoc d) entries spec =
      (renderDoc (applyDoc d entries spec).1,
       (applyDoc d entries spec).2) := by
  have hb := hben
  rw [specBenign] at hb
  simp only [Bool.and_eq_true] at hb
  obtain ⟨⟨⟨hbf, hbl⟩, hbb⟩, hba⟩ := hb
  have e1 := fontStep_render 4 d hwf spec.font
  have w1 := fontStep_wf 4 d hwf spec.font hbf
  have e2 := fillStep_render 3 _ w1 spec.fill
  have w2 := fillStep_wf 3 _ w1 spec.fill hbl
  have e3 := borderStep_render 2 _ w2 spec.border
  have w3 := borderStep_wf 2 _ w2 spec.border hbb
  have e4 := numStep_render 1 _ w3 entries spec.numberFormat
  have w4 := numStep_wf 1 _ w3 entries spec.numberFormat
  have e5 := xfStep_render 0 _ w4
  rw [applyFormatSpec_stages]
  simp only [applyDoc]
  simp only [e1, e2, e3, e4, e5]

/-- `applyDoc` preserves well-formedness, spending one headroom unit per
section. -/
theorem applyDoc_wf (s : Nat) (d : StylesDoc) (entries : List (Nat × Str))
    (spec : FormatSpec) (hwf : wfDoc (s + 5) d)
    (hben : specBenign spec = true) :
    wfDoc s (applyDoc d entries spec).1 := by
  have hb := hben
  rw [specBenign] at hb
  simp only [Bool.and_eq_true] at hb
  obtain ⟨⟨⟨hbf, hbl⟩, hbb⟩, hba⟩ := hb
  have w1 := fontStep_wf (s + 4) d hwf spec.font hbf
  have w2 := fillStep_wf (s + 3) _ w1 spec.fill hbl
  have w3 := borderStep_wf (s + 2) _ w2 spec.border hbb
  have w4 := numStep_wf (s + 1) _ w3 entries spec.numberFormat
  simp only [applyDoc]
  exact xfStep_wf s _ w4 _ _ _ _ spec.alignment _ _ _ _ hba

theorem fontStep_nX (d : StylesDoc) (of : Option FontSpec) :
    (fontStep d of).1.nX = d.nX := by cases of <;> rfl

theorem fillStep_nX (d : StylesDoc) (ol : Option FillSpec) :
    (fillStep d ol).1.nX = d.nX := by cases ol <;> rfl

theorem borderStep_nX (d : StylesDoc) (ob : Option BorderSpec) :
    (borderStep d ob).1.nX = d.nX := by cases ob <;> rfl

theorem numStep_nX (d : StylesDoc) (entries : List (Nat × Str))
    (oc : Option Str) : (numStep d entries oc).1.nX = d.nX := by
  match oc with
  | none => rfl
  | some code =>
    rcases hbi : builtinNumFmtId code with _ | id
    · rcases hsc : numFmtScan entries code 163 with id | maxId
      · simp only [numStep, hbi, hsc]
      · simp only [numStep, hbi, hsc]
    · simp only [numStep, hbi]

theorem fillStep_fontsBody (d : StylesDoc) (ol : Option FillSpec) :
    (fillStep d ol).1.fontsBody = d.fontsBody := by cases ol <;> rfl

theorem borderStep_fontsBody (d : StylesDoc) (ob : Option BorderSpec) :
    (borderStep d ob).1.fontsBody = d.fontsBody := by cases ob <;> rfl

theorem numStep_fontsBody (d : StylesDoc) (entries : List (Nat × Str))
    (oc : Option Str) : (numStep d entries oc).1.fontsBody = d.fontsBody := by
  match oc with
  | none => rfl
  | some code =>
    rcases hbi : builtinNumFmtId code with _ | id
    · rcases hsc : numFmtScan entries code 163 with id | maxId
      · simp only [numStep, hbi, hsc]
      · simp only [numStep, hbi, hsc]
    · simp only [numStep, hbi]

theorem fontStep_fillsBody (d : StylesDoc) (of : Option FontSpec) :
    (fontStep d of).1.fillsBody = d.fillsBody := by cases of <;> rfl

theorem borderStep_fillsBody (d : StylesDoc) (ob : Option BorderSpec) :
    (borderStep d ob).1.fillsBody = d.fillsBody := by cases ob <;> rfl

theorem numStep_fillsBody (d : StylesDoc) (entries : List (Nat × Str))
    (oc : Option Str) : (numStep d entries oc).1.fillsBody = d.fillsBody := by
  match oc with
  | none => rfl
  | some code =>
    rcases hbi : builtinNumFmtId code with _ | id
    · rcases hsc : numFmtScan entries code 163 with id | maxId
      · simp only [numStep, hbi, hsc]
      · simp only [numStep, hbi, hsc]
    · simp only [numStep, hbi]

theorem fontStep_bordersBody (d : StylesDoc) (of : Option FontSpec) :
    (fontStep d of).1.bordersBody = d.bordersBody := by cases of <;> rfl

theorem fillStep_bordersBody (d : StylesDoc) (ol : Option FillSpec) :
    (fillStep d ol).1.bordersBody = d.bordersBody := by cases ol <;> rfl

theorem numStep_bordersBody (d : StylesDoc) (entries : List (Nat × Str))
    (oc : Option Str) :
    (numStep d entries oc).1.bordersBody = d.bordersBody := by
  match oc with
  | none => rfl
  | some code =>
    rcases hbi : builtinNumFmtId code with _ | id
    · rcases hsc : numFmtScan entries code 163 with id | maxId
      · simp only [numStep, hbi, hsc]
      · simp only [numStep, hbi, hsc]
    · simp only [numStep, hbi]

/-- The style index returned by `apply_format_spec` is the `cellXfs` count
of the document it was applied to. -/
theorem applyDoc_idx (d : StylesDoc) (entries : List (Nat × Str))
    (spec : FormatSpec) : (applyDoc d entries spec).2 = d.nX := by
  simp only [applyDoc, xfStep]
  rw [numStep_nX, borderStep_nX, fillStep_nX, fontStep_nX]

/-- `apply_format_spec` increments the `cellXfs` count by one. -/
theorem applyDoc_nX (d : StylesDoc) (entries : List (Nat × Str))
    (spec : FormatSpec) : (applyDoc d entries spec).1.nX = d.nX + 1 := by
  simp only [applyDoc, xfStep]
  rw [numStep_nX, borderStep_nX, fillStep_nX, fontStep_nX]

theorem applyDoc_fontsBody (d : StylesDoc) (entries : List (Nat × Str))
    (spec : FormatSpec) (f : FontSpec) (hf : spec.font = some f) :
    (applyDoc d entries spec).1.fontsBody = d.fontsBody ++ fontToXml f := by
  simp only [applyDoc, xfStep]
  rw [numStep_fontsBody, borderStep_fontsBody, fillStep_fontsBody, hf]
  rfl

theorem applyDoc_fillsBody (d : StylesDoc) (entries : List (Nat × Str))
    (spec : FormatSpec) (g : FillSpec) (hg : spec.fill = some g) :
    (applyDoc d entries spec).1.fillsBody = d.fillsBody ++ fillToXml g := by
  simp only [applyDoc, xfStep]
  rw [numStep_fillsBody, borderStep_fillsBody, hg]
  simp only [fillStep]
  rw [fontStep_fillsBody]

theorem applyDoc_bordersBody (d : StylesDoc) (entries : List (Nat × Str))
    (spec : FormatSpec) (b : BorderSpec) (hb : spec.border = some b) :
    (applyDoc d entries spec).1.bordersBody =
      d.bordersBody ++ borderToXml b := by
  simp only [applyDoc, xfStep]
  rw [numStep_bordersBody, hb]
  simp only [borderStep]
  rw [fillStep_bordersBody, fontStep_bordersBody]

theorem renderDoc_dup_fonts (D : StylesDoc) (base e : Str)
    (h : D.fontsBody = base ++ e ++ e) :
    ∃ u v w, renderDoc D = u ++ e ++ v ++ e ++ w := by
  refine ⟨D.pre0 ++ openTagOf (str "numFmts") D.nN ++ D.numBody ++
    closeTagOf (str "numFmts") ++ D.mid0 ++ openTagOf (str "fonts") D.nF ++
    base, [], closeTagOf (str "fonts") ++ D.mid1 ++
    openTagOf (str "fills") D.nL ++ D.fillsBody ++
    closeTagOf (str "fills") ++ D.mid2 ++ openTagOf (str "borders") D.nB ++
    D.bordersBody ++ closeTagOf (str "borders") ++ D.mid3 ++
    openTagOf (str "cellXfs") D.nX ++ D.xfsBody ++
    closeTagOf (str "cellXfs") ++ D.post, ?_⟩
  rw [renderDoc, h]
  simp [List.append_assoc]

theorem renderDoc_dup_fills (D : StylesDoc) (base e : Str)
    (h : D.fillsBody = base ++ e ++ e) :
    ∃ u v w, renderDoc D = u ++ e ++ v ++ e ++ w := by
  refine ⟨D.pre0 ++ openTagOf (str "numFmts") D.nN ++ D.numBody ++
    closeTagOf (str "numFmts") ++ D.mid0 ++ openTagOf (str "fonts") D.nF ++
    D.fontsBody ++ closeTagOf (str "fonts") ++ D.mid1 ++
    openTagOf (str "fills") D.nL ++ base, [],
    closeTagOf (str "fills") ++ D.mid2 ++ openTagOf (str "borders") D.nB ++
    D.bordersBody ++ closeTagOf (str "borders") ++ D.mid3 ++
    openTagOf (str "cellXfs") D.nX ++ D.xfsBody ++
    closeTagOf (str "cellXfs") ++ D.post, ?_⟩
  rw [renderDoc, h]
  simp [List.append_assoc]

theorem renderDoc_dup_borders (D : StylesDoc) (base e : Str)
    (h : D.bordersBody = base ++ e ++ e) :
    ∃ u v w, renderDoc D = u ++ e ++ v ++ e ++ w := by
  refine ⟨D.pre0 ++ openTagOf (str "numFmts") D.nN ++ D.numBody ++
    closeTagOf (str "numFmts") ++ D.mid0 ++ openTagOf (str "fonts") D.nF ++
    D.fontsBody ++ closeTagOf (str "fonts") ++ D.mid1 ++
    openTagOf (str "fills") D.nL ++ D.fillsBody ++
    closeTagOf (str "fills") ++ D.mid2 ++ openTagOf (str "borders") D.nB ++
    base, [], closeTagOf (str "borders") ++ D.mid3 ++
    openTagOf (str "cellXfs") D.nX ++ D.xfsBody ++
    closeTagOf (str "cellXfs") ++ D.post, ?_⟩
  rw [renderDoc, h]
  simp [List.append_assoc]

/-- C5: style resolution performs no deduplication.  Over every decomposed
styles document with count headroom and marker-clean pieces, and every
`FormatSpec` whose strings avoid `<`, applying `apply_format_spec` twice in
succession with the same spec returns a second xf index strictly greater
than the first, and the resulting XML holds two copies of the font, fill
and border component records generated from the spec. -/
theorem C5_no_style_dedup (d : StylesDoc)
    (entries1 entries2 : List (Nat × Str)) (spec : FormatSpec)
    (hwf : wfDoc 10 d) (hben : specBenign spec = true) :
    (applyFormatSpec (renderDoc d) entries1 spec).2 <
      (applyFormatSpec (applyFormatSpec (renderDoc d) entries1 spec).1
        entries2 spec).2 ∧
    (∀ f, spec.font = some f → ∃ u v w,
      (applyFormatSpec (applyFormatSpec (renderDoc d) entries1 spec).1
        entries2 spec).1 = u ++ fontToXml f ++ v ++ fontToXml f ++ w) ∧
    (∀ g, spec.fill = some g → ∃ u v w,
      (applyFormatSpec (applyFormatSpec (renderDoc d) entries1 spec).1
        entries2 spec).1 = u ++ fillToXml g ++ v ++ fillToXml g ++ w) ∧
    (∀ b, spec.border = some b → ∃ u v w,
      (applyFormatSpec (applyFormatSpec (renderDoc d) entries1 spec).1
        entries2 spec).1 = u ++ borderToXml b ++ v ++ borderToXml b ++ w) := by
  have h1 := applyFormatSpec_render d entries1 spec
    (wfDoc_mono 5 10 d (by omega) hwf) hben
  have hw1 := applyDoc_wf 5 d entries1 spec hwf hben
  have h2 := applyFormatSpec_render (applyDoc d entries1 spec).1 entries2
    spec hw1 hben
  simp only [h1, h2]
  refine ⟨?_, ?_, ?_, ?_⟩
  · rw [applyDoc_idx, applyDoc_idx, applyDoc_nX]
    omega
  · intro f hf
    refine renderDoc_dup_fonts _ d.fontsBody (fontToXml f) ?_
    rw [applyDoc_fontsBody _ _ _ f hf, applyDoc_fontsBody _ _ _ f hf]
  · intro g hg
    refine renderDoc_dup_fills _ d.fillsBody (fillToXml g) ?_
    rw [applyDoc_fillsBody _ _ _ g hg, applyDoc_fillsBody _ _ _ g hg]
  · intro b hb
    refine renderDoc_dup_borders _ d.bordersBody (borderToXml b) ?_
    rw [applyDoc_bordersBody _ _ _ b hb, applyDoc_bordersBody _ _ _ b hb]

/-- A small concrete styles document for exercising `C5_no_style_dedup`. -/
def c5Doc : StylesDoc :=
  ⟨[], 0, [], [], 1, str "<font/>", [], 1, str "<fill/>", [], 1,
   str "<border/>", [], 1, str "<xf/>", str "</styleSheet>"⟩

/-- A concrete `FormatSpec` with font, fill and border present. -/
def c5Spec : FormatSpec :=
  { font := some ⟨true, false, false, false, none, none, none⟩,
    fill := some ⟨str "solid", some (str "FFFF0000")⟩,
    border := some ⟨⟨some (str "thin"), none⟩, ⟨none, none⟩, ⟨none, none⟩,
      ⟨none, none⟩⟩,
    alignment := none,
    numberFormat := none }

theorem C5_no_style_dedup_witness :
    (wfDoc 10 c5Doc ∧ specBenign c5Spec = true) ∧
    (applyFormatSpec (renderDoc c5Doc) [] c5Spec).2 <
      (applyFormatSpec (applyFormatSpec (renderDoc c5Doc) [] c5Spec).1
        [] c5Spec).2 :=
  ⟨⟨by unfold wfDoc; decide, by decide⟩,
   (C5_no_style_dedup c5Doc [] [] c5Spec (by unfold wfDoc; decide)
     (by decide)).1⟩

-- ---------------------------------------------------------------------------
-- src/wolfxl/sheet_patcher.rs : the streaming patch_worksheet event loop
-- ---------------------------------------------------------------------------

/-- An XML event of the quick-xml stream, with attribute values already
unescaped (the tokenizer itself is the external quick-xml crate; the
embedding works on its event stream, as `patch_worksheet` does).  `text`
also stands for the other pass-through events (CData, comments,
declarations, processing instructions, doctypes), which the code's last
non-Eof arms treat identically to text. -/
inductive Ev
  | start (tag : Str) (attrs : List (Str × Str))
  | empty (tag : Str) (attrs : List (Str × Str))
  | endTag (tag : Str)
  | text (s : Str)
deriving DecidableEq

/-- `attr_value` (src/ooxml_util.rs:37-48): the value of the first
attribute with the given key. -/
def attrValue : List (Str × Str) → Str → Option Str
  | [], _ => none
  | (k, v) :: t, key => if k = key then some v else attrValue t key

/-- `BTreeMap::get` on the sorted association lists of the embedding. -/
def nlookup {α : Type} : List (Nat × α) → Nat → Option α
  | [], _ => none
  | (k, v) :: t, key => if key = k then some v else nlookup t key

/-- `BTreeMap::insert` on a sorted association list: overwrites an equal
key, otherwise inserts keeping keys ascending. -/
def sInsert {α : Type} : List (Nat × α) → Nat → α → List (Nat × α)
  | [], k, v => [(k, v)]
  | (k0, v0) :: t, k, v =>
    if k < k0 then (k, v) :: (k0, v0) :: t
    else if k = k0 then (k, v) :: t
    else (k0, v0) :: sInsert t k v

/-- The grouping loop of `patch_worksheet` (sheet_patcher.rs:70-73):
`row_patches.entry(p.row).or_default().insert(p.col, p)`. -/
def rowsInsert (rp : List (Nat × List (Nat × CellPatch)))
    (p : CellPatch) : List (Nat × List (Nat × CellPatch)) :=
  match nlookup rp p.row with
  | some m => sInsert rp p.row (sInsert m p.col p)
  | none => sInsert rp p.row (sInsert [] p.col p)

/-- The `row_patches` map of `patch_worksheet` (sheet_patcher.rs:68-73). -/
def groupPatches (ps : List CellPatch) :
    List (Nat × List (Nat × CellPatch)) :=
  ps.foldl rowsInsert []

/-- The style-index resolution shared by `write_style_only_cell_start`
(sheet_patcher.rs:283-288) and `write_patched_cell`
(sheet_patcher.rs:308-313): the patch's index if set, else the parsed
original `s` attribute. -/
def styleOf (patch : CellPatch) (origAttrs : List (Str × Str)) :
    Option Nat :=
  match patch.styleIndex with
  | some s => some s
  | none => (attrValue origAttrs (str "s")).bind parseU32F

/-- The attribute list `r`, then `s` when the resolved style index is
positive (`if s > 0`, sheet_patcher.rs:289/314), built by
`write_patched_cell`. -/
def baseCellAttrs (cellRef : Str) (patch : CellPatch)
    (origAttrs : List (Str × Str)) : List (Str × Str) :=
  [(str "r", cellRef)] ++
  (match styleOf patch origAttrs with
   | some s => if 0 < s then [(str "s", natDecimal s)] else []
   | none => [])

/-- `write_patched_cell` (sheet_patcher.rs:299-429) as the event list it
writes. -/
def writePatchedCell (cellRef : Str) (origAttrs : List (Str × Str))
    (patch : CellPatch) : List Ev :=
  let attrs := baseCellAttrs cellRef patch origAttrs
  match patch.value with
  | some .blank => [.empty (str "c") attrs]
  | none =>
    [.empty (str "c")
      (attrs ++ (match attrValue origAttrs (str "t") with
        | some t => [(str "t", t)]
        | none => []))]
  | some (.number tok) =>
    [.start (str "c") attrs, .start (str "v") [], .text tok,
     .endTag (str "v"), .endTag (str "c")]
  | some (.string s) =>
    [.start (str "c") (attrs ++ [(str "t", str "str")]),
     .start (str "v") [], .text s, .endTag (str "v"), .endTag (str "c")]
  | some (.boolean b) =>
    [.start (str "c") (attrs ++ [(str "t", str "b")]),
     .start (str "v") [], .text (if b then str "1" else str "0"),
     .endTag (str "v"), .endTag (str "c")]
  | some (.formula f) =>
    [.start (str "c") attrs, .start (str "f") [], .text f,
     .endTag (str "f"), .endTag (str "c")]

/-- `write_style_only_cell_start` (sheet_patcher.rs:261-296): keep the
original attributes except `r` and `s`, re-add `r`, then add `s` when the
resolved index is positive. -/
def writeStyleOnlyCellStart (cellRef : Str)
    (origAttrs : List (Str × Str)) (patch : CellPatch) : List Ev :=
  [.start (str "c")
    (origAttrs.filter (fun a => a.1 ≠ str "r" && a.1 ≠ str "s") ++
     [(str "r", cellRef)] ++
     (match styleOf patch origAttrs with
      | some s => if 0 < s then [(str "s", natDecimal s)] else []
      | none => []))]

/-- `write_new_cell` (sheet_patcher.rs:432-439): `write_patched_cell` with
a dummy attribute-less original. -/
def writeNewCell (cellRef : Str) (patch : CellPatch) : List Ev :=
  writePatchedCell cellRef [] patch

/-- `write_new_row` (sheet_patcher.rs:442-464). -/
def writeNewRow (rowNum : Nat) (cells : List (Nat × CellPatch)) :
    List Ev :=
  [.start (str "row") [(str "r", natDecimal rowNum)]] ++
  (cells.map (fun cp => writeNewCell (colRowToA1 cp.1 rowNum) cp.2)).join ++
  [.endTag (str "row")]

/-- The missing-row insertion loop run on entering a row
(sheet_patcher.rs:101-107 and 153-158): emit, in ascending key order, the
patch rows below the incoming row number that have not been seen. -/
def emitMissingRows (rp : List (Nat × List (Nat × CellPatch)))
    (rowNum : Nat) (rowsSeen : List Nat) : List Ev × List Nat :=
  rp.foldl (fun acc e =>
    if e.1 < rowNum && !(acc.2.contains e.1) then
      (acc.1 ++ writeNewRow e.1 e.2, acc.2 ++ [e.1])
    else acc) ([], rowsSeen)

/-- The mutable state of the `patch_worksheet` loop
(sheet_patcher.rs:81-86). -/
structure PwState where
  inSheetData : Bool
  currentRow : Option Nat
  colsSeen : List Nat
  rowsSeen : List Nat
  skip : Bool
deriving DecidableEq

/-- The row number of a `row` event
(`attr_value(e, b"r").and_then(parse).unwrap_or(0)`,
sheet_patcher.rs:98-100). -/
def rowNumOf (attrs : List (Str × Str)) : Nat :=
  ((attrValue attrs (str "r")).bind parseU32F).getD 0

/-- One iteration of the `patch_worksheet` event loop
(sheet_patcher.rs:88-243): the next state and the events written. -/
def pwStep (rp : List (Nat × List (Nat × CellPatch)))
    (st : PwState) (ev : Ev) : PwState × List Ev :=
  match ev with
  | .start tag attrs =>
    if tag = str "sheetData" then
      ({ st with inSheetData := true }, [ev])
    else if tag = str "row" && st.inSheetData then
      let rowNum := rowNumOf attrs
      let ms := emitMissingRows rp rowNum st.rowsSeen
      ({ st with currentRow := some rowNum, colsSeen := [], rowsSeen := ms.2 ++ [rowNum] },
       ms.1 ++ [ev])
    else if tag = str "c" && st.inSheetData then
      let cellRef := (attrValue attrs (str "r")).getD []
      let col := (parseCellRef cellRef).2
      let cols := st.colsSeen ++ [col]
      match st.currentRow.bind (nlookup rp) with
      | some rowMap =>
        match nlookup rowMap col with
        | some patch =>
          if patch.value = none ∧ patch.styleIndex.isSome then
            ({ st with colsSeen := cols },
             writeStyleOnlyCellStart cellRef attrs patch)
          else
            ({ st with colsSeen := cols, skip := true },
             writePatchedCell cellRef attrs patch)
        | none => ({ st with colsSeen := cols }, [ev])
      | none => ({ st with colsSeen := cols }, [ev])
    else
      (st, if st.skip then [] else [ev])
  | .empty tag attrs =>
    if tag = str "row" && st.inSheetData then
      let rowNum := rowNumOf attrs
      let ms := emitMissingRows rp rowNum st.rowsSeen
      match nlookup rp rowNum with
      | some rowMap =>
        ({ st with rowsSeen := ms.2 ++ [rowNum] },
         ms.1 ++ writeNewRow rowNum rowMap)
      | none =>
        ({ st with rowsSeen := ms.2 ++ [rowNum] }, ms.1 ++ [ev])
    else if tag = str "c" && st.inSheetData then
      let cellRef := (attrValue attrs (str "r")).getD []
      let col := (parseCellRef cellRef).2
      let cols := st.colsSeen ++ [col]
      match st.currentRow.bind (nlookup rp) with
      | some rowMap =>
        match nlookup rowMap col with
        | some patch =>
          ({ st with colsSeen := cols },
           writePatchedCell cellRef attrs patch)
        | none => ({ st with colsSeen := cols }, [ev])
      | none => ({ st with colsSeen := cols }, [ev])
    else if tag = str "sheetData" then
      ({ st with rowsSeen := st.rowsSeen ++ rp.map (fun e => e.1) },
       [.start (str "sheetData") []] ++
       (rp.map (fun e => writeNewRow e.1 e.2)).join ++
       [.endTag (str "sheetData")])
    else
      (st, if st.skip then [] else [ev])
  | .endTag tag =>
    if tag = str "c" && st.skip then
      ({ st with skip := false }, [])
    else if tag = str "row" && st.inSheetData then
      let extra :=
        match st.currentRow with
        | some r =>
          match nlookup rp r with
          | some rowMap =>
            ((rowMap.filter
              (fun cp => !(st.colsSeen.contains cp.1))).map
              (fun cp => writeNewCell (colRowToA1 cp.1 r) cp.2)).join
          | none => []
        | none => []
      ({ st with currentRow := none }, extra ++ [ev])
    else if tag = str "sheetData" then
      let extra :=
        ((rp.filter (fun e => !(st.rowsSeen.contains e.1))).map
          (fun e => writeNewRow e.1 e.2)).join
      ({ st with inSheetData := false }, extra ++ [ev])
    else
      (st, if st.skip then [] else [ev])
  | .text _ => (st, if st.skip then [] else [ev])

/-- The event loop threaded over the whole stream. -/
def pwRun (rp : List (Nat × List (Nat × CellPatch))) :
    PwState → List Ev → PwState × List Ev
  | st, [] => (st, [])
  | st, ev :: rest =>
    let r1 := pwStep rp st ev
    let r2 := pwRun rp r1.1 rest
    (r2.1, r1.2 ++ r2.2)

/-- `patch_worksheet` (sheet_patcher.rs:63-249) on the event stream: an
empty patch list returns the input unchanged (the early return at lines
64-66); otherwise the loop runs from the initial state. -/
def patchWorksheet (evs : List Ev) (patches : List CellPatch) : List Ev :=
  if patches = [] then evs
  else (pwRun (groupPatches patches) ⟨false, none, [], [], false⟩ evs).2

-- ---------------------------------------------------------------------------
-- Sorted association lists: sInsert / nlookup / groupPatches facts
-- ---------------------------------------------------------------------------

theorem sInsert_keys {α : Type} (l : List (Nat × α)) (k : Nat) (v : α) :
    ∀ m, m ∈ (sInsert l k v).map Prod.fst ↔
      m = k ∨ m ∈ l.map Prod.fst := by
  induction l with
  | nil => intro m; simp [sInsert]
  | cons e t ih =>
    intro m
    rw [sInsert]
    split
    · simp only [List.map_cons, List.mem_cons]
    · split
      · rename_i hlt heq
        subst heq
        simp only [List.map_cons, List.mem_cons]
        tauto
      · simp only [List.map_cons, List.mem_cons, ih m]
        tauto

theorem sInsert_mem {α : Type} (l : List (Nat × α)) (k : Nat) (v : α) :
    ∀ x, x ∈ sInsert l k v → x = (k, v) ∨ x ∈ l := by
  induction l with
  | nil => intro x; simp [sInsert]
  | cons e t ih =>
    intro x
    rw [sInsert]
    split
    · simp only [List.mem_cons]
      tauto
    · split
      · simp only [List.mem_cons]
        tauto
      · simp only [List.mem_cons]
        intro h
        rcases h with h | h
        · tauto
        · rcases ih x h with h2 | h2 <;> tauto

theorem sInsert_pairwise {α : Type} (l : List (Nat × α)) (k : Nat) (v : α)
    (h : (l.map Prod.fst).Pairwise (· < ·)) :
    ((sInsert l k v).map Prod.fst).Pairwise (· < ·) := by
  induction l with
  | nil => simp [sInsert]
  | cons e t ih =>
    simp only [List.map_cons, List.pairwise_cons] at h
    rw [sInsert]
    split
    · rename_i hlt
      simp only [List.map_cons, List.pairwise_cons]
      constructor
      · intro y hy
        rcases List.mem_cons.mp hy with rfl | hy2
        · exact hlt
        · exact lt_trans hlt (h.1 y hy2)
      · exact h
    · split
      · rename_i hlt heq
        subst heq
        simp only [List.map_cons, List.pairwise_cons]
        exact h
      · rename_i hlt hne
        simp only [List.map_cons, List.pairwise_cons]
        constructor
        · intro y hy
          rcases (sInsert_keys t k v y).mp hy with rfl | hy2
          · omega
          · exact h.1 y hy2
        · exact ih h.2

theorem nlookup_mem {α : Type} (l : List (Nat × α)) (k : Nat) (v : α)
    (h : nlookup l k = some v) : (k, v) ∈ l := by
  induction l with
  | nil => simp [nlookup] at h
  | cons e t ih =>
    rw [nlookup] at h
    split at h
    · rename_i heq
      cases h
      subst heq
      exact List.mem_cons_self _ _
    · exact List.mem_cons_of_mem _ (ih h)

theorem nlookup_none {α : Type} (l : List (Nat × α)) (k : Nat)
    (h : k ∉ l.map Prod.fst) : nlookup l k = none := by
  induction l with
  | nil => rfl
  | cons e t ih =>
    simp only [List.map_cons, List.mem_cons] at h
    push_neg at h
    rw [nlookup, if_neg h.1]
    exact ih h.2

theorem mem_keys_nlookup {α : Type} (l : List (Nat × α)) (k : Nat)
    (h : k ∈ l.map Prod.fst) : ∃ v, nlookup l k = some v := by
  induction l with
  | nil => simp at h
  | cons e t ih =>
    rw [nlookup]
    split
    · exact ⟨e.2, rfl⟩
    · rename_i hne
      simp only [List.map_cons, List.mem_cons] at h
      rcases h with h | h
      · exact absurd h hne
      · exact ih h

theorem groupPatches_aux_sorted (ps : List CellPatch) :
    ∀ acc : List (Nat × List (Nat × CellPatch)),
    (acc.map Prod.fst).Pairwise (· < ·) →
    ((ps.foldl rowsInsert acc).map Prod.fst).Pairwise (· < ·) := by
  induction ps with
  | nil => intro acc h; exact h
  | cons p t ih =>
    intro acc h
    rw [List.foldl_cons]
    refine ih _ ?_
    rw [rowsInsert]
    split <;> exact sInsert_pairwise _ _ _ h

/-- The keys of `row_patches` are strictly ascending. -/
theorem groupPatches_sorted (ps : List CellPatch) :
    ((groupPatches ps).map Prod.fst).Pairwise (· < ·) :=
  groupPatches_aux_sorted ps [] (by simp)

theorem groupPatches_aux_inner (ps : List CellPatch) :
    ∀ acc : List (Nat × List (Nat × CellPatch)),
    (∀ e ∈ acc, (e.2.map Prod.fst).Pairwise (· < ·)) →
    ∀ e ∈ ps.foldl rowsInsert acc, (e.2.map Prod.fst).Pairwise (· < ·) := by
  induction ps with
  | nil => intro acc h; exact h
  | cons p t ih =>
    intro acc h
    rw [List.foldl_cons]
    refine ih _ ?_
    intro e he
    rw [rowsInsert] at he
    split at he
    · rename_i m hm
      rcases sInsert_mem _ _ _ e he with rfl | he2
      · exact sInsert_pairwise _ _ _ (h _ (nlookup_mem _ _ _ hm))
      · exact h e he2
    · rcases sInsert_mem _ _ _ e he with rfl | he2
      · exact sInsert_pairwise _ _ _ (by simp)
      · exact h e he2

/-- Every per-row map of `row_patches` has strictly ascending column
keys. -/
theorem groupPatches_inner_sorted (ps : List CellPatch) :
    ∀ e ∈ groupPatches ps, (e.2.map Prod.fst).Pairwise (· < ·) :=
  groupPatches_aux_inner ps [] (by simp)

theorem groupPatches_aux_keys (ps : List CellPatch) :
    ∀ acc : List (Nat × List (Nat × CellPatch)),
    ∀ k ∈ (ps.foldl rowsInsert acc).map Prod.fst,
      k ∈ acc.map Prod.fst ∨ ∃ p ∈ ps, p.row = k := by
  induction ps with
  | nil =>
    intro acc k hk
    exact Or.inl hk
  | cons p t ih =>
    intro acc k hk
    rw [List.foldl_cons] at hk
    rcases ih _ k hk with h | h
    · rw [rowsInsert] at h
      split at h <;>
      · rcases (sInsert_keys _ _ _ k).mp h with rfl | h2
        · exact Or.inr ⟨p, List.mem_cons_self _ _, rfl⟩
        · exact Or.inl h2
    · rcases h with ⟨q, hq, hqk⟩
      exact Or.inr ⟨q, List.mem_cons_of_mem _ hq, hqk⟩

/-- Every key of `row_patches` is the row of one of the patches. -/
theorem groupPatches_keys (ps : List CellPatch) :
    ∀ k ∈ (groupPatches ps).map Prod.fst, ∃ p ∈ ps, p.row = k := by
  intro k hk
  rcases groupPatches_aux_keys ps [] k hk with h | h
  · simp at h
  · exact h

-- ---------------------------------------------------------------------------
-- Structured worksheets and the merge shape of the patched output
-- ---------------------------------------------------------------------------

/-- A source cell of the structured worksheet class: a self-closing
`<c r="ref"/>`. -/
def srcCellEv (r c : Nat) : Ev :=
  .empty (str "c") [(str "r", colRowToA1 c r)]

/-- A source row `<row r="n"> cells </row>` of the structured class. -/
def srcRowEvs (r : Nat) (cs : List Nat) : List Ev :=
  [.start (str "row") [(str "r", natDecimal r)]] ++
  cs.map (srcCellEv r) ++ [.endTag (str "row")]

/-- A structured `sheetData` stream: rows of self-closing cells. -/
def genSheet (rows : List (Nat × List Nat)) : List Ev :=
  [.start (str "sheetData") []] ++
  (rows.map (fun rc => srcRowEvs rc.1 rc.2)).join ++
  [.endTag (str "sheetData")]

/-- What one source cell becomes: patched in place when the row map holds
its column, else passed through. -/
def cellPassOut (r c : Nat) (m : Option (List (Nat × CellPatch))) :
    List Ev :=
  match m with
  | none => [srcCellEv r c]
  | some rowMap =>
    match nlookup rowMap c with
    | some patch =>
      writePatchedCell (colRowToA1 c r) [(str "r", colRowToA1 c r)] patch
    | none => [srcCellEv r c]

/-- What one source row becomes: its cells patched in place, then the
patched cells at columns the row did not contain appended before the
closing tag in map (ascending-column) order. -/
def rowBlockOut (r : Nat) (cs : List Nat)
    (m : Option (List (Nat × CellPatch))) : List Ev :=
  [.start (str "row") [(str "r", natDecimal r)]] ++
  (cs.map (fun c => cellPassOut r c m)).join ++
  (match m with
   | some rowMap =>
     ((rowMap.filter (fun cp => !(cs.contains cp.1))).map
       (fun cp => writeNewCell (colRowToA1 cp.1 r) cp.2)).join
   | none => []) ++
  [.endTag (str "row")]

/-- The row merge: before each source row, the patch rows strictly between
the previous source row and its number are synthesized in ascending order;
after the last source row, all remaining patch rows are synthesized in
ascending order before the closing tag. -/
def mergeRowsOut (rp : List (Nat × List (Nat × CellPatch))) :
    List (Nat × List Nat) → Nat → List Ev
  | [], B =>
    ((rp.filter (fun e => B < e.1)).map
      (fun e => writeNewRow e.1 e.2)).join
  | (r, cs) :: rest, B =>
    ((rp.filter (fun e => B < e.1 && e.1 < r)).map
      (fun e => writeNewRow e.1 e.2)).join ++
    rowBlockOut r cs (nlookup rp r) ++
    mergeRowsOut rp rest r

/-- The overall merged output shape. -/
def sheetOut (rp : List (Nat × List (Nat × CellPatch)))
    (src : List (Nat × List Nat)) : List Ev :=
  [.start (str "sheetData") []] ++ mergeRowsOut rp src 0 ++
  [.endTag (str "sheetData")]

theorem contains_iff_memN (L : List Nat) (x : Nat) :
    L.contains x = true ↔ x ∈ L := by
  constructor
  · exact fun h => List.mem_of_elem_eq_true h
  · exact fun h => List.elem_eq_true_of_mem h

theorem pwRun_append (rp : List (Nat × List (Nat × CellPatch)))
    (st : PwState) (xs ys : List Ev) :
    pwRun rp st (xs ++ ys) =
      ((pwRun rp (pwRun rp st xs).1 ys).1,
       (pwRun rp st xs).2 ++ (pwRun rp (pwRun rp st xs).1 ys).2) := by
  induction xs generalizing st with
  | nil => simp [pwRun]
  | cons e t ih =>
    simp only [List.cons_append, pwRun, List.append_eq, ih,
      List.append_assoc]

theorem emitMissingRows_bound (rp : List (Nat × List (Nat × CellPatch)))
    (rowNum B : Nat)
    (hsorted : (rp.map Prod.fst).Pairwise (· < ·)) :
    ∀ (out : List Ev) (S : List Nat),
    (∀ k ∈ rp.map Prod.fst, (S.contains k = true ↔ k ≤ B)) →
    rp.foldl (fun acc e =>
      if e.1 < rowNum && !(acc.2.contains e.1) then
        (acc.1 ++ writeNewRow e.1 e.2, acc.2 ++ [e.1])
      else acc) (out, S) =
    (out ++ ((rp.filter (fun e => B < e.1 && e.1 < rowNum)).map
        (fun e => writeNewRow e.1 e.2)).join,
     S ++ (rp.filter (fun e => B < e.1 && e.1 < rowNum)).map Prod.fst) := by
  induction rp with
  | nil => intro out S _; simp
  | cons e t ih =>
    intro out S hS
    simp only [List.map_cons, List.pairwise_cons] at hsorted
    have hk := hS e.1 (by simp)
    rw [List.foldl_cons]
    by_cases hB : e.1 ≤ B
    · have hcont : S.contains e.1 = true := hk.mpr hB
      have hcond : (decide (e.1 < rowNum) && !S.contains e.1) = false := by
        rw [hcont]
        cases decide (e.1 < rowNum) <;> rfl
      rw [if_neg (by rw [hcond]; simp)]
      have hfcond : (decide (B < e.1) && decide (e.1 < rowNum)) = false := by
        have hnb : decide (B < e.1) = false := by
          simp only [decide_eq_false_iff_not]
          omega
        rw [hnb]
        rfl
      rw [List.filter_cons, if_neg (by rw [hfcond]; simp)]
      exact ih hsorted.2 out S (fun k hk2 => hS k (by simp [hk2]))
    · have hcont : S.contains e.1 = false := by
        cases h2 : S.contains e.1
        · rfl
        · exact absurd (hk.mp h2) hB
      by_cases hlt : e.1 < rowNum
      · have hcond : (decide (e.1 < rowNum) && !S.contains e.1) = true := by
          rw [hcont]
          simp [hlt]
        rw [if_pos hcond]
        have hfcond : (decide (B < e.1) && decide (e.1 < rowNum)) = true := by
          have h1 : decide (B < e.1) = true := by
            simp only [decide_eq_true_eq]
            omega
          have h2 : decide (e.1 < rowNum) = true := by
            simp only [decide_eq_true_eq]
            exact hlt
          rw [h1, h2]
          rfl
        rw [List.filter_cons, if_pos hfcond]
        have hS2 : ∀ k ∈ t.map Prod.fst,
            ((S ++ [e.1]).contains k = true ↔ k ≤ B) := by
          intro k hk2
          have hgt : e.1 < k := hsorted.1 k hk2
          have hSk := hS k (by simp [hk2])
          rw [contains_iff_memN, List.mem_append]
          rw [contains_iff_memN] at hSk
          constructor
          · intro h
            rcases h with h | h
            · exact hSk.mp h
            · have : k = e.1 := by simpa using h
              omega
          · intro h
            exact Or.inl (hSk.mpr h)
        rw [ih hsorted.2 (out ++ writeNewRow e.1 e.2) (S ++ [e.1]) hS2]
        simp [List.append_assoc]
      · have hcond : (decide (e.1 < rowNum) && !S.contains e.1) = false := by
          have h1 : decide (e.1 < rowNum) = false := by
            simp only [decide_eq_false_iff_not]
            exact hlt
          rw [h1]
          rfl
        rw [if_neg (by rw [hcond]; simp)]
        have hfcond : (decide (B < e.1) && decide (e.1 < rowNum)) = false := by
          have h1 : decide (e.1 < rowNum) = false := by
            simp only [decide_eq_false_iff_not]
            exact hlt
          rw [h1]
          cases decide (B < e.1) <;> rfl
        rw [List.filter_cons, if_neg (by rw [hfcond]; simp)]
        exact ih hsorted.2 out S (fun k hk2 => hS k (by simp [hk2]))

/-- `emitMissingRows` under the bound invariant: it writes exactly the
patch rows strictly between the bound and the incoming row number, in
ascending order, and records them as seen. -/
theorem emitMissingRows_spec (rp : List (Nat × List (Nat × CellPatch)))
    (rowNum B : Nat) (S : List Nat)
    (hsorted : (rp.map Prod.fst).Pairwise (· < ·))
    (hS : ∀ k ∈ rp.map Prod.fst, (S.contains k = true ↔ k ≤ B)) :
    emitMissingRows rp rowNum S =
      (((rp.filter (fun e => B < e.1 && e.1 < rowNum)).map
          (fun e => writeNewRow e.1 e.2)).join,
       S ++ (rp.filter (fun e => B < e.1 && e.1 < rowNum)).map
         Prod.fst) := by
  rw [emitMissingRows, emitMissingRows_bound rp rowNum B hsorted [] S hS]
  simp

theorem pwStep_sheetData_start (rp : List (Nat × List (Nat × CellPatch)))
    (st : PwState) (attrs : List (Str × Str)) :
    pwStep rp st (.start (str "sheetData") attrs) =
      ({ st with inSheetData := true }, [.start (str "sheetData") attrs]) :=
  rfl

theorem pwStep_row_start (rp : List (Nat × List (Nat × CellPatch)))
    (cr : Option Nat) (cols S : List Nat) (attrs : List (Str × Str)) :
    pwStep rp ⟨true, cr, cols, S, false⟩ (.start (str "row") attrs) =
      (⟨true, some (rowNumOf attrs), [],
        (emitMissingRows rp (rowNumOf attrs) S).2 ++ [rowNumOf attrs],
        false⟩,
       (emitMissingRows rp (rowNumOf attrs) S).1 ++
         [.start (str "row") attrs]) :=
  rfl

theorem pwStep_row_end (rp : List (Nat × List (Nat × CellPatch)))
    (r : Nat) (cols S : List Nat) :
    pwStep rp ⟨true, some r, cols, S, false⟩ (.endTag (str "row")) =
      (⟨true, none, cols, S, false⟩,
       (match nlookup rp r with
        | some rowMap =>
          ((rowMap.filter (fun cp => !(cols.contains cp.1))).map
            (fun cp => writeNewCell (colRowToA1 cp.1 r) cp.2)).join
        | none => []) ++ [.endTag (str "row")]) :=
  rfl

theorem pwStep_sheet_end (rp : List (Nat × List (Nat × CellPatch)))
    (cols S : List Nat) :
    pwStep rp ⟨true, none, cols, S, false⟩ (.endTag (str "sheetData")) =
      (⟨false, none, cols, S, false⟩,
       ((rp.filter (fun e => !(S.contains e.1))).map
         (fun e => writeNewRow e.1 e.2)).join ++
       [.endTag (str "sheetData")]) :=
  rfl

theorem pwStep_src_cell (rp : List (Nat × List (Nat × CellPatch)))
    (r c : Nat) (hr : r < 2 ^ 32) (cols S : List Nat) :
    pwStep rp ⟨true, some r, cols, S, false⟩ (srcCellEv r c) =
      (⟨true, some r, cols ++ [c], S, false⟩,
       cellPassOut r c (nlookup rp r)) := by
  have hpc : parseCellRef (colRowToA1 c r) = (r, c) :=
    parseCellRef_colRowToA1 c r hr
  rcases hm : nlookup rp r with _ | rowMap
  · simp +decide [srcCellEv, pwStep, attrValue, hpc, cellPassOut, hm]
  · rcases hp : nlookup rowMap c with _ | patch
    · simp +decide [srcCellEv, pwStep, attrValue, hpc, cellPassOut, hm, hp]
    · simp +decide [srcCellEv, pwStep, attrValue, hpc, cellPassOut, hm, hp]

theorem pwRun_srcCells (rp : List (Nat × List (Nat × CellPatch)))
    (r : Nat) (hr : r < 2 ^ 32) :
    ∀ (cs : List Nat) (cols S : List Nat),
    pwRun rp ⟨true, some r, cols, S, false⟩ (cs.map (srcCellEv r)) =
      (⟨true, some r, cols ++ cs, S, false⟩,
       (cs.map (fun c => cellPassOut r c (nlookup rp r))).join) := by
  intro cs
  induction cs with
  | nil => intro cols S; simp [pwRun]
  | cons c t ih =>
    intro cols S
    simp only [List.map_cons, pwRun, pwStep_src_cell rp r c hr cols S,
      ih (cols ++ [c]) S, List.append_assoc, List.singleton_append,
      List.join, List.flatten_cons]

theorem pwRun_srcRows (rp : List (Nat × List (Nat × CellPatch)))
    (hsorted : (rp.map Prod.fst).Pairwise (· < ·)) :
    ∀ (src : List (Nat × List Nat)) (B : Nat) (S cols : List Nat),
    (src.map Prod.fst).Pairwise (· < ·) →
    (∀ rc ∈ src, B < rc.1 ∧ rc.1 < 2 ^ 32) →
    (∀ k ∈ rp.map Prod.fst, (S.contains k = true ↔ k ≤ B)) →
    ∃ stF : PwState,
    pwRun rp ⟨true, none, cols, S, false⟩
      ((src.map (fun rc => srcRowEvs rc.1 rc.2)).join ++
        [.endTag (str "sheetData")]) =
      (stF, mergeRowsOut rp src B ++ [.endTag (str "sheetData")]) := by
  intro src
  induction src with
  | nil =>
    intro B S cols _ _ hS
    refine ⟨⟨false, none, cols, S, false⟩, ?_⟩
    have hfeq : rp.filter (fun e => !(S.contains e.1)) =
        rp.filter (fun e => B < e.1) := by
      apply List.filter_congr
      intro e he
      have hke := hS e.1 (List.mem_map_of_mem Prod.fst he)
      rcases hc : S.contains e.1 with _ | _
      · have hgt : B < e.1 := by
          by_contra hle
          rw [hke.mpr (by omega)] at hc
          cases hc
        simp [hgt]
      · have hle : e.1 ≤ B := hke.mp hc
        have : ¬ B < e.1 := by omega
        simp [this]
    simp only [List.map_nil, List.join, pwRun, pwStep_sheet_end,
      mergeRowsOut, hfeq]
    simp [pwRun]
  | cons rc rest ih =>
    intro B S cols hpw hb hS
    obtain ⟨r, cs⟩ := rc
    have hBr : B < r := (hb (r, cs) (List.mem_cons_self _ _)).1
    have hr32 : r < 2 ^ 32 := (hb (r, cs) (List.mem_cons_self _ _)).2
    have hrn : rowNumOf [(str "r", natDecimal r)] = r := by
      simp [rowNumOf, attrValue, parseU32F_natDecimal r hr32]
    have hrow : pwRun rp ⟨true, none, cols, S, false⟩ (srcRowEvs r cs) =
        (⟨true, none, [] ++ cs,
          S ++ (rp.filter (fun e => B < e.1 && e.1 < r)).map Prod.fst ++
            [r], false⟩,
         ((rp.filter (fun e => B < e.1 && e.1 < r)).map
           (fun e => writeNewRow e.1 e.2)).join ++
         rowBlockOut r cs (nlookup rp r)) := by
      rw [srcRowEvs,
        show ([Ev.start (str "row") [(str "r", natDecimal r)]] ++
            cs.map (srcCellEv r) ++ [Ev.endTag (str "row")]) =
          Ev.start (str "row") [(str "r", natDecimal r)] ::
            (cs.map (srcCellEv r) ++ [Ev.endTag (str "row")]) by simp]
      simp only [pwRun, pwStep_row_start, hrn,
        emitMissingRows_spec rp r B S hsorted hS, pwRun_append,
        pwRun_srcCells rp r hr32, pwStep_row_end]
      simp [rowBlockOut, List.append_assoc]
    simp only [List.map_cons, List.join, List.flatten_cons,
      List.append_assoc]
    rw [pwRun_append, hrow]
    simp only [List.map_cons, List.pairwise_cons] at hpw
    have hb2 : ∀ rc2 ∈ rest, r < rc2.1 ∧ rc2.1 < 2 ^ 32 := by
      intro rc2 hrc2
      exact ⟨hpw.1 rc2.1 (List.mem_map_of_mem Prod.fst hrc2),
        (hb rc2 (List.mem_cons_of_mem _ hrc2)).2⟩
    have hS2 : ∀ k ∈ rp.map Prod.fst,
        ((S ++ (rp.filter (fun e => B < e.1 && e.1 < r)).map Prod.fst ++
          [r]).contains k = true ↔ k ≤ r) := by
      intro k hk
      rw [contains_iff_memN]
      simp only [List.mem_append, List.mem_singleton]
      constructor
      · rintro ((hkS | hkE) | rfl)
        · have := (hS k hk).mp ((contains_iff_memN S k).mpr hkS)
          omega
        · obtain ⟨e, he, rfl⟩ := List.mem_map.mp hkE
          have hpe := List.of_mem_filter he
          simp only [Bool.and_eq_true, decide_eq_true_eq] at hpe
          omega
        · omega
      · intro hkr
        rcases Nat.lt_or_ge k r with hlt | hge
        · by_cases hkB : k ≤ B
          · exact Or.inl (Or.inl
              ((contains_iff_memN S k).mp ((hS k hk).mpr hkB)))
          · refine Or.inl (Or.inr ?_)
            obtain ⟨e, he, hfst⟩ := List.mem_map.mp hk
            refine List.mem_map.mpr ⟨e, ?_, hfst⟩
            refine List.mem_filter.mpr ⟨he, ?_⟩
            simp only [Bool.and_eq_true, decide_eq_true_eq]
            omega
        · exact Or.inr (by omega)
    obtain ⟨stF, hrest⟩ := ih r
      (S ++ (rp.filter (fun e => B < e.1 && e.1 < r)).map Prod.fst ++ [r])
      ([] ++ cs) hpw.2 hb2 hS2
    rw [hrest]
    refine ⟨stF, ?_⟩
    simp [mergeRowsOut, List.append_assoc]

/-- `patch_worksheet` on a structured worksheet: the output is exactly the
sorted merge `sheetOut` of the source rows with the patch rows. -/
theorem patchWorksheet_characterize (src : List (Nat × List Nat))
    (patches : List CellPatch) (hne : patches ≠ [])
    (hsrc : (src.map Prod.fst).Pairwise (· < ·))
    (hsrcb : ∀ rc ∈ src, 1 ≤ rc.1 ∧ rc.1 < 2 ^ 32)
    (hpb : ∀ p ∈ patches, 1 ≤ p.row) :
    patchWorksheet (genSheet src) patches =
      sheetOut (groupPatches patches) src := by
  rw [patchWorksheet, if_neg hne, genSheet]
  have hkeys1 : ∀ k ∈ (groupPatches patches).map Prod.fst, 1 ≤ k := by
    intro k hk
    obtain ⟨p, hp, rfl⟩ := groupPatches_keys patches k hk
    exact hpb p hp
  have hS0 : ∀ k ∈ (groupPatches patches).map Prod.fst,
      (([] : List Nat).contains k = true ↔ k ≤ 0) := by
    intro k hk
    constructor
    · intro h
      cases h
    · intro h
      have := hkeys1 k hk
      omega
  have hb0 : ∀ rc ∈ src, 0 < rc.1 ∧ rc.1 < 2 ^ 32 := by
    intro rc hrc
    exact ⟨(hsrcb rc hrc).1, (hsrcb rc hrc).2⟩
  obtain ⟨stF, hrun⟩ := pwRun_srcRows (groupPatches patches)
    (groupPatches_sorted patches) src 0 [] [] hsrc hb0 hS0
  rw [show ([Ev.start (str "sheetData") []] ++
        (src.map (fun rc => srcRowEvs rc.1 rc.2)).join ++
        [Ev.endTag (str "sheetData")]) =
      Ev.start (str "sheetData") [] ::
        ((src.map (fun rc => srcRowEvs rc.1 rc.2)).join ++
         [Ev.endTag (str "sheetData")]) by simp]
  simp only [pwRun, pwStep_sheetData_start]
  rw [hrun]
  simp [sheetOut]

/-- The row numbers of the `<row>` opening tags of an event stream. -/
def rowStartNums (evs : List Ev) : List Nat :=
  evs.filterMap (fun ev => match ev with
    | .start tag attrs =>
      if tag = str "row" then some (rowNumOf attrs) else none
    | _ => none)

theorem rowStartNums_append (xs ys : List Ev) :
    rowStartNums (xs ++ ys) = rowStartNums xs ++ rowStartNums ys := by
  simp [rowStartNums]

theorem rowStartNums_writePatchedCell (cellRef : Str)
    (origAttrs : List (Str × Str)) (p : CellPatch) :
    rowStartNums (writePatchedCell cellRef origAttrs p) = [] := by
  rw [writePatchedCell]
  rcases p.value with _ | v
  · rfl
  · rcases v with _ | tok | s | b | f <;> rfl

theorem rowStartNums_newCells (k : Nat) (m : List (Nat × CellPatch)) :
    rowStartNums
      ((m.map (fun cp => writeNewCell (colRowToA1 cp.1 k) cp.2)).join) =
      [] := by
  induction m with
  | nil => rfl
  | cons e t ih =>
    simp only [List.map_cons, List.join, List.flatten_cons,
      rowStartNums_append]
    rw [writeNewCell, rowStartNums_writePatchedCell]
    simpa [List.join] using ih

theorem rowStartNums_cellPassOut (r c : Nat)
    (m : Option (List (Nat × CellPatch))) :
    rowStartNums (cellPassOut r c m) = [] := by
  rcases m with _ | rowMap
  · rfl
  · rw [cellPassOut]
    rcases nlookup rowMap c with _ | patch
    · rfl
    · exact rowStartNums_writePatchedCell _ _ _

theorem rowStartNums_passCells (r : Nat) (cs : List Nat)
    (m : Option (List (Nat × CellPatch))) :
    rowStartNums ((cs.map (fun c => cellPassOut r c m)).join) = [] := by
  induction cs with
  | nil => rfl
  | cons c t ih =>
    simp only [List.map_cons, List.join, List.flatten_cons,
      rowStartNums_append]
    rw [rowStartNums_cellPassOut]
    simpa [List.join] using ih

theorem rowStartNums_writeNewRow (k : Nat) (hk : k < 2 ^ 32)
    (m : List (Nat × CellPatch)) :
    rowStartNums (writeNewRow k m) = [k] := by
  rw [writeNewRow, rowStartNums_append, rowStartNums_append]
  have h1 : rowStartNums [Ev.start (str "row") [(str "r", natDecimal k)]] =
      [k] := by
    simp [rowStartNums, rowNumOf, attrValue, parseU32F_natDecimal k hk]
  rw [h1, rowStartNums_newCells]
  rfl

theorem rowStartNums_rowBlockOut (r : Nat) (hr : r < 2 ^ 32)
    (cs : List Nat) (m : Option (List (Nat × CellPatch))) :
    rowStartNums (rowBlockOut r cs m) = [r] := by
  rw [rowBlockOut.eq_def, rowStartNums_append, rowStartNums_append,
    rowStartNums_append]
  have h1 : rowStartNums [Ev.start (str "row") [(str "r", natDecimal r)]] =
      [r] := by
    simp [rowStartNums, rowNumOf, attrValue, parseU32F_natDecimal r hr]
  rw [h1, rowStartNums_passCells]
  have h3 : rowStartNums (match m with
      | some rowMap =>
        ((rowMap.filter (fun cp => !(cs.contains cp.1))).map
          (fun cp => writeNewCell (colRowToA1 cp.1 r) cp.2)).join
      | none => []) = [] := by
    rcases m with _ | rowMap
    · rfl
    · exact rowStartNums_newCells r _
  rw [h3]
  rfl

theorem rowStartNums_newRows (rp2 : List (Nat × List (Nat × CellPatch)))
    (hb : ∀ e ∈ rp2, e.1 < 2 ^ 32) :
    rowStartNums ((rp2.map (fun e => writeNewRow e.1 e.2)).join) =
      rp2.map Prod.fst := by
  induction rp2 with
  | nil => rfl
  | cons e t ih =>
    simp only [List.map_cons, List.join, List.flatten_cons,
      rowStartNums_append]
    rw [rowStartNums_writeNewRow e.1 (hb e (List.mem_cons_self _ _)) e.2]
    have := ih (fun e2 he2 => hb e2 (List.mem_cons_of_mem _ he2))
    simp only [List.join] at this
    rw [this]
    rfl

/-- The row numbers of the merged output, in emission order. -/
def mergeNums (rp : List (Nat × List (Nat × CellPatch))) :
    List (Nat × List Nat) → Nat → List Nat
  | [], B => (rp.filter (fun e => B < e.1)).map Prod.fst
  | (r, cs) :: rest, B =>
    (rp.filter (fun e => B < e.1 && e.1 < r)).map Prod.fst ++ [r] ++
    mergeNums rp rest r

theorem rowStartNums_mergeRowsOut (rp : List (Nat × List (Nat × CellPatch)))
    (hbp : ∀ e ∈ rp, e.1 < 2 ^ 32) :
    ∀ (src : List (Nat × List Nat)) (B : Nat),
    (∀ rc ∈ src, rc.1 < 2 ^ 32) →
    rowStartNums (mergeRowsOut rp src B) = mergeNums rp src B := by
  intro src
  induction src with
  | nil =>
    intro B _
    rw [mergeRowsOut, mergeNums]
    exact rowStartNums_newRows _
      (fun e he => hbp e (List.mem_of_mem_filter he))
  | cons rc rest ih =>
    intro B hbs
    obtain ⟨r, cs⟩ := rc
    rw [mergeRowsOut, mergeNums, rowStartNums_append, rowStartNums_append]
    rw [rowStartNums_newRows _ (fun e he => hbp e (List.mem_of_mem_filter he))]
    rw [rowStartNums_rowBlockOut r (hbs (r, cs) (List.mem_cons_self _ _)) cs]
    rw [ih r (fun rc2 h2 => hbs rc2 (List.mem_cons_of_mem _ h2))]

theorem mergeNums_gt (rp : List (Nat × List (Nat × CellPatch))) :
    ∀ (src : List (Nat × List Nat)) (B : Nat),
    (src.map Prod.fst).Pairwise (· < ·) →
    (∀ rc ∈ src, B < rc.1) →
    ∀ x ∈ mergeNums rp src B, B < x := by
  intro src
  induction src with
  | nil =>
    intro B _ _ x hx
    rw [mergeNums] at hx
    obtain ⟨e, he, rfl⟩ := List.mem_map.mp hx
    have := List.of_mem_filter he
    simpa using this
  | cons rc rest ih =>
    intro B hpw hb x hx
    obtain ⟨r, cs⟩ := rc
    have hbr : B < r := hb (r, cs) (List.mem_cons_self _ _)
    rw [mergeNums] at hx
    simp only [List.mem_append] at hx
    rcases hx with (hx | hx) | hx
    · obtain ⟨e, he, rfl⟩ := List.mem_map.mp hx
      have := List.of_mem_filter he
      simp only [Bool.and_eq_true, decide_eq_true_eq] at this
      omega
    · have hxr : x = r := by simpa using hx
      omega
    · simp only [List.map_cons, List.pairwise_cons] at hpw
      have := ih r hpw.2
        (fun rc2 h2 => hpw.1 rc2.1 (List.mem_map_of_mem Prod.fst h2)) x hx
      omega

theorem mergeNums_sorted (rp : List (Nat × List (Nat × CellPatch)))
    (hrp : (rp.map Prod.fst).Pairwise (· < ·)) :
    ∀ (src : List (Nat × List Nat)) (B : Nat),
    (src.map Prod.fst).Pairwise (· < ·) →
    (∀ rc ∈ src, B < rc.1) →
    (mergeNums rp src B).Pairwise (· < ·) := by
  intro src
  induction src with
  | nil =>
    intro B _ _
    rw [mergeNums]
    exact hrp.sublist ((List.filter_sublist rp).map Prod.fst)
  | cons rc rest ih =>
    intro B hpw hb
    obtain ⟨r, cs⟩ := rc
    rw [mergeNums]
    simp only [List.map_cons, List.pairwise_cons] at hpw
    have hbr : B < r := hb (r, cs) (List.mem_cons_self _ _)
    have hbrest : ∀ rc2 ∈ rest, r < rc2.1 :=
      fun rc2 h2 => hpw.1 rc2.1 (List.mem_map_of_mem Prod.fst h2)
    rw [List.append_assoc]
    apply List.pairwise_append.mpr
    refine ⟨hrp.sublist ((List.filter_sublist rp).map Prod.fst), ?_, ?_⟩
    · rw [List.singleton_append, List.pairwise_cons]
      exact ⟨fun y hy => mergeNums_gt rp rest r hpw.2 hbrest y hy,
        ih r hpw.2 hbrest⟩
    · intro a ha b hbm
      obtain ⟨e, he, rfl⟩ := List.mem_map.mp ha
      have hpe := List.of_mem_filter he
      simp only [Bool.and_eq_true, decide_eq_true_eq] at hpe
      rcases List.mem_cons.mp (by simpa using hbm) with rfl | hb2
      · omega
      · have := mergeNums_gt rp rest r hpw.2 hbrest b hb2
        omega

/-- C1: on every structured worksheet (ascending rows of self-closing
cells, row numbers in the `u32` domain) and every non-empty patch set with
1-based `u32` rows, `patch_worksheet` produces exactly the sorted merge
`sheetOut`: a patched row absent from the source is synthesized
immediately before the first source row with a larger number (or before
the `sheetData` closing tag), patched cells missing from a source row are
appended before that row's closing tag in ascending column order (the
per-row maps are ascending), and the emitted row numbers are strictly
ascending. -/
theorem C1_patch_ordering (src : List (Nat × List Nat))
    (patches : List CellPatch) (hne : patches ≠ [])
    (hsrc : (src.map Prod.fst).Pairwise (· < ·))
    (hsrcb : ∀ rc ∈ src, 1 ≤ rc.1 ∧ rc.1 < 2 ^ 32)
    (hpb : ∀ p ∈ patches, 1 ≤ p.row ∧ p.row < 2 ^ 32) :
    patchWorksheet (genSheet src) patches =
      sheetOut (groupPatches patches) src ∧
    (rowStartNums (patchWorksheet (genSheet src) patches)).Pairwise
      (· < ·) ∧
    (∀ e ∈ groupPatches patches, (e.2.map Prod.fst).Pairwise (· < ·)) := by
  have hchar := patchWorksheet_characterize src patches hne hsrc hsrcb
    (fun p hp => (hpb p hp).1)
  refine ⟨hchar, ?_, groupPatches_inner_sorted patches⟩
  rw [hchar, sheetOut]
  rw [rowStartNums_append, rowStartNums_append]
  have hrp32 : ∀ e ∈ groupPatches patches, e.1 < 2 ^ 32 := by
    intro e he
    obtain ⟨p, hp, hpr⟩ := groupPatches_keys patches e.1
      (List.mem_map_of_mem Prod.fst he)
    rw [← hpr]
    exact (hpb p hp).2
  rw [rowStartNums_mergeRowsOut _ hrp32 src 0
    (fun rc h => (hsrcb rc h).2)]
  have h1 : rowStartNums [Ev.start (str "sheetData") []] = [] := rfl
  have h2 : rowStartNums [Ev.endTag (str "sheetData")] = [] := rfl
  rw [h1, h2]
  simp only [List.nil_append, List.append_nil]
  exact mergeNums_sorted _ (groupPatches_sorted patches) src 0 hsrc
    (fun rc h => (hsrcb rc h).1)

/-- The claim's example source: rows 1 and 3 only. -/
def c1Src : List (Nat × List Nat) := [(1, [1]), (3, [1])]

/-- The claim's example patch: a string patch at A2. -/
def c1Patches : List CellPatch :=
  [⟨2, 1, some (.string (str "x")), none⟩]

theorem C1_patch_ordering_witness :
    (c1Patches ≠ [] ∧
     (c1Src.map Prod.fst).Pairwise (· < ·) ∧
     (∀ rc ∈ c1Src, 1 ≤ rc.1 ∧ rc.1 < 2 ^ 32) ∧
     (∀ p ∈ c1Patches, 1 ≤ p.row ∧ p.row < 2 ^ 32)) ∧
    (rowStartNums (patchWorksheet (genSheet c1Src) c1Patches)).Pairwise
      (· < ·) :=
  ⟨⟨by decide, by decide, by decide, by decide⟩,
   (C1_patch_ordering c1Src c1Patches (by decide) (by decide) (by decide)
     (by decide)).2.1⟩

example :
    rowStartNums (patchWorksheet (genSheet c1Src) c1Patches) =
      [1, 2, 3] := by decide

-- ---------------------------------------------------------------------------
-- Cell-level behavior: value patches replace, style-only patches keep
-- children
-- ---------------------------------------------------------------------------

/-- An event that can occur strictly inside a `<c>` element: any tag other
than `c`, `row` and `sheetData`, or character data. -/
def cellChildEv : Ev → Bool
  | .start tag _ => tag ≠ str "c" && tag ≠ str "row" && tag ≠ str "sheetData"
  | .empty tag _ => tag ≠ str "c" && tag ≠ str "row" && tag ≠ str "sheetData"
  | .endTag tag => tag ≠ str "c" && tag ≠ str "row" && tag ≠ str "sheetData"
  | .text _ => true

theorem pwStep_skip_child (rp : List (Nat × List (Nat × CellPatch)))
    (st : PwState) (ev : Ev) (hskip : st.skip = true)
    (hc : cellChildEv ev = true) : pwStep rp st ev = (st, []) := by
  rcases ev with ⟨tag, attrs⟩ | ⟨tag, attrs⟩ | tag | s
  · simp only [cellChildEv, Bool.and_eq_true, decide_eq_true_eq] at hc
    obtain ⟨⟨h1, h2⟩, h3⟩ := hc
    rw [pwStep, if_neg h3, if_neg (by simp [h2]), if_neg (by simp [h1]),
      hskip]
    rfl
  · simp only [cellChildEv, Bool.and_eq_true, decide_eq_true_eq] at hc
    obtain ⟨⟨h1, h2⟩, h3⟩ := hc
    rw [pwStep, if_neg (by simp [h2]), if_neg (by simp [h1]), if_neg h3,
      hskip]
    rfl
  · simp only [cellChildEv, Bool.and_eq_true, decide_eq_true_eq] at hc
    obtain ⟨⟨h1, h2⟩, h3⟩ := hc
    rw [pwStep, if_neg (by simp [h1]), if_neg (by simp [h2]), if_neg h3,
      hskip]
    rfl
  · rw [pwStep, hskip]
    rfl

theorem pwStep_pass_child (rp : List (Nat × List (Nat × CellPatch)))
    (st : PwState) (ev : Ev) (hskip : st.skip = false)
    (hc : cellChildEv ev = true) : pwStep rp st ev = (st, [ev]) := by
  rcases ev with ⟨tag, attrs⟩ | ⟨tag, attrs⟩ | tag | s
  · simp only [cellChildEv, Bool.and_eq_true, decide_eq_true_eq] at hc
    obtain ⟨⟨h1, h2⟩, h3⟩ := hc
    rw [pwStep, if_neg h3, if_neg (by simp [h2]), if_neg (by simp [h1]),
      hskip]
    rfl
  · simp only [cellChildEv, Bool.and_eq_true, decide_eq_true_eq] at hc
    obtain ⟨⟨h1, h2⟩, h3⟩ := hc
    rw [pwStep, if_neg (by simp [h2]), if_neg (by simp [h1]), if_neg h3,
      hskip]
    rfl
  · simp only [cellChildEv, Bool.and_eq_true, decide_eq_true_eq] at hc
    obtain ⟨⟨h1, h2⟩, h3⟩ := hc
    rw [pwStep, if_neg (by simp [h1]), if_neg (by simp [h2]), if_neg h3,
      hskip]
    rfl
  · rw [pwStep, hskip]
    rfl

/-- While `skip_until_cell_end` is set, the children of the replaced cell
are consumed without being written. -/
theorem pwRun_skip (rp : List (Nat × List (Nat × CellPatch)))
    (st : PwState) (hskip : st.skip = true) :
    ∀ inner : List Ev, inner.all cellChildEv = true →
    pwRun rp st inner = (st, []) := by
  intro inner
  induction inner with
  | nil => intro _; rfl
  | cons e t ih =>
    intro hall
    simp only [List.all_cons, Bool.and_eq_true] at hall
    simp [pwRun, pwStep_skip_child rp st e hskip hall.1, ih hall.2]

/-- Without the skip flag, cell children pass through unchanged. -/
theorem pwRun_pass_children (rp : List (Nat × List (Nat × CellPatch)))
    (st : PwState) (hskip : st.skip = false) :
    ∀ inner : List Ev, inner.all cellChildEv = true →
    pwRun rp st inner = (st, inner) := by
  intro inner
  induction inner with
  | nil => intro _; rfl
  | cons e t ih =>
    intro hall
    simp only [List.all_cons, Bool.and_eq_true] at hall
    simp [pwRun, pwStep_pass_child rp st e hskip hall.1, ih hall.2]

theorem pwStep_end_c_skip (rp : List (Nat × List (Nat × CellPatch)))
    (st : PwState) (hskip : st.skip = true) :
    pwStep rp st (.endTag (str "c")) = ({ st with skip := false }, []) := by
  rw [pwStep, hskip]
  rfl

theorem pwStep_end_c_noskip (rp : List (Nat × List (Nat × CellPatch)))
    (cr : Option Nat) (cols S : List Nat) :
    pwStep rp ⟨true, cr, cols, S, false⟩ (.endTag (str "c")) =
      (⟨true, cr, cols, S, false⟩, [.endTag (str "c")]) := by
  simp +decide [pwStep]

theorem pwStep_value_cell_start (rp : List (Nat × List (Nat × CellPatch)))
    (r c : Nat) (cols S : List Nat) (attrs : List (Str × Str)) (ref : Str)
    (rowMap : List (Nat × CellPatch)) (patch : CellPatch) (cv : CellValue)
    (href : attrValue attrs (str "r") = some ref)
    (hcol : (parseCellRef ref).2 = c)
    (hm : nlookup rp r = some rowMap)
    (hp : nlookup rowMap c = some patch)
    (hv : patch.value = some cv) :
    pwStep rp ⟨true, some r, cols, S, false⟩ (.start (str "c") attrs) =
      (⟨true, some r, cols ++ [c], S, true⟩,
       writePatchedCell ref attrs patch) := by
  simp +decide [pwStep, href, hcol, hm, hp, hv]

theorem pwStep_style_only_cell_start
    (rp : List (Nat × List (Nat × CellPatch)))
    (r c : Nat) (cols S : List Nat) (attrs : List (Str × Str)) (ref : Str)
    (rowMap : List (Nat × CellPatch)) (patch : CellPatch) (si : Nat)
    (href : attrValue attrs (str "r") = some ref)
    (hcol : (parseCellRef ref).2 = c)
    (hm : nlookup rp r = some rowMap)
    (hp : nlookup rowMap c = some patch)
    (hvn : patch.value = none) (hsi : patch.styleIndex = some si) :
    pwStep rp ⟨true, some r, cols, S, false⟩ (.start (str "c") attrs) =
      (⟨true, some r, cols ++ [c], S, false⟩,
       writeStyleOnlyCellStart ref attrs patch) := by
  simp +decide [pwStep, href, hcol, hm, hp, hvn, hsi]

/-- C2: a Formula patch strips one leading `=` at queue time
(`strip_prefix('=')`), and `write_patched_cell` emits the cell as an `<f>`
element holding exactly the stored expression with no `<v>` cached-value
child; when the patched cell existed in the source with children (for
example a `<v>` block), those children are consumed by the skip logic and
only the replacement cell is written. -/
theorem C2_formula_no_cached_value (sv : Str) (ref : Str)
    (attrs : List (Str × Str)) (patch : CellPatch)
    (rp : List (Nat × List (Nat × CellPatch))) (r c : Nat)
    (cols S : List Nat) (inner : List Ev)
    (rowMap : List (Nat × CellPatch))
    (hv : patch.value = some (.formula (stripLeadingEq sv)))
    (href : attrValue attrs (str "r") = some ref)
    (hcol : (parseCellRef ref).2 = c)
    (hm : nlookup rp r = some rowMap)
    (hp : nlookup rowMap c = some patch)
    (hinner : inner.all cellChildEv = true) :
    queueValueConvert ⟨some (.pyStr (str "formula")), some (.pyStr sv)⟩ =
      .ok (.formula (stripLeadingEq sv)) ∧
    (∀ t, sv = '=' :: t → stripLeadingEq sv = t) ∧
    writePatchedCell ref attrs patch =
      [.start (str "c") (baseCellAttrs ref patch attrs),
       .start (str "f") [], .text (stripLeadingEq sv),
       .endTag (str "f"), .endTag (str "c")] ∧
    (∀ a, Ev.start (str "v") a ∉ writePatchedCell ref attrs patch ∧
          Ev.empty (str "v") a ∉ writePatchedCell ref attrs patch) ∧
    pwRun rp ⟨true, some r, cols, S, false⟩
      (.start (str "c") attrs :: (inner ++ [.endTag (str "c")])) =
      (⟨true, some r, cols ++ [c], S, false⟩,
       writePatchedCell ref attrs patch) := by
  have hwpc : writePatchedCell ref attrs patch =
      [.start (str "c") (baseCellAttrs ref patch attrs),
       .start (str "f") [], .text (stripLeadingEq sv),
       .endTag (str "f"), .endTag (str "c")] := by
    rw [writePatchedCell, hv]
  refine ⟨rfl, ?_, hwpc, ?_, ?_⟩
  · intro t ht
    rw [ht]
    rfl
  · intro a
    rw [hwpc]
    constructor
    · intro hmem
      simp +decide [str] at hmem
    · intro hmem
      simp +decide [str] at hmem
  · rw [show (Ev.start (str "c") attrs :: (inner ++ [Ev.endTag (str "c")]))
        = Ev.start (str "c") attrs :: (inner ++ [Ev.endTag (str "c")])
        from rfl]
    simp only [pwRun,
      pwStep_value_cell_start rp r c cols S attrs ref rowMap patch _
        href hcol hm hp hv,
      pwRun_append]
    rw [pwRun_skip rp ⟨true, some r, cols ++ [c], S, true⟩ rfl inner
      hinner]
    simp only [pwRun,
      pwStep_end_c_skip rp ⟨true, some r, cols ++ [c], S, true⟩ rfl]
    simp

/-- A source cell element `<c r="A1" s="3" t="n">` with a cached value
child, exercising the claims' style-only and replacement paths. -/
def c2Patch : CellPatch :=
  ⟨1, 1, some (.formula (str "SUM(B1:B10)")), none⟩

theorem C2_formula_no_cached_value_witness :
    (c2Patch.value =
       some (.formula (stripLeadingEq (str "=SUM(B1:B10)"))) ∧
     attrValue [(str "r", str "A1")] (str "r") = some (str "A1") ∧
     (parseCellRef (str "A1")).2 = 1 ∧
     nlookup [(1, [(1, c2Patch)])] 1 = some [(1, c2Patch)] ∧
     nlookup [(1, c2Patch)] 1 = some c2Patch ∧
     ([Ev.start (str "v") [], Ev.text (str "10"),
       Ev.endTag (str "v")].all cellChildEv = true)) ∧
    pwRun [(1, [(1, c2Patch)])] ⟨true, some 1, [], [], false⟩
      (.start (str "c") [(str "r", str "A1")] ::
        ([Ev.start (str "v") [], Ev.text (str "10"),
          Ev.endTag (str "v")] ++ [.endTag (str "c")])) =
      (⟨true, some 1, [] ++ [1], [], false⟩,
       writePatchedCell (str "A1") [(str "r", str "A1")] c2Patch) :=
  ⟨⟨by decide, by decide, by decide, by decide, by decide, by decide⟩,
   (C2_formula_no_cached_value (str "=SUM(B1:B10)") (str "A1")
     [(str "r", str "A1")] c2Patch [(1, [(1, c2Patch)])] 1 1 [] []
     [Ev.start (str "v") [], Ev.text (str "10"), Ev.endTag (str "v")]
     [(1, c2Patch)] (by decide) (by decide) (by decide) (by decide)
     (by decide) (by decide)).2.2.2.2⟩

/-- C3 (corrected): a style-only patch on an existing cell rewrites only
the opening tag — keeping every original attribute except `r` and `s`,
re-emitting the reference, and emitting the style attribute only when the
resolved index is positive — while the skip flag stays clear, so every
original child passes through unchanged and the closing tag is kept. -/
theorem C3_style_only_rewrites_open_tag (ref : Str)
    (attrs : List (Str × Str)) (patch : CellPatch) (si : Nat)
    (rp : List (Nat × List (Nat × CellPatch))) (r c : Nat)
    (cols S : List Nat) (inner : List Ev)
    (rowMap : List (Nat × CellPatch))
    (hvn : patch.value = none) (hsi : patch.styleIndex = some si)
    (href : attrValue attrs (str "r") = some ref)
    (hcol : (parseCellRef ref).2 = c)
    (hm : nlookup rp r = some rowMap)
    (hp : nlookup rowMap c = some patch)
    (hinner : inner.all cellChildEv = true) :
    writeStyleOnlyCellStart ref attrs patch =
      [.start (str "c")
        (attrs.filter (fun a => a.1 ≠ str "r" && a.1 ≠ str "s") ++
         [(str "r", ref)] ++
         (if 0 < si then [(str "s", natDecimal si)] else []))] ∧
    pwRun rp ⟨true, some r, cols, S, false⟩
      (.start (str "c") attrs :: (inner ++ [.endTag (str "c")])) =
      (⟨true, some r, cols ++ [c], S, false⟩,
       .start (str "c")
         (attrs.filter (fun a => a.1 ≠ str "r" && a.1 ≠ str "s") ++
          [(str "r", ref)] ++
          (if 0 < si then [(str "s", natDecimal si)] else [])) ::
       (inner ++ [.endTag (str "c")])) := by
  have hso : writeStyleOnlyCellStart ref attrs patch =
      [.start (str "c")
        (attrs.filter (fun a => a.1 ≠ str "r" && a.1 ≠ str "s") ++
         [(str "r", ref)] ++
         (if 0 < si then [(str "s", natDecimal si)] else []))] := by
    rw [writeStyleOnlyCellStart, styleOf, hsi]
  refine ⟨hso, ?_⟩
  simp only [pwRun,
    pwStep_style_only_cell_start rp r c cols S attrs ref rowMap patch si
      href hcol hm hp hvn hsi,
    pwRun_append]
  rw [pwRun_pass_children rp ⟨true, some r, cols ++ [c], S, false⟩ rfl
    inner hinner]
  simp only [pwRun, pwStep_end_c_noskip]
  rw [hso]
  simp

/-- A style-only patch setting style index 3. -/
def c3Patch : CellPatch := ⟨1, 1, none, some 3⟩

theorem C3_style_only_rewrites_open_tag_witness :
    (c3Patch.value = none ∧ c3Patch.styleIndex = some 3 ∧
     attrValue [(str "r", str "A1"), (str "s", str "1"),
       (str "t", str "n")] (str "r") = some (str "A1") ∧
     (parseCellRef (str "A1")).2 = 1 ∧
     nlookup [(1, [(1, c3Patch)])] 1 = some [(1, c3Patch)] ∧
     nlookup [(1, c3Patch)] 1 = some c3Patch ∧
     ([Ev.start (str "v") [], Ev.text (str "42"),
       Ev.endTag (str "v")].all cellChildEv = true)) ∧
    pwRun [(1, [(1, c3Patch)])] ⟨true, some 1, [], [], false⟩
      (.start (str "c") [(str "r", str "A1"), (str "s", str "1"),
         (str "t", str "n")] ::
        ([Ev.start (str "v") [], Ev.text (str "42"),
          Ev.endTag (str "v")] ++ [.endTag (str "c")])) =
      (⟨true, some 1, [] ++ [1], [], false⟩,
       .start (str "c")
         ([(str "r", str "A1"), (str "s", str "1"),
           (str "t", str "n")].filter
             (fun a => a.1 ≠ str "r" && a.1 ≠ str "s") ++
          [(str "r", str "A1")] ++
          (if 0 < 3 then [(str "s", natDecimal 3)] else [])) ::
       ([Ev.start (str "v") [], Ev.text (str "42"),
         Ev.endTag (str "v")] ++ [.endTag (str "c")])) :=
  ⟨⟨by decide, by decide, by decide, by decide, by decide, by decide,
    by decide⟩,
   (C3_style_only_rewrites_open_tag (str "A1")
     [(str "r", str "A1"), (str "s", str "1"), (str "t", str "n")]
     c3Patch 3 [(1, [(1, c3Patch)])] 1 1 [] []
     [Ev.start (str "v") [], Ev.text (str "42"), Ev.endTag (str "v")]
     [(1, c3Patch)] (by decide) (by decide) (by decide) (by decide)
     (by decide) (by decide) (by decide)).2⟩

/-- C3 counterexample to the claim as stated: a style-only patch whose new
index is 0 on a cell that carried `s="3"` emits an opening tag with no
style attribute at all — the new index is not set (`if s > 0`,
sheet_patcher.rs:289-293), so "setting the new style index" fails for
index 0. -/
theorem C3_counterexample_style_zero :
    writeStyleOnlyCellStart (str "A1")
      [(str "r", str "A1"), (str "s", str "3")] ⟨1, 1, none, some 0⟩ =
      [.start (str "c") [(str "r", str "A1")]] := by decide

-- ---------------------------------------------------------------------------
-- Serialization of the written events (the writer is external to src/)
-- ---------------------------------------------------------------------------

/-- Modelled from the spec: attribute serialization of the event writer
used by the save path (` key="value"` per attribute). -/
def serializeAttrs (attrs : List (Str × Str)) : Str :=
  (attrs.map (fun a => str " " ++ a.1 ++ str "=\"" ++ a.2 ++ str "\"")).join

/-- Modelled from the spec: the event writer of the save path serializes
text events literally, without XML entity-escaping (spec §9: "the
reference behavior writes literal value text into XML without
entity-escaping"); the writer itself is the external quick-xml crate,
absent from the sources. -/
def serializeEv : Ev → Str
  | .start tag attrs => str "<" ++ tag ++ serializeAttrs attrs ++ str ">"
  | .empty tag attrs => str "<" ++ tag ++ serializeAttrs attrs ++ str "/>"
  | .endTag tag => str "</" ++ tag ++ str ">"
  | .text s => s

/-- Modelled from the spec: the serialized output of the written events. -/
def serializeEvents (evs : List Ev) : Str :=
  (evs.map serializeEv).join

/-- C9: a String value patch is written into the `<v>` element literally,
without entity-escaping: the text event carries the string unchanged, and
the serialized cell contains the raw string — with any `&`, `<`, `>` in
it — as a verbatim substring. -/
theorem C9_string_value_unescaped (ref : Str) (attrs : List (Str × Str))
    (patch : CellPatch) (s : Str)
    (hv : patch.value = some (.string s)) :
    serializeEv (.text s) = s ∧
    writePatchedCell ref attrs patch =
      [.start (str "c") (baseCellAttrs ref patch attrs ++
         [(str "t", str "str")]),
       .start (str "v") [], .text s, .endTag (str "v"),
       .endTag (str "c")] ∧
    ∃ u w, serializeEvents (writePatchedCell ref attrs patch) =
      u ++ s ++ w := by
  have hwpc : writePatchedCell ref attrs patch =
      [.start (str "c") (baseCellAttrs ref patch attrs ++
         [(str "t", str "str")]),
       .start (str "v") [], .text s, .endTag (str "v"),
       .endTag (str "c")] := by
    rw [writePatchedCell, hv]
  refine ⟨?_, hwpc, ?_⟩
  · rfl
  rw [hwpc]
  refine ⟨serializeEv (.start (str "c") (baseCellAttrs ref patch attrs ++
      [(str "t", str "str")])) ++ serializeEv (.start (str "v") []),
    serializeEv (.endTag (str "v")) ++ serializeEv (.endTag (str "c")),
    ?_⟩
  simp [serializeEvents, serializeEv, List.append_assoc]

/-- A string patch whose value holds `&`, `<` and `>`. -/
def c9Patch : CellPatch := ⟨1, 1, some (.string (str "a<b&c>d")), none⟩

theorem C9_string_value_unescaped_witness :
    c9Patch.value = some (.string (str "a<b&c>d")) ∧
    (∃ u w, serializeEvents
        (writePatchedCell (str "A1") [] c9Patch) =
      u ++ str "a<b&c>d" ++ w) :=
  ⟨by decide,
   (C9_string_value_unescaped (str "A1") [] c9Patch (str "a<b&c>d")
     (by decide)).2.2⟩

example :
    serializeEvents (writePatchedCell (str "A1") [] c9Patch) =
      str "<c r=\"A1\" t=\"str\"><v>a<b&c>d</v></c>" := by decide


end ExcelBench
